import Mathlib

/-!
# go-esb: routing, conversion and orchestration core

A shallow embedding of the integration bus of `go-esb`
(`internal/converter`, `internal/adapter`, `internal/service`) and the
properties of its specification.

Conventions of the embedding.

* A Go `string` and a Go `[]byte` are both a Lean `String`.
* A Go `error` is its message; `(T, error)` is `Except String T`.
* A Go map is the list of its entries in the order one `range` statement
  visits them.  The keys of a Go map are distinct, see `JSON.nodupKeys`.
* A Go panic is `Outcome.panic`; no `if err != nil` intercepts it.
* Calls that leave the process (the configuration store, the HTTP client,
  the AMQP channel, the clock) are fields of `Env`.  Each of them receives
  the list of calls made so far, so that its answer may depend on everything
  that happened before, and the call is appended to that list.
* Functions of the Go standard library are fields of `StdLib`.
* `log.Printf` output is not part of the model.
-/

set_option autoImplicit false

namespace GoEsb

deriving instance DecidableEq for Except

/-! ## Go strings -/

namespace strings

/-- Go `strings.HasPrefix`. -/
def HasPrefix (s pre : String) : Bool := pre.data.isPrefixOf s.data

/-- Go `strings.HasSuffix`. -/
def HasSuffix (s suf : String) : Bool := suf.data.isSuffixOf s.data

/-- Splits a text at the first occurrence of a non-empty separator. -/
def cut (sep : List Char) : List Char → Option (List Char × List Char)
  | [] => none
  | c :: cs =>
    if sep.isPrefixOf (c :: cs) then some ([], (c :: cs).drop sep.length)
    else match cut sep cs with
      | none => none
      | some (a, b) => some (c :: a, b)

/-- Go `strings.Contains`. -/
def Contains (s sub : String) : Bool :=
  sub.data.isEmpty || (cut sub.data s.data).isSome

/-- Go `strings.SplitN` for a non-empty separator and a count `n ≥ 0`. -/
def SplitN (s sep : String) : Nat → List String
  | 0 => []
  | 1 => [s]
  | n + 2 =>
    match cut sep.data s.data with
    | none => [s]
    | some (a, b) => String.mk a :: SplitN (String.mk b) sep (n + 1)

/-- Go `strings.TrimSuffix`. -/
def TrimSuffix (s suf : String) : String :=
  if HasSuffix s suf then String.mk (s.data.take (s.data.length - suf.data.length)) else s

/-- Go `strings.Join`. -/
def Join : List String → String → String
  | [], _ => ""
  | [a], _ => a
  | a :: b :: rest, sep => a ++ sep ++ Join (b :: rest) sep

/-- The scan of `strings.ReplaceAll` for a non-empty `old`: `skip` counts the
characters of a match that are still to be passed over. -/
def replaceFrom (old new : List Char) : List Char → Nat → List Char
  | [], _ => []
  | _ :: rest, skip + 1 => replaceFrom old new rest skip
  | c :: rest, 0 =>
    if old.isPrefixOf (c :: rest) then new ++ replaceFrom old new rest (old.length - 1)
    else c :: replaceFrom old new rest 0

/-- Go `strings.ReplaceAll`: the non-overlapping occurrences of `old`, from the
left; an empty `old` matches before every character and at the end. -/
def ReplaceAll (s old new : String) : String :=
  if old.data.isEmpty then String.mk (new.data ++ s.data.flatMap (fun c => c :: new.data))
  else String.mk (replaceFrom old.data new.data s.data 0)

end strings

/-! ## Data model (`internal/model/model.go`) -/

/-- A `uuid.UUID`; `uuid.Nil` is `0`. -/
abbrev UUID := Nat

/-- The zero identifier `uuid.Nil`. -/
def UUID.Nil : UUID := 0

structure System where
  Ref : UUID
  Name : String
deriving DecidableEq, Repr

structure Route where
  Ref : UUID
  Name : String
  Path : String
  System : UUID
  Method : String
deriving DecidableEq, Repr

structure ConnectionSetting where
  Ref : UUID
  Name : String
  System : UUID
  Path : String
  Port : Int
  AuthRef : UUID
deriving DecidableEq, Repr

structure ConnectionAuthentication where
  Ref : UUID
  Name : String
  System : UUID
  AuthType : String
  Username : String
  Password : String
  Token : String
deriving DecidableEq, Repr

structure ThreadGroup where
  Ref : UUID
  Name : String
  Protocol : String
  Parent : Option UUID
  MessageBroker : String
deriving DecidableEq, Repr

structure Thread where
  Ref : UUID
  Name : String
  Group : UUID
  MessageConvertType : String
deriving DecidableEq, Repr

structure ThreadRoute where
  Thread : UUID
  Direction : String
  Route : UUID
  FileFormat : String
  Object : UUID
  Routine : UUID
deriving DecidableEq, Repr

def DirectionIn : String := "In"
def DirectionOut : String := "Out"
def ProtocolTCP : String := "TCP"
def ProtocolREST : String := "REST"
def ProtocolSOAP : String := "SOAP"
def ProtocolAMQP : String := "AMQP"
def AuthBasic : String := "Basic"
def AuthBearerToken : String := "BearerToken"

/-! ## Endpoint construction (`messageService.buildEndpoint`) -/

/-- Go `fmt.Sprintf("%d", n)` for an `int`. -/
def sprintD (n : Int) : String := toString n

/-- The port-injection block of `buildEndpoint`: the new value of `basePath`. -/
def injectPort (basePath : String) (port : Int) : String :=
  if port > 0 ∧ port ≠ 80 ∧ port ≠ 443 then
    if !strings.Contains basePath ":" then
      if strings.HasPrefix basePath "https://" then
        if port ≠ 443 then
          match strings.SplitN basePath "://" 2 with
          | [p0, p1] => p0 ++ "://" ++ p1 ++ ":" ++ sprintD port
          | _ => basePath
        else basePath
      else if strings.HasPrefix basePath "http://" then
        if port ≠ 80 then
          match strings.SplitN basePath "://" 2 with
          | [p0, p1] => p0 ++ "://" ++ p1 ++ ":" ++ sprintD port
          | _ => basePath
        else basePath
      else basePath
    else basePath
  else basePath

/-- The method `messageService.buildEndpoint`. -/
def buildEndpoint (connSettings : ConnectionSetting) (route : Route) : String :=
  let basePath := if connSettings.Path = "" then route.Path else connSettings.Path
  let basePath := injectPort basePath connSettings.Port
  if !strings.HasPrefix route.Path "http" && !strings.HasSuffix basePath route.Path then
    strings.TrimSuffix basePath "/" ++ route.Path
  else basePath

/-! ## Values and Go maps -/

/-- A Go `map[string]T`: its entries, keys distinct, in the order of a `range`. -/
abbrev GoMap (α : Type) := List (String × α)

namespace GoMap

variable {α : Type}

/-- The two-value index expression `v, ok := m[k]`. -/
def get? (m : GoMap α) (k : String) : Option α :=
  match m with
  | [] => none
  | (k', v) :: rest => if k' = k then some v else get? rest k

/-- The assignment `m[k] = v`. -/
def set (m : GoMap α) (k : String) (v : α) : GoMap α :=
  match m with
  | [] => [(k, v)]
  | (k', v') :: rest => if k' = k then (k, v) :: rest else (k', v') :: set rest k v

/-- The keys of a map. -/
def keys (m : GoMap α) : List String := m.map Prod.fst

end GoMap

/-- The index expression `m[k]` of a `map[string]string`: the empty string when absent. -/
def GoMap.getStr (m : GoMap String) (k : String) : String := (m.get? k).getD ""

/-- What `json.Unmarshal` stores in an `interface{}`: `nil`, `bool`, `float64`,
`string`, `[]interface{}` or `map[string]interface{}`. A `float64` that JSON
can denote is a rational number. -/
inductive JSON where
  | null
  | bool (b : Bool)
  | num (x : ℚ)
  | str (s : String)
  | arr (items : List JSON)
  | obj (fields : List (String × JSON))

/-- The field `xml.Attr`, with the local part of its name. -/
structure XMLAttr where
  Local : String
  Value : String
deriving DecidableEq, Repr

/-- The struct `XMLNode` of `json_xml.go`; `XMLName` is the local name. -/
inductive XMLNode where
  | mk (XMLName : String) (Content : String) (Attrs : List XMLAttr) (Child : List XMLNode)

/-- The result of one HTTP exchange: `client.Do` failed, or it answered with a
status and a body that `io.ReadAll` read (`ok`) or failed to read (`error`). -/
inductive HTTPResult where
  | failed (err : String)
  | response (StatusCode : Int) (body : Except String String)
deriving DecidableEq

/-! ## Standard library -/

/-- The functions of the Go standard library that the code calls. -/
structure StdLib where
  /-- Go `json.Unmarshal(data, &v)` with `v interface{}`. -/
  jsonUnmarshal : String → Except String JSON
  /-- Go `json.Unmarshal(data, &m)` with `m map[string]interface{}`. -/
  jsonUnmarshalMap : String → Except String (GoMap JSON)
  /-- Go `json.Marshal`. -/
  jsonMarshal : JSON → Except String String
  /-- Go `json.MarshalIndent(v, "", "  ")`. -/
  jsonMarshalIndent : JSON → Except String String
  /-- Go `xml.MarshalIndent(v, "", "  ")` of a value built from maps. -/
  xmlMarshalIndent : JSON → Except String String
  /-- Go `xml.Unmarshal(data, &node)` with `node XMLNode`. -/
  xmlUnmarshal : String → Except String XMLNode
  /-- The text that `csv.Writer.Write` appends for one record. -/
  csvWrite : List String → Except String String
  /-- Go `csv.Reader.ReadAll`. -/
  csvReadAll : String → Except String (List (List String))
  /-- Go `fmt.Sprintf("%v", x)` of a `float64`. -/
  fmtFloat : ℚ → String
  /-- Go `x / y` on `float64`. -/
  float64Div : ℚ → ℚ → ℚ
  /-- Go `http.NewRequest(method, url, body)`: the error, if the request is refused. -/
  httpNewRequest : String → String → Except String Unit
  /-- Go `base64.StdEncoding.EncodeToString`. -/
  base64 : String → String
  /-- Go `textproto.CanonicalMIMEHeaderKey`. -/
  canonicalHeaderKey : String → String
  /-- Go `xml.MarshalIndent` of a `SOAPEnvelope` around this body content. -/
  xmlMarshalEnvelope : String → Except String String
  /-- Go `xml.Unmarshal` into a `SOAPEnvelope`: the content of its body. -/
  xmlUnmarshalEnvelope : String → Except String String
  /-- Go `strings.TrimSpace`. -/
  trimSpace : String → String

/-- Go `fmt.Sprintf("%v", v)` for the scalar values of a decoded JSON text. -/
def sprintV (lib : StdLib) : JSON → String
  | .null => "<nil>"
  | .bool true => "true"
  | .bool false => "false"
  | .num x => lib.fmtFloat x
  | .str s => s
  | _ => ""

/-! ## Format converter (`internal/converter`) -/

/-- The variables `rows`, `headers` and `headerSet` that `flattenJSON` updates;
`headerSet` lists the keys that are set to `true`. -/
structure FlatState where
  rows : List (List String)
  headers : List String
  headerSet : List String
deriving DecidableEq, Repr

/-- The statement `if !headerSet[pathKey] { headers = append(...); headerSet[pathKey] = true }`. -/
def addHeader (st : FlatState) (pathKey : String) : FlatState :=
  if st.headerSet.contains pathKey then st
  else { st with headers := st.headers ++ [pathKey], headerSet := st.headerSet ++ [pathKey] }

/-- The type test `value.(type) == map[string]interface{}`. -/
def JSON.isObj : JSON → Bool
  | .obj _ => true
  | _ => false

/-- The type test `value.(type) == []interface{}`. -/
def JSON.isArr : JSON → Bool
  | .arr _ => true
  | _ => false

/-- The default case of `flattenJSON`: one row for a scalar. -/
def flattenScalar (lib : StdLib) (v : JSON) (st : FlatState) (path : List String) : FlatState :=
  let pathKey := strings.Join path "."
  let st := addHeader st pathKey
  { st with rows := st.rows ++ [st.headers.map (fun h => if h = pathKey then sprintV lib v else "")] }

/-- The end of the object case of `flattenJSON`: `if len(rowMap) > 0 { ... }`. -/
def appendRow (st : FlatState) (rowMap : GoMap String) : FlatState :=
  if rowMap.length > 0 then
    { st with rows := st.rows ++ [st.headers.map (fun h => GoMap.getStr rowMap h)] }
  else st

mutual
/-- The function `flattenJSON`, on the state it updates through pointers. -/
def flattenJSON (lib : StdLib) : JSON → FlatState → List String → FlatState
  | .obj v, st, path =>
    match flattenFields lib v st path [] with
    | (st, rowMap) => appendRow st rowMap
  | .arr v, st, path => flattenItems lib v st path
  | .null, st, path => flattenScalar lib .null st path
  | .bool b, st, path => flattenScalar lib (.bool b) st path
  | .num x, st, path => flattenScalar lib (.num x) st path
  | .str s, st, path => flattenScalar lib (.str s) st path
/-- The loop `for key, value := range v` of the object case, on the state and
`rowMap`; its body is the type switch on `value`. -/
def flattenFields (lib : StdLib) :
    List (String × JSON) → FlatState → List String → GoMap String → FlatState × GoMap String
  | [], st, _, rowMap => (st, rowMap)
  | (key, value) :: rest, st, path, rowMap =>
    let currentPath := path ++ [key]
    let pathKey := strings.Join currentPath "."
    if value.isObj then
      flattenFields lib rest (flattenJSON lib value st currentPath) path rowMap
    else if value.isArr then
      flattenFields lib rest (flattenRange lib value st currentPath) path rowMap
    else
      flattenFields lib rest (addHeader st pathKey) path (rowMap.set pathKey (sprintV lib value))
/-- The case `[]interface{}` of the type switch: `for i, item := range val`. -/
def flattenRange (lib : StdLib) : JSON → FlatState → List String → FlatState
  | .arr val, st, currentPath => flattenIndexed lib val 0 st currentPath
  | _, st, _ => st
/-- The loop `for i, item := range val`, from the index `i` on. -/
def flattenIndexed (lib : StdLib) : List JSON → Nat → FlatState → List String → FlatState
  | [], _, st, _ => st
  | item :: rest, i, st, currentPath =>
    flattenIndexed lib rest (i + 1)
      (flattenJSON lib item st (currentPath ++ [toString i])) currentPath
/-- The loop `for _, item := range v` of the array case. -/
def flattenItems (lib : StdLib) : List JSON → FlatState → List String → FlatState
  | [], st, _ => st
  | item :: rest, st, path => flattenItems lib rest (flattenJSON lib item st path) path
end

/-- The padding loop of `JSONToCSV`: `for len(rows[i]) < maxCols { append "" }`. -/
def padRow (maxCols : Nat) (row : List String) : List String :=
  row ++ List.replicate (maxCols - row.length) ""

/-- Successive `writer.Write` calls on one buffer, stopping at the first error. -/
def writeRecords (lib : StdLib) : List (List String) → String → Except String String
  | [], buf => .ok buf
  | record :: rest, buf =>
    match lib.csvWrite record with
    | .error err => .error err
    | .ok text => writeRecords lib rest (buf ++ text)

/-- The state of `rows`, `headers`, `headerSet` after the call of `flattenJSON`
in `JSONToCSV`. -/
def flattened (lib : StdLib) (jsonObj : JSON) : FlatState :=
  flattenJSON lib jsonObj ⟨[], [], []⟩ []

/-- The records that `JSONToCSV` hands to the CSV writer, the header first;
none when `flattenJSON` produced no row. -/
def csvRecords (lib : StdLib) (jsonObj : JSON) : List (List String) :=
  let st := flattened lib jsonObj
  if st.rows.length = 0 then []
  else st.headers :: st.rows.map (padRow st.headers.length)

/-- The function `JSONToCSV`. -/
def JSONToCSV (lib : StdLib) (jsonData : String) : Except String String :=
  match lib.jsonUnmarshal jsonData with
  | .error err => .error ("failed to parse JSON: " ++ err)
  | .ok jsonObj =>
    let st := flattened lib jsonObj
    if st.rows.length = 0 then .ok ""
    else
      let maxCols := st.headers.length
      let rows := st.rows.map (padRow maxCols)
      match lib.csvWrite st.headers with
      | .error err => .error err
      | .ok text => writeRecords lib rows text

/-- The inner loop of `CSVToJSON`: `for j, header := range headers`. -/
def fillRow (record : List String) : List String → Nat → GoMap String → GoMap String
  | [], _, row => row
  | header :: rest, j, row =>
    fillRow record rest (j + 1)
      (row.set header (if j < record.length then record.getD j "" else ""))

/-- The slice `result` of `CSVToJSON` for the records read. -/
def csvResult : List (List String) → List (GoMap String)
  | [] => []
  | headers :: data => data.map (fun record => fillRow record headers 0 [])

/-- A `[]map[string]string` as `json.Marshal` sees it: the nil slice encodes as `null`. -/
def stringMaps (result : List (GoMap String)) : JSON :=
  if result.isEmpty then .null
  else .arr (result.map (fun row => .obj (row.map (fun kv => (kv.1, .str kv.2)))))

/-- The function `CSVToJSON`. -/
def CSVToJSON (lib : StdLib) (csvData : String) : Except String String :=
  match lib.csvReadAll csvData with
  | .error err => .error ("failed to parse CSV: " ++ err)
  | .ok records =>
    if records.length = 0 then .ok "[]"
    else lib.jsonMarshal (stringMaps (csvResult records))

/-- The function `sanitizeXMLName`. -/
def sanitizeXMLName (name : String) : String :=
  let name := strings.ReplaceAll name " " "_"
  let name := strings.ReplaceAll name "-" "_"
  match name.data with
  | c :: _ => if '0' ≤ c ∧ c ≤ '9' then "n" ++ name else name
  | [] => name

/-- The local variable `elements` at the end of the loop `for key, _ := range v`
of `convertToXML`: one name per key; no statement reads it. -/
def xmlElements (v : GoMap JSON) : List String :=
  v.map (fun kv => sanitizeXMLName kv.1)

/-- The function `convertToXML`; the slice `elements` it fills is dropped. -/
def convertToXML (obj : JSON) (rootName : String) : JSON :=
  match obj with
  | .obj v => .obj [("root", .obj v)]
  | .arr v => .obj [("items", .arr v)]
  | v => .obj [(rootName, v)]

/-- The constant `xml.Header`. -/
def xmlHeader : String := "<?xml version=\"1.0\" encoding=\"UTF-8\"?>\n"

/-- The function `JSONToXML`. -/
def JSONToXML (lib : StdLib) (jsonData : String) : Except String String :=
  match lib.jsonUnmarshal jsonData with
  | .error err => .error ("failed to parse JSON: " ++ err)
  | .ok jsonObj =>
    match lib.xmlMarshalIndent (convertToXML jsonObj "root") with
    | .error err => .error ("failed to marshal XML: " ++ err)
    | .ok output => .ok (xmlHeader ++ output)

/-- The two loops `for _, attr := range xmlNode.Attrs { result["@"+name] = value }`. -/
def attrEntries : List XMLAttr → GoMap JSON → GoMap JSON
  | [], result => result
  | attr :: rest, result => attrEntries rest (result.set ("@" ++ attr.Local) (.str attr.Value))

/-- The final loop `for k, v := range childMap { result[k] = v }`. -/
def mergeInto : GoMap JSON → GoMap JSON → GoMap JSON
  | [], result => result
  | (k, v) :: rest, result => mergeInto rest (result.set k v)

/-- The body of the loop `for _, child := range xmlNode.Child` once the child
is converted: a repeated tag name collects its values in a list. -/
def addChild (childMap : GoMap JSON) (key : String) (value : JSON) : GoMap JSON :=
  match childMap.get? key with
  | some (.arr arr) => childMap.set key (.arr (arr ++ [value]))
  | some existing => childMap.set key (.arr [existing, value])
  | none => childMap.set key value

/-- The field `XMLName.Local` of a node. -/
def XMLNode.name : XMLNode → String
  | .mk XMLName _ _ _ => XMLName

mutual
/-- The function `convertToJSON`. -/
def convertToJSON (lib : StdLib) : XMLNode → JSON
  | .mk _ Content Attrs Child =>
    if Child.length = 0 then
      if Content ≠ "" then .str Content
      else if Attrs.length > 0 then .obj (attrEntries Attrs [])
      else .null
    else
      let result := attrEntries Attrs []
      let childMap := convertChildren lib Child []
      let result :=
        if Content ≠ "" ∧ lib.trimSpace Content ≠ "" then result.set "#text" (.str Content)
        else result
      let result := if childMap.length > 0 then mergeInto childMap result else result
      .obj result
/-- The loop `for _, child := range xmlNode.Child`, on `childMap`. -/
def convertChildren (lib : StdLib) : List XMLNode → GoMap JSON → GoMap JSON
  | [], childMap => childMap
  | child :: rest, childMap =>
    convertChildren lib rest (addChild childMap child.name (convertToJSON lib child))
end

/-- The function `XMLToJSON`. -/
def XMLToJSON (lib : StdLib) (xmlData : String) : Except String String :=
  match lib.xmlUnmarshal xmlData with
  | .error err => .error ("failed to parse XML: " ++ err)
  | .ok xmlObj =>
    match lib.jsonMarshalIndent (convertToJSON lib xmlObj) with
    | .error err => .error ("failed to marshal JSON: " ++ err)
    | .ok output => .ok output

/-- An element as the XML decoder reads it from a document: its name, its
attributes, the character data directly inside it and its child elements. -/
inductive XMLElement where
  | mk (Name : String) (Attr : List XMLAttr) (CharData : String) (Children : List XMLElement)

mutual
/-- What `xml.Unmarshal` stores in an `XMLNode` for an element, by the field
tags of the struct: `XMLName` is the name of the element; `Content`
(`xml:",chardata"`) is its character data; `Attrs` (`xml:",attr"`, a tag
without a name and without `any`) receives the attributes whose local name is
the field name `Attrs`, and no other attribute; `Child` (`xml:",any"`) receives
every child element. -/
def unmarshalXMLNode : XMLElement → XMLNode
  | .mk Name Attr CharData Children =>
    .mk Name CharData (Attr.filter (fun attr => attr.Local = "Attrs"))
      (unmarshalChildren Children)
/-- The child elements, each stored as an `XMLNode`. -/
def unmarshalChildren : List XMLElement → List XMLNode
  | [] => []
  | element :: rest => unmarshalXMLNode element :: unmarshalChildren rest
end

/-- The method `Converter.Convert`. -/
def Convert (lib : StdLib) (data fromFormat toFormat : String) : Except String String :=
  if fromFormat = toFormat then .ok data
  else if (fromFormat = "JSON" ∧ toFormat = "XML") ∨ (fromFormat = "XML" ∧ toFormat = "JSON") then
    if fromFormat = "JSON" then JSONToXML lib data else XMLToJSON lib data
  else if fromFormat = "JSON" ∧ toFormat = "CSV" then JSONToCSV lib data
  else if fromFormat = "CSV" ∧ toFormat = "JSON" then CSVToJSON lib data
  else if fromFormat = "XML" ∧ toFormat = "CSV" then
    match XMLToJSON lib data with
    | .error err => .error err
    | .ok jsonData => JSONToCSV lib jsonData
  else if fromFormat = "CSV" ∧ toFormat = "XML" then
    match CSVToJSON lib data with
    | .error err => .error err
    | .ok jsonData => JSONToXML lib jsonData
  else .error ("unsupported conversion: " ++ fromFormat ++ " -> " ++ toFormat)

/-! ## Outcomes, calls and the environment -/

/-- How a call ends: it returns a value with a nil error, it returns an error,
or the goroutine panics. -/
inductive Outcome (α : Type) where
  | ok (a : α)
  | error (err : String)
  | panic (msg : String)

/-- An `*http.Request` as the adapters build it. -/
structure HTTPRequest where
  Method : String
  URL : String
  Header : GoMap String
  Body : Option String
deriving DecidableEq, Repr

/-- A call that leaves the process. A context deadline is not a value of the
model: a call whose context has expired is a call that answers with an error. -/
inductive Event where
  | queryThread (threadID : UUID)
  | queryThreadGroup (groupID : UUID)
  | GetThreadRouteByDirection (threadID : UUID) (direction : String)
  | GetThreadRouteByRouteID (routeID : UUID)
  | RouteGetByID (id : UUID)
  | RouteGetBySystem (systemID : UUID)
  | GetConnectionSettings (systemID : UUID)
  | GetConnectionAuth (authID : UUID)
  | SystemGetAll
  | httpDo (req : HTTPRequest)
  | QueueDeclare (queueName : String)
  | Publish (exchange : String) (queue : String) (headers : GoMap String) (body : String)
  | timeNow
deriving DecidableEq, Repr

/-- The world outside the process. Every field receives the calls made so far. -/
structure Env where
  lib : StdLib
  /-- `SELECT ... FROM threads WHERE ref = $1`. -/
  queryThread : List Event → UUID → Except String Thread
  /-- `SELECT ... FROM threads_groups WHERE ref = $1`. -/
  queryThreadGroup : List Event → UUID → Except String ThreadGroup
  GetThreadRouteByDirection : List Event → UUID → String → Except String (List ThreadRoute)
  GetThreadRouteByRouteID : List Event → UUID → Except String ThreadRoute
  RouteGetByID : List Event → UUID → Except String Route
  RouteGetBySystem : List Event → UUID → Except String (List Route)
  GetConnectionSettings : List Event → UUID → Except String ConnectionSetting
  GetConnectionAuth : List Event → UUID → Except String ConnectionAuthentication
  SystemGetAll : List Event → Except String (List System)
  /-- `client.Do(req)` followed by `io.ReadAll(resp.Body)`. -/
  httpDo : List Event → HTTPRequest → HTTPResult
  /-- `ch.QueueDeclare`: its error, if any. -/
  QueueDeclare : List Event → String → Option String
  /-- `ch.Publish`: its error, if any. -/
  Publish : List Event → String → String → GoMap String → String → Option String
  /-- `time.Now().Format(time.RFC3339)`. -/
  timeNow : List Event → String

/-- The method `threadRouteRepository.GetThreadWithGroup`. -/
def GetThreadWithGroup (env : Env) (threadID : UUID) (hist : List Event) :
    Except String (Thread × ThreadGroup) × List Event :=
  match env.queryThread hist threadID with
  | .error err => (.error err, hist ++ [.queryThread threadID])
  | .ok thread =>
    let hist := hist ++ [.queryThread threadID]
    match env.queryThreadGroup hist thread.Group with
    | .error err => (.error err, hist ++ [.queryThreadGroup thread.Group])
    | .ok group => (.ok (thread, group), hist ++ [.queryThreadGroup thread.Group])

/-! ## Protocol adapters (`internal/adapter`) -/

/-- The three results `([]byte, int, error)` of `Send`. -/
structure SendResult where
  body : Option String
  statusCode : Int
  err : Option String
deriving DecidableEq, Repr

/-- The call `req.Header.Set(key, value)`. -/
def headerSet (lib : StdLib) (header : GoMap String) (key value : String) : GoMap String :=
  header.set (lib.canonicalHeaderKey key) value

/-- The call `req.Header.Get(key)`. -/
def headerGet (lib : StdLib) (header : GoMap String) (key : String) : String :=
  header.getStr (lib.canonicalHeaderKey key)

/-- The loop `for key, value := range headers { req.Header.Set(key, value) }`. -/
def setHeaders (lib : StdLib) : GoMap String → GoMap String → GoMap String
  | [], header => header
  | (key, value) :: rest, header => setHeaders lib rest (headerSet lib header key value)

/-- The method `RESTAdapter.Send`. -/
def RESTAdapter.Send (env : Env) (endpoint action : String) (headers : GoMap String)
    (body : String) (hist : List Event) : SendResult × List Event :=
  let method := if action = "" then "POST" else action
  let reqBody := if body.length > 0 then some body else none
  match env.lib.httpNewRequest method endpoint with
  | .error err => (⟨none, 0, some ("failed to create request: " ++ err)⟩, hist)
  | .ok _ =>
    let header := setHeaders env.lib headers []
    let header :=
      if body.length > 0 ∧ headerGet env.lib header "Content-Type" = "" then
        headerSet env.lib header "Content-Type" "application/json"
      else header
    let req : HTTPRequest := ⟨method, endpoint, header, reqBody⟩
    match env.httpDo hist req with
    | .failed err => (⟨none, 0, some ("request failed: " ++ err)⟩, hist ++ [.httpDo req])
    | .response status (.error err) =>
      (⟨none, status, some ("failed to read response: " ++ err)⟩, hist ++ [.httpDo req])
    | .response status (.ok respBody) =>
      if status ≥ 400 then
        (⟨some respBody, status, some ("HTTP error " ++ sprintD status ++ ": " ++ respBody)⟩,
          hist ++ [.httpDo req])
      else (⟨some respBody, status, none⟩, hist ++ [.httpDo req])

/-- The method `SOAPAdapter.Send`, with `extractBodyFromSOAPResponse`. -/
def SOAPAdapter.Send (env : Env) (endpoint action : String) (headers : GoMap String)
    (body : String) (hist : List Event) : SendResult × List Event :=
  let soapAction := action
  match env.lib.xmlMarshalEnvelope body with
  | .error err => (⟨none, 0, some ("failed to marshal SOAP envelope: " ++ err)⟩, hist)
  | .ok xmlData =>
    match env.lib.httpNewRequest "POST" endpoint with
    | .error err => (⟨none, 0, some ("failed to create request: " ++ err)⟩, hist)
    | .ok _ =>
      let header := headerSet env.lib [] "Content-Type" "text/xml; charset=utf-8"
      let header := if soapAction ≠ "" then headerSet env.lib header "SOAPAction" soapAction else header
      let header := setHeaders env.lib headers header
      let req : HTTPRequest := ⟨"POST", endpoint, header, some xmlData⟩
      match env.httpDo hist req with
      | .failed err => (⟨none, 0, some ("SOAP request failed: " ++ err)⟩, hist ++ [.httpDo req])
      | .response status (.error err) =>
        (⟨none, status, some ("failed to read SOAP response: " ++ err)⟩, hist ++ [.httpDo req])
      | .response status (.ok respBody) =>
        if status ≥ 400 then
          (⟨some respBody, status, some ("SOAP error " ++ sprintD status ++ ": " ++ respBody)⟩,
            hist ++ [.httpDo req])
        else
          match env.lib.xmlUnmarshalEnvelope respBody with
          | .error _ => (⟨some respBody, status, none⟩, hist ++ [.httpDo req])
          | .ok bodyContent => (⟨some bodyContent, status, none⟩, hist ++ [.httpDo req])

/-- The struct `AMQPAdapter`: whether its channel `ch` is non-nil. -/
structure AMQPAdapter where
  ch : Bool
deriving DecidableEq, Repr

/-- The function `NewAMQPAdapter`. -/
def NewAMQPAdapter : AMQPAdapter := ⟨false⟩

/-- The loop `for k, v := range headers { msgHeaders[k] = v }`. -/
def copyHeaders : GoMap String → GoMap String → GoMap String
  | [], msgHeaders => msgHeaders
  | (k, v) :: rest, msgHeaders => copyHeaders rest (msgHeaders.set k v)

/-- The method `AMQPAdapter.Send`; the `Timestamp` of the message is not modelled. -/
def AMQPAdapter.Send (env : Env) (a : AMQPAdapter) (endpoint action : String)
    (headers : GoMap String) (body : String) (hist : List Event) : SendResult × List Event :=
  if a.ch = false then
    (⟨none, 0, some "AMQP channel not initialized. Call Connect() first"⟩, hist)
  else
    let queueName := if endpoint = "" then "default" else endpoint
    let exchangeName := action
    match env.QueueDeclare hist queueName with
    | some err =>
      (⟨none, 0, some ("failed to declare queue: " ++ err)⟩, hist ++ [.QueueDeclare queueName])
    | none =>
      let hist := hist ++ [.QueueDeclare queueName]
      let msgHeaders := copyHeaders headers []
      match env.Publish hist exchangeName queueName msgHeaders body with
      | some err =>
        (⟨none, 0, some ("failed to publish message: " ++ err)⟩,
          hist ++ [.Publish exchangeName queueName msgHeaders body])
      | none =>
        (⟨some "\x7b\"status\":\"ok\",\"message\":\"published to queue\"\x7d", 200, none⟩,
          hist ++ [.Publish exchangeName queueName msgHeaders body])

/-- The two statements `req, _ := http.NewRequest("GET", endpoint, nil)` and
`req.SetBasicAuth(username, password)`, then `req.Header.Get("Authorization")`:
when `http.NewRequest` refuses the endpoint, `req` is nil and the call on it panics. -/
def basicAuthHeader (lib : StdLib) (endpoint username password : String) : Outcome String :=
  match lib.httpNewRequest "GET" endpoint with
  | .error _ => .panic "runtime error: invalid memory address or nil pointer dereference"
  | .ok _ => .ok ("Basic " ++ lib.base64 (username ++ ":" ++ password))

/-- The method `RESTAdapter.Authenticate`. -/
def RESTAdapter.Authenticate (lib : StdLib) (auth : ConnectionAuthentication)
    (endpoint : String) : Outcome (GoMap String) :=
  if auth.AuthType = AuthBasic then
    if auth.Username ≠ "" ∧ auth.Password ≠ "" then
      match basicAuthHeader lib endpoint auth.Username auth.Password with
      | .ok value => .ok (GoMap.set [] "Authorization" value)
      | .error err => .error err
      | .panic msg => .panic msg
    else .ok []
  else if auth.AuthType = AuthBearerToken then
    if auth.Token ≠ "" then .ok (GoMap.set [] "Authorization" ("Bearer " ++ auth.Token))
    else .ok []
  else .ok []

/-- The method `SOAPAdapter.Authenticate`. -/
def SOAPAdapter.Authenticate (lib : StdLib) (auth : ConnectionAuthentication)
    (endpoint : String) : Outcome (GoMap String) :=
  if auth.AuthType = AuthBasic then
    if auth.Username ≠ "" ∧ auth.Password ≠ "" then
      match basicAuthHeader lib endpoint auth.Username auth.Password with
      | .ok value => .ok (GoMap.set [] "Authorization" value)
      | .error err => .error err
      | .panic msg => .panic msg
    else .ok []
  else .ok []

/-- The method `AMQPAdapter.Authenticate`. -/
def AMQPAdapter.Authenticate (_auth : ConnectionAuthentication) (_endpoint : String) :
    Outcome (GoMap String) :=
  .ok []

/-- A value of the interface `ProtocolAdapter`. -/
inductive ProtocolAdapter where
  | rest
  | soap
  | amqp (a : AMQPAdapter)
deriving DecidableEq, Repr

/-- The struct `AdapterFactory`; the REST and SOAP adapters hold an HTTP client only. -/
structure AdapterFactory where
  amqpAdapter : AMQPAdapter
deriving DecidableEq, Repr

/-- The function `NewAdapterFactory`. -/
def NewAdapterFactory : AdapterFactory := ⟨NewAMQPAdapter⟩

/-- The method `AdapterFactory.GetAdapter`. -/
def AdapterFactory.GetAdapter (f : AdapterFactory) (protocol : String) :
    Except String ProtocolAdapter :=
  if protocol = ProtocolREST then .ok .rest
  else if protocol = ProtocolSOAP then .ok .soap
  else if protocol = ProtocolAMQP then .ok (.amqp f.amqpAdapter)
  else .error ("unsupported protocol: " ++ protocol)

/-- The interface method `ProtocolAdapter.Send`. -/
def ProtocolAdapter.Send (env : Env) (p : ProtocolAdapter) (endpoint action : String)
    (headers : GoMap String) (body : String) (hist : List Event) : SendResult × List Event :=
  match p with
  | .rest => RESTAdapter.Send env endpoint action headers body hist
  | .soap => SOAPAdapter.Send env endpoint action headers body hist
  | .amqp a => AMQPAdapter.Send env a endpoint action headers body hist

/-- The interface method `ProtocolAdapter.Authenticate`. -/
def ProtocolAdapter.Authenticate (lib : StdLib) (p : ProtocolAdapter)
    (auth : ConnectionAuthentication) (endpoint : String) : Outcome (GoMap String) :=
  match p with
  | .rest => RESTAdapter.Authenticate lib auth endpoint
  | .soap => SOAPAdapter.Authenticate lib auth endpoint
  | .amqp _ => AMQPAdapter.Authenticate auth endpoint

/-! ## Message router (`internal/service/message_service.go`) -/

/-- Go `fmt.Sprintf("%s", id)` for a `uuid.UUID`. -/
def sprintUUID (id : UUID) : String := toString id

/-- The block of `processRoute` that prepares the authentication headers: the
value of `headers` after it (nil is the empty map), unless `Authenticate` panics. -/
def authHeaders (env : Env) (protocolAdapter : ProtocolAdapter)
    (connSettings : ConnectionSetting) (hist : List Event) :
    Outcome (GoMap String) × List Event :=
  if connSettings.AuthRef ≠ UUID.Nil then
    match env.GetConnectionAuth hist connSettings.AuthRef with
    | .ok auth =>
      match protocolAdapter.Authenticate env.lib auth connSettings.Path with
      | .panic msg => (.panic msg, hist ++ [.GetConnectionAuth connSettings.AuthRef])
      | .error _ => (.ok [], hist ++ [.GetConnectionAuth connSettings.AuthRef])
      | .ok headers => (.ok headers, hist ++ [.GetConnectionAuth connSettings.AuthRef])
    | .error _ => (.ok [], hist ++ [.GetConnectionAuth connSettings.AuthRef])
  else (.ok [], hist)

/-- The `switch group.Protocol` of `processRoute` that chooses `action`. -/
def routeAction (group : ThreadGroup) (route : Route) : String :=
  if group.Protocol = ProtocolSOAP then route.Path
  else if group.Protocol = ProtocolREST then route.Method
  else if group.Protocol = ProtocolAMQP then ""
  else ""

/-- The method `messageService.processRoute`; the service holds the adapter
factory that `NewMessageService` creates with `NewAdapterFactory`. -/
def processRoute (env : Env) (_thread : Thread) (group : ThreadGroup)
    (threadRoute : ThreadRoute) (messageData : String) (hist : List Event) :
    Outcome Unit × List Event :=
  let routeID := threadRoute.Route
  match env.RouteGetByID hist routeID with
  | .error err => (.error ("failed to get route: " ++ err), hist ++ [.RouteGetByID routeID])
  | .ok route =>
    let hist := hist ++ [.RouteGetByID routeID]
    match env.GetConnectionSettings hist route.System with
    | .error err =>
      (.error ("failed to get connection settings: " ++ err),
        hist ++ [.GetConnectionSettings route.System])
    | .ok connSettings =>
      let hist := hist ++ [.GetConnectionSettings route.System]
      let converted : Except String String :=
        if threadRoute.FileFormat ≠ "JSON" then
          Convert env.lib messageData "JSON" threadRoute.FileFormat
        else .ok messageData
      match converted with
      | .error err => (.error ("failed to convert format: " ++ err), hist)
      | .ok convertedData =>
        match NewAdapterFactory.GetAdapter group.Protocol with
        | .error err => (.error ("unsupported protocol: " ++ err), hist)
        | .ok protocolAdapter =>
          match authHeaders env protocolAdapter connSettings hist with
          | (.panic msg, hist) => (.panic msg, hist)
          | (.error err, hist) => (.error err, hist)
          | (.ok headers, hist) =>
            let endpoint := buildEndpoint connSettings route
            let action := routeAction group route
            match protocolAdapter.Send env endpoint action headers convertedData hist with
            | (res, hist) =>
              match res.err with
              | some err => (.error ("failed to send message: " ++ err), hist)
              | none => (.ok (), hist)

/-- The struct `messageService`: its field `adapterFactory`; the repositories
it holds are the environment. -/
structure messageService where
  adapterFactory : AdapterFactory
deriving DecidableEq, Repr

/-- The function `NewMessageService`. -/
def NewMessageService : messageService := ⟨NewAdapterFactory⟩

/-- The method `messageService.processRoute` on a service `s`: the adapter is
taken from `s.adapterFactory`, whatever that factory holds. -/
def processRouteWith (s : messageService) (env : Env) (_thread : Thread) (group : ThreadGroup)
    (threadRoute : ThreadRoute) (messageData : String) (hist : List Event) :
    Outcome Unit × List Event :=
  let routeID := threadRoute.Route
  match env.RouteGetByID hist routeID with
  | .error err => (.error ("failed to get route: " ++ err), hist ++ [.RouteGetByID routeID])
  | .ok route =>
    let hist := hist ++ [.RouteGetByID routeID]
    match env.GetConnectionSettings hist route.System with
    | .error err =>
      (.error ("failed to get connection settings: " ++ err),
        hist ++ [.GetConnectionSettings route.System])
    | .ok connSettings =>
      let hist := hist ++ [.GetConnectionSettings route.System]
      let converted : Except String String :=
        if threadRoute.FileFormat ≠ "JSON" then
          Convert env.lib messageData "JSON" threadRoute.FileFormat
        else .ok messageData
      match converted with
      | .error err => (.error ("failed to convert format: " ++ err), hist)
      | .ok convertedData =>
        match s.adapterFactory.GetAdapter group.Protocol with
        | .error err => (.error ("unsupported protocol: " ++ err), hist)
        | .ok protocolAdapter =>
          match authHeaders env protocolAdapter connSettings hist with
          | (.panic msg, hist) => (.panic msg, hist)
          | (.error err, hist) => (.error err, hist)
          | (.ok headers, hist) =>
            let endpoint := buildEndpoint connSettings route
            let action := routeAction group route
            match protocolAdapter.Send env endpoint action headers convertedData hist with
            | (res, hist) =>
              match res.err with
              | some err => (.error ("failed to send message: " ++ err), hist)
              | none => (.ok (), hist)

/-- The loop `for _, threadRoute := range routes` of `RouteMessage`: the error
of a route is logged and dropped; a panic ends the loop. -/
def routeLoop (env : Env) (thread : Thread) (group : ThreadGroup) (messageData : String) :
    List ThreadRoute → List Event → Outcome Unit × List Event
  | [], hist => (.ok (), hist)
  | threadRoute :: rest, hist =>
    match processRoute env thread group threadRoute messageData hist with
    | (.panic msg, hist) => (.panic msg, hist)
    | (_, hist) => routeLoop env thread group messageData rest hist

/-- The method `messageService.RouteMessage`. -/
def RouteMessage (env : Env) (threadID : UUID) (direction : String) (messageData : String)
    (hist : List Event) : Outcome Unit × List Event :=
  match GetThreadWithGroup env threadID hist with
  | (.error err, hist) => (.error ("failed to get thread: " ++ err), hist)
  | (.ok (thread, group), hist) =>
    match env.GetThreadRouteByDirection hist threadID direction with
    | .error err =>
      (.error ("failed to get routes: " ++ err),
        hist ++ [.GetThreadRouteByDirection threadID direction])
    | .ok routes =>
      let hist := hist ++ [.GetThreadRouteByDirection threadID direction]
      if routes.length = 0 then
        (.error ("no routes found for thread " ++ sprintUUID threadID ++ " with direction "
          ++ direction), hist)
      else routeLoop env thread group messageData routes hist

/-! ## Process orchestrator (`internal/service/orchestrator.go`) -/

/-- The type assertion `m[k].(string)`. -/
def getString (m : GoMap JSON) (k : String) : Option String :=
  match m.get? k with
  | some (.str s) => some s
  | _ => none

/-- The type assertion `m[k].(float64)`. -/
def getFloat64 (m : GoMap JSON) (k : String) : Option ℚ :=
  match m.get? k with
  | some (.num x) => some x
  | _ => none

/-- The method `orchestrator.transformStripeToSAP`; `now` is
`time.Now().Format(time.RFC3339)`. -/
def transformStripeToSAP (lib : StdLib) (now : String) (stripeData : GoMap JSON) : GoMap JSON :=
  let sapData : GoMap JSON := []
  let sapData := match getString stripeData "order_id" with
    | some orderID => sapData.set "OrderNumber" (.str orderID)
    | none => sapData
  let sapData := match getFloat64 stripeData "amount" with
    | some amount => sapData.set "Amount" (.num (lib.float64Div amount 100))
    | none => sapData
  let sapData := match getString stripeData "currency" with
    | some currency => sapData.set "Currency" (.str currency)
    | none => sapData
  let sapData := match getString stripeData "status" with
    | some status => sapData.set "PaymentStatus" (.str status)
    | none => sapData
  let sapData := match getString stripeData "customer_id" with
    | some customerID => sapData.set "CustomerID" (.str customerID)
    | none => sapData
  let sapData := sapData.set "PaymentGateway" (.str "Stripe")
  sapData.set "Timestamp" (.str now)

/-- The method `orchestrator.transformSAPToSalesforce`. -/
def transformSAPToSalesforce (now : String) (sapData : GoMap JSON) : GoMap JSON :=
  let salesforceData : GoMap JSON := []
  let salesforceData := match getString sapData "OrderNumber" with
    | some orderNum => salesforceData.set "OrderId" (.str orderNum)
    | none => salesforceData
  let salesforceData := match getString sapData "PaymentStatus" with
    | some status =>
      if status = "succeeded" then salesforceData.set "Status" (.str "Paid")
      else salesforceData.set "Status" (.str status)
    | none => salesforceData
  let salesforceData := match getFloat64 sapData "Amount" with
    | some amount => salesforceData.set "Amount" (.num amount)
    | none => salesforceData
  let salesforceData := match getString sapData "Currency" with
    | some currency => salesforceData.set "Currency" (.str currency)
    | none => salesforceData
  let salesforceData := match getString sapData "CustomerID" with
    | some customerID => salesforceData.set "AccountId" (.str customerID)
    | none => salesforceData
  salesforceData.set "LastModifiedDate" (.str now)

/-- The method `orchestrator.findThreadForSystem`. -/
def findThreadForSystem (env : Env) (systemID : UUID) (direction : String)
    (hist : List Event) : Except String UUID × List Event :=
  match env.RouteGetBySystem hist systemID with
  | .error err => (.error err, hist ++ [.RouteGetBySystem systemID])
  | .ok routes =>
    let hist := hist ++ [.RouteGetBySystem systemID]
    match routes with
    | [] => (.error ("no routes found for system " ++ sprintUUID systemID), hist)
    | targetRoute :: _ =>
      match env.GetThreadRouteByRouteID hist targetRoute.Ref with
      | .error err =>
        (.error ("no thread route found for route " ++ sprintUUID targetRoute.Ref ++ ": " ++ err),
          hist ++ [.GetThreadRouteByRouteID targetRoute.Ref])
      | .ok threadRoute =>
        let hist := hist ++ [.GetThreadRouteByRouteID targetRoute.Ref]
        if threadRoute.Direction ≠ direction then
          (.error ("thread route direction mismatch: expected " ++ direction ++ ", got "
            ++ threadRoute.Direction), hist)
        else (.ok threadRoute.Thread, hist)

/-- The loop `for _, sys := range systems` of `orderPaymentFlow`, on the pair
`(sapSystemID, salesforceSystemID)`. -/
def findSystems : List System → UUID × UUID → UUID × UUID
  | [], ids => ids
  | sys :: rest, (sapSystemID, salesforceSystemID) =>
    let sapSystemID := if sys.Name = "SAP" then sys.Ref else sapSystemID
    let salesforceSystemID := if sys.Name = "Salesforce" then sys.Ref else salesforceSystemID
    findSystems rest (sapSystemID, salesforceSystemID)

/-- The second half of `orderPaymentFlow`, from step 5 (Salesforce) on. -/
def salesforceStep (env : Env) (salesforceSystemID : UUID) (sapOrderData : GoMap JSON)
    (hist : List Event) : Outcome Unit × List Event :=
  if salesforceSystemID = UUID.Nil then (.ok (), hist)
  else
    let salesforceData := transformSAPToSalesforce (env.timeNow hist) sapOrderData
    let hist := hist ++ [.timeNow]
    match env.lib.jsonMarshal (.obj salesforceData) with
    | .error err => (.error ("failed to marshal Salesforce data: " ++ err), hist)
    | .ok salesforceBytes =>
      match findThreadForSystem env salesforceSystemID DirectionOut hist with
      | (.error err, hist) => (.error ("failed to find Salesforce thread: " ++ err), hist)
      | (.ok salesforceThreadID, hist) =>
        match RouteMessage env salesforceThreadID DirectionOut salesforceBytes hist with
        | (.error err, hist) => (.error ("failed to send to Salesforce: " ++ err), hist)
        | (.panic msg, hist) => (.panic msg, hist)
        | (.ok _, hist) => (.ok (), hist)

/-- The method `orchestrator.orderPaymentFlow`. -/
def orderPaymentFlow (env : Env) (stripeData : String) (hist : List Event) :
    Outcome Unit × List Event :=
  match env.lib.jsonUnmarshalMap stripeData with
  | .error err => (.error ("failed to parse Stripe data: " ++ err), hist)
  | .ok stripePaymentData =>
    match env.SystemGetAll hist with
    | .error err => (.error ("failed to get systems: " ++ err), hist ++ [.SystemGetAll])
    | .ok systems =>
      let hist := hist ++ [.SystemGetAll]
      match findSystems systems (UUID.Nil, UUID.Nil) with
      | (sapSystemID, salesforceSystemID) =>
        if sapSystemID = UUID.Nil then (.error "SAP system not found", hist)
        else
          let sapOrderData := transformStripeToSAP env.lib (env.timeNow hist) stripePaymentData
          let hist := hist ++ [.timeNow]
          match env.lib.jsonMarshal (.obj sapOrderData) with
          | .error err => (.error ("failed to marshal SAP data: " ++ err), hist)
          | .ok sapData =>
            match findThreadForSystem env sapSystemID DirectionOut hist with
            | (.error err, hist) => (.error ("failed to find SAP thread: " ++ err), hist)
            | (.ok threadID, hist) =>
              match RouteMessage env threadID DirectionOut sapData hist with
              | (.error err, hist) => (.error ("failed to send to SAP: " ++ err), hist)
              | (.panic msg, hist) => (.panic msg, hist)
              | (.ok _, hist) => salesforceStep env salesforceSystemID sapOrderData hist

/-- The method `orchestrator.ExecuteProcess`. -/
def ExecuteProcess (env : Env) (processName : String) (initialData : String)
    (hist : List Event) : Outcome Unit × List Event :=
  if processName = "order_payment_flow" then orderPaymentFlow env initialData hist
  else (.error ("unknown process: " ++ processName), hist)

deriving instance DecidableEq for Outcome

/-! ## A library instance for concrete inputs

The properties below hold for every `StdLib` and every `Env`.  `Sample.lib`
is one instance, used where a statement is evaluated on a concrete input: its
CSV writer and reader follow `encoding/csv` with the default settings, its
JSON decoder reads JSON texts without escape sequences and exponents, its
JSON encoder writes the keys of an object in sorted order, and its `float64`
division is exact.  The operations that no example reaches answer with an
error. -/

namespace Sample

/-- Go `unicode.IsSpace`. -/
def isSpace (c : Char) : Bool :=
  c = '\t' || c = '\n' || c.toNat = 11 || c.toNat = 12 || c = '\r' || c = ' '
    || c.toNat = 0x85 || c.toNat = 0xA0 || c.toNat = 0x1680
    || (0x2000 ≤ c.toNat && c.toNat ≤ 0x200A)
    || c.toNat = 0x2028 || c.toNat = 0x2029 || c.toNat = 0x202F || c.toNat = 0x205F
    || c.toNat = 0x3000

/-- Go `strings.TrimSpace`. -/
def trimSpace (s : String) : String :=
  String.mk ((s.data.dropWhile isSpace).reverse.dropWhile isSpace).reverse

/-! ### `encoding/csv` -/

/-- The method `Writer.fieldNeedsQuotes` for the comma delimiter. -/
def fieldNeedsQuotes (field : String) : Bool :=
  if field = "" then false
  else if field = "\\." then true
  else if field.data.any (fun c => c = ',' || c = '"' || c = '\r' || c = '\n') then true
  else match field.data with
    | [] => false
    | r1 :: _ => isSpace r1

/-- The text of one field as `Writer.Write` emits it (`UseCRLF` is false). -/
def csvField (field : String) : String :=
  if fieldNeedsQuotes field then
    "\"" ++ String.mk (field.data.flatMap (fun c => if c = '"' then ['"', '"'] else [c])) ++ "\""
  else field

/-- The method `Writer.Write`: the fields, comma separated, and a line feed. -/
def csvWrite (record : List String) : Except String String :=
  .ok (",".intercalate (record.map csvField) ++ "\n")

/-- The method `Reader.readLine`: the next line with its line feed, `\r\n`
normalised to `\n`, and the rest of the input; `none` at the end of the input. -/
def readLine (input : List Char) : Option (List Char × List Char) :=
  match input with
  | [] => none
  | _ =>
    let body := input.takeWhile (fun c => c ≠ '\n')
    let rest := input.drop body.length
    match rest with
    | [] =>
      -- end of input without a line feed: a trailing carriage return is dropped
      if body.getLast? = some '\r' then some (body.dropLast, []) else some (body, [])
    | _ :: rest =>
      if body.getLast? = some '\r' then some (body.dropLast ++ ['\n'], rest)
      else some (body ++ ['\n'], rest)

/-- The line without its trailing line feed. -/
def dropNL (line : List Char) : List Char :=
  if line.getLast? = some '\n' then line.dropLast else line

/-- The quoted-field loop of `Reader.readRecord`: `field` collects the text of
the field, `line` is what is left of the current line and `input` what
follows. The result is the field, the rest of the line after its delimiter,
whether the record goes on, and the rest of the input. -/
def readQuoted : Nat → List Char → List Char → List Char →
    Except String (String × List Char × Bool × List Char)
  | 0, _, _, _ => .error "parse error"
  | fuel + 1, field, line, input =>
    match strings.cut ['"'] line with
    | some (before, after) =>
      match after with
      | '"' :: after => readQuoted fuel (field ++ before ++ ['"']) after input
      | ',' :: after => .ok (String.mk (field ++ before), after, true, input)
      | _ =>
        if dropNL after = [] then .ok (String.mk (field ++ before), [], false, input)
        else .error "parse error: extraneous or missing \" in quoted-field"
    | none =>
      if line.length > 0 then
        match readLine input with
        | some (next, input) => readQuoted fuel (field ++ line) next input
        | none => readQuoted fuel (field ++ line) [] []
      else .error "parse error: extraneous or missing \" in quoted-field"

/-- The field loop `parseField` of `Reader.readRecord` on one line. -/
def readFields : Nat → List Char → List Char → List String →
    Except String (List String × List Char)
  | 0, _, _, _ => .error "parse error"
  | fuel + 1, line, input, fields =>
    match line with
    | '"' :: line =>
      match readQuoted (fuel + line.length + input.length + 1) [] line input with
      | .error err => .error err
      | .ok (field, line, more, input) =>
        if more then readFields fuel line input (fields ++ [field])
        else .ok (fields ++ [field], input)
    | _ =>
      match strings.cut [','] line with
      | some (field, line) =>
        if field.contains '"' then .error "parse error: bare \" in non-quoted-field"
        else readFields fuel line input (fields ++ [String.mk field])
      | none =>
        let field := dropNL line
        if field.contains '"' then .error "parse error: bare \" in non-quoted-field"
        else .ok (fields ++ [String.mk field], input)

/-- The method `Reader.ReadAll` with `FieldsPerRecord = 0`: empty lines are
skipped and every record has the number of fields of the first one; `numLine`
counts the lines read so far. -/
def readAll :
    Nat → List Char → List (List String) → Nat → Except String (List (List String))
  | 0, _, _, _ => .error "parse error"
  | fuel + 1, input, records, numLine =>
    match readLine input with
    | none => .ok records
    | some (line, input) =>
      let recLine := numLine + 1
      if dropNL line = [] then readAll fuel input records recLine
      else
        match readFields (line.length + 1) line input [] with
        | .error err => .error err
        | .ok (record, rest) =>
          let numLine := recLine + (input.count '\n' - rest.count '\n')
          match records with
          | first :: _ =>
            if record.length ≠ first.length then
              .error ("record on line " ++ toString recLine ++ ": wrong number of fields")
            else readAll fuel rest (records ++ [record]) numLine
          | [] => readAll fuel rest [record] numLine

/-- Go `csv.NewReader(strings.NewReader(text)).ReadAll()`. -/
def csvReadAll (text : String) : Except String (List (List String)) :=
  readAll (text.data.length + 1) text.data [] 0

/-! ### `encoding/json` -/

/-- JSON white space. -/
def isWS (c : Char) : Bool := c = ' ' || c = '\t' || c = '\n' || c = '\r'

/-- The value of a run of decimal digits. -/
def digitsValue (ds : List Char) : Nat := ds.foldl (fun n c => n * 10 + (c.toNat - 48)) 0

/-- A JSON number without exponent: sign, integer part, optional fraction. -/
def readNumber (cs : List Char) : Option (ℚ × List Char) :=
  let (neg, cs) := match cs with
    | '-' :: cs => (true, cs)
    | _ => (false, cs)
  let int := cs.takeWhile Char.isDigit
  let cs := cs.drop int.length
  if int = [] ∨ (int.length > 1 ∧ int.head? = some '0') then none
  else
    let (frac, cs) := match cs with
      | '.' :: cs => (cs.takeWhile Char.isDigit, cs.drop (cs.takeWhile Char.isDigit).length)
      | _ => ([], cs)
    if (cs.head? = some 'e' ∨ cs.head? = some 'E') then none
    else
      let n : Int := if neg then -(digitsValue (int ++ frac) : Int) else digitsValue (int ++ frac)
      some (if frac = [] then (n : ℚ) else (n : ℚ) / ((10 : ℚ) ^ frac.length), cs)

/-- A JSON string without escape sequences, after its opening quote. -/
def readString (cs : List Char) : Option (String × List Char) :=
  let body := cs.takeWhile (fun c => c ≠ '"')
  match cs.drop body.length with
  | '"' :: rest =>
    if body.any (fun c => c = '\\' || c.toNat < 32) then none else some (String.mk body, rest)
  | _ => none

mutual
/-- A JSON value at the head of the text. -/
def readValue : Nat → List Char → Option (JSON × List Char)
  | 0, _ => none
  | fuel + 1, cs =>
    match cs.dropWhile isWS with
    | 'n' :: 'u' :: 'l' :: 'l' :: rest => some (.null, rest)
    | 't' :: 'r' :: 'u' :: 'e' :: rest => some (.bool true, rest)
    | 'f' :: 'a' :: 'l' :: 's' :: 'e' :: rest => some (.bool false, rest)
    | '"' :: rest =>
      match readString rest with
      | some (s, rest) => some (.str s, rest)
      | none => none
    | '[' :: rest =>
      match rest.dropWhile isWS with
      | ']' :: rest => some (.arr [], rest)
      | _ =>
        match readItems fuel rest [] with
        | some (items, rest) => some (.arr items, rest)
        | none => none
    | '{' :: rest =>
      match rest.dropWhile isWS with
      | '}' :: rest => some (.obj [], rest)
      | _ =>
        match readMembers fuel rest [] with
        | some (fields, rest) => some (.obj fields, rest)
        | none => none
    | cs =>
      match readNumber cs with
      | some (x, rest) => some (.num x, rest)
      | none => none
/-- The elements of an array, after its opening bracket. -/
def readItems : Nat → List Char → List JSON → Option (List JSON × List Char)
  | 0, _, _ => none
  | fuel + 1, cs, items =>
    match readValue fuel cs with
    | none => none
    | some (v, rest) =>
      match rest.dropWhile isWS with
      | ',' :: rest => readItems fuel rest (items ++ [v])
      | ']' :: rest => some (items ++ [v], rest)
      | _ => none
/-- The members of an object, after its opening brace; a repeated key keeps
its last value. -/
def readMembers : Nat → List Char → GoMap JSON → Option (GoMap JSON × List Char)
  | 0, _, _ => none
  | fuel + 1, cs, fields =>
    match cs.dropWhile isWS with
    | '"' :: rest =>
      match readString rest with
      | none => none
      | some (key, rest) =>
        match rest.dropWhile isWS with
        | ':' :: rest =>
          match readValue fuel rest with
          | none => none
          | some (v, rest) =>
            match rest.dropWhile isWS with
            | ',' :: rest => readMembers fuel rest (fields.set key v)
            | '}' :: rest => some (fields.set key v, rest)
            | _ => none
        | _ => none
    | _ => none
end

/-- Go `json.Unmarshal(data, &v)` with `v interface{}`. -/
def jsonUnmarshal (data : String) : Except String JSON :=
  match readValue (data.data.length + 1) data.data with
  | some (v, rest) =>
    if rest.dropWhile isWS = [] then .ok v
    else .error "invalid character after top-level value"
  | none => .error "invalid JSON text"

/-- Go `json.Unmarshal(data, &m)` with `m map[string]interface{}`. -/
def jsonUnmarshalMap (data : String) : Except String (GoMap JSON) :=
  match jsonUnmarshal data with
  | .error err => .error err
  | .ok (.obj fields) => .ok fields
  | .ok .null => .ok []
  | .ok _ => .error "json: cannot unmarshal into Go value of type map[string]interface \x7b\x7d"

/-- The digits of `n / 10^k` with `k` decimals. -/
def decimal (n k : Nat) : String :=
  let ds := (toString n).data
  let ds := List.replicate (k + 1 - ds.length) '0' ++ ds
  String.mk (ds.take (ds.length - k)) ++ "." ++ String.mk (ds.drop (ds.length - k))

/-- The least `k ≤ fuel + start` for which `x * 10^k` is an integer, from `start`. -/
def decimals (x : ℚ) : Nat → Nat → Option Nat
  | 0, _ => none
  | fuel + 1, k => if (x * (10 : ℚ) ^ k).den = 1 then some k else decimals x fuel (k + 1)

/-- Go `strconv.FormatFloat(x, 'g', -1, 64)` for a number with a short
decimal expansion. -/
def fmtFloat (x : ℚ) : String :=
  if x.den = 1 then toString x.num
  else match decimals x 18 1 with
    | some k => (if x < 0 then "-" else "") ++ decimal (x * (10 : ℚ) ^ k).num.natAbs k
    | none => toString x.num ++ "/" ++ toString x.den

/-- The escaping of `json.Marshal` for a string. -/
def quote (s : String) : String :=
  "\"" ++ String.mk (s.data.flatMap (fun c =>
    if c = '"' then ['\\', '"']
    else if c = '\\' then ['\\', '\\']
    else if c = '\n' then ['\\', 'n']
    else if c = '\r' then ['\\', 'r']
    else if c = '\t' then ['\\', 't']
    else if c = '<' then "\\u003c".data
    else if c = '>' then "\\u003e".data
    else if c = '&' then "\\u0026".data
    else [c])) ++ "\""

/-- The order of `sort.Strings` on two keys. -/
def keyLess : List Char → List Char → Bool
  | [], [] => false
  | [], _ :: _ => true
  | _ :: _, [] => false
  | a :: as, b :: bs => a.toNat < b.toNat || (a = b && keyLess as bs)

/-- Inserts a member into a list of members sorted by key. -/
def insertMember (kv : String × String) : List (String × String) → List (String × String)
  | [] => [kv]
  | kv' :: rest =>
    if keyLess kv.1.data kv'.1.data then kv :: kv' :: rest else kv' :: insertMember kv rest

mutual
/-- Go `json.Marshal`: the compact text of a value, object keys sorted. -/
def encode : JSON → String
  | .null => "null"
  | .bool true => "true"
  | .bool false => "false"
  | .num x => fmtFloat x
  | .str s => quote s
  | .arr items => "[" ++ ",".intercalate (encodeItems items) ++ "]"
  | .obj fields =>
    "\x7b" ++ ",".intercalate
      (((encodeMembers fields).foldr insertMember []).map (fun kv => quote kv.1 ++ ":" ++ kv.2))
      ++ "\x7d"
/-- The texts of the elements of an array. -/
def encodeItems : List JSON → List String
  | [] => []
  | v :: rest => encode v :: encodeItems rest
/-- The keys of an object with the texts of their values. -/
def encodeMembers : List (String × JSON) → List (String × String)
  | [] => []
  | (k, v) :: rest => (k, encode v) :: encodeMembers rest
end

/-- Go `json.Marshal`. -/
def jsonMarshal (v : JSON) : Except String String := .ok (encode v)

/-! ### `net/http`, `net/textproto`, `encoding/base64` -/

/-- A byte of an HTTP token. -/
def isTokenChar (c : Char) : Bool :=
  c.isAlphanum || "!#$%&'*+-.^_`|~".data.contains c

/-- Go `http.NewRequest`: it refuses a method that is not a token, and an
endpoint that starts with a colon or holds an ASCII control character. -/
def httpNewRequest (method url : String) : Except String Unit :=
  if ¬ method.data.all isTokenChar then
    .error ("net/http: invalid method " ++ method)
  else if url.data.any (fun c => c.toNat < 32 || c.toNat = 127) then
    .error "net/url: invalid control character in URL"
  else if url.data.head? = some ':' then .error "missing protocol scheme"
  else .ok ()

/-- The loop of `textproto.CanonicalMIMEHeaderKey`: upper case at the start
and after a hyphen, lower case elsewhere. -/
def canonical : List Char → Bool → List Char
  | [], _ => []
  | c :: cs, upper => (if upper then c.toUpper else c.toLower) :: canonical cs (c = '-')

/-- Go `textproto.CanonicalMIMEHeaderKey`. -/
def canonicalHeaderKey (key : String) : String :=
  if key.data.all isTokenChar then String.mk (canonical key.data true) else key

/-- The UTF-8 bytes of a character. -/
def utf8 (c : Char) : List Nat :=
  let n := c.toNat
  if n < 0x80 then [n]
  else if n < 0x800 then [0xC0 + n / 64, 0x80 + n % 64]
  else if n < 0x10000 then [0xE0 + n / 4096, 0x80 + n / 64 % 64, 0x80 + n % 64]
  else [0xF0 + n / 262144, 0x80 + n / 4096 % 64, 0x80 + n / 64 % 64, 0x80 + n % 64]

/-- The alphabet of `base64.StdEncoding`. -/
def base64Char (i : Nat) : Char :=
  "ABCDEFGHIJKLMNOPQRSTUVWXYZabcdefghijklmnopqrstuvwxyz0123456789+/".data.getD i '='

/-- The groups of `base64.StdEncoding`, with padding. -/
def base64Bytes : List Nat → List Char
  | [] => []
  | [a] => [base64Char (a / 4), base64Char (a % 4 * 16), '=', '=']
  | [a, b] => [base64Char (a / 4), base64Char (a % 4 * 16 + b / 16), base64Char (b % 16 * 4), '=']
  | a :: b :: c :: rest =>
    base64Char (a / 4) :: base64Char (a % 4 * 16 + b / 16)
      :: base64Char (b % 16 * 4 + c / 64) :: base64Char (c % 64) :: base64Bytes rest

/-- Go `base64.StdEncoding.EncodeToString`. -/
def base64 (s : String) : String := String.mk (base64Bytes (s.data.flatMap utf8))

/-- The library instance. -/
def lib : StdLib where
  jsonUnmarshal := jsonUnmarshal
  jsonUnmarshalMap := jsonUnmarshalMap
  jsonMarshal := jsonMarshal
  jsonMarshalIndent := fun _ => .error "not provided"
  xmlMarshalIndent := fun _ => .error "xml: unsupported type: map[string]interface \x7b\x7d"
  xmlUnmarshal := fun _ => .error "not provided"
  csvWrite := csvWrite
  csvReadAll := csvReadAll
  fmtFloat := fmtFloat
  float64Div := fun x y => x / y
  httpNewRequest := httpNewRequest
  base64 := base64
  canonicalHeaderKey := canonicalHeaderKey
  xmlMarshalEnvelope := fun _ => .error "not provided"
  xmlUnmarshalEnvelope := fun _ => .error "not provided"
  trimSpace := trimSpace

/-! ### A configuration store and a network -/

/-- The tables of the configuration store. -/
structure Store where
  systems : List System
  routes : List Route
  settings : List ConnectionSetting
  auths : List ConnectionAuthentication
  groups : List ThreadGroup
  threads : List Thread
  threadRoutes : List ThreadRoute

/-- The error of `sqlx` for a query that selects no row. -/
def noRows : String := "sql: no rows in result set"

/-- The first row that satisfies a condition. -/
def firstRow {α : Type} (rows : List α) (p : α → Bool) : Except String α :=
  match rows.find? p with
  | some row => .ok row
  | none => .error noRows

/-- The environment of a store that answers every query and of a network
that answers every request as `net` says, whatever happened before. -/
def env (db : Store) (net : HTTPRequest → HTTPResult) : Env where
  lib := lib
  queryThread := fun _ id => firstRow db.threads (fun t => t.Ref = id)
  queryThreadGroup := fun _ id => firstRow db.groups (fun g => g.Ref = id)
  GetThreadRouteByDirection := fun _ id direction =>
    .ok (db.threadRoutes.filter (fun tr => tr.Thread = id ∧ tr.Direction = direction))
  GetThreadRouteByRouteID := fun _ id => firstRow db.threadRoutes (fun tr => tr.Route = id)
  RouteGetByID := fun _ id => firstRow db.routes (fun r => r.Ref = id)
  RouteGetBySystem := fun _ id => .ok (db.routes.filter (fun r => r.System = id))
  GetConnectionSettings := fun _ id => firstRow db.settings (fun c => c.System = id)
  GetConnectionAuth := fun _ id => firstRow db.auths (fun a => a.Ref = id)
  SystemGetAll := fun _ => .ok db.systems
  httpDo := fun _ req => net req
  QueueDeclare := fun _ _ => none
  Publish := fun _ _ _ _ _ => none
  timeNow := fun _ => "2024-05-01T12:00:00Z"

/-- A store with the systems SAP and Salesforce, one REST route and one
outbound thread each. -/
def flowStore : Store where
  systems := [⟨1, "SAP"⟩, ⟨2, "Salesforce"⟩]
  routes := [⟨11, "orders", "/orders", 1, "POST"⟩, ⟨12, "notify", "/notify", 2, "POST"⟩]
  settings := [⟨61, "sap", 1, "https://sap.example.com/api", 0, 0⟩,
    ⟨62, "crm", 2, "https://crm.example.com", 0, 0⟩]
  auths := []
  groups := [⟨30, "rest", "REST", none, "Rabbit"⟩]
  threads := [⟨21, "to-sap", 30, "None"⟩, ⟨22, "to-crm", 30, "None"⟩]
  threadRoutes := [⟨21, "Out", 11, "JSON", 0, 0⟩, ⟨22, "Out", 12, "JSON", 0, 0⟩]

/-- A network in which SAP does not answer before the deadline and every
other host answers 200. -/
def sapDown (req : HTTPRequest) : HTTPResult :=
  if strings.HasPrefix req.URL "https://sap.example.com" then .failed "context deadline exceeded"
  else .response 200 (.ok "ok")

/-- A network in which every host answers 200. -/
def allUp (_req : HTTPRequest) : HTTPResult := .response 200 (.ok "ok")

/-- A store with one REST thread and two outbound routes; the connection
setting of the first route has a path that `http.NewRequest` refuses and a
Basic authentication record. -/
def fanoutStore : Store where
  systems := [⟨41, "billing"⟩, ⟨42, "crm"⟩]
  routes := [⟨31, "first", "/a", 41, "POST"⟩, ⟨32, "second", "/b", 42, "POST"⟩]
  settings := [⟨61, "billing", 41, ":8080/billing", 0, 51⟩,
    ⟨62, "crm", 42, "https://crm.example.com", 0, 0⟩]
  auths := [⟨51, "billing-auth", 41, "Basic", "user", "secret", ""⟩]
  groups := [⟨20, "rest", "REST", none, "Rabbit"⟩]
  threads := [⟨10, "fanout", 20, "None"⟩]
  threadRoutes := [⟨10, "Out", 31, "JSON", 0, 0⟩, ⟨10, "Out", 32, "JSON", 0, 0⟩]

end Sample

/-! ## Definitions for the properties -/

/-- The formats between which `Convert` converts. -/
def convertFormats : List String := ["JSON", "XML", "CSV"]

/-- The identifiers of the routes looked up, in the order of the lookups. -/
def routeLookups (hist : List Event) : List UUID :=
  hist.filterMap (fun e => match e with
    | .RouteGetByID id => some id
    | _ => none)

/-- The URLs of the HTTP requests sent, in order. -/
def sentURLs (hist : List Event) : List String :=
  hist.filterMap (fun e => match e with
    | .httpDo req => some req.URL
    | _ => none)

/-! ## Leaf pairs of a JSON document -/

mutual
/-- The pairs (dotted leaf path, leaf value rendered as a string) of a value
that sits at `path`: the dotted path joins with `.` all object keys and array
indices from the root to the leaf. -/
def leafPairs (lib : StdLib) : JSON → List String → List (String × String)
  | .obj fields, path => fieldPairs lib fields path
  | .arr items, path => itemPairs lib items 0 path
  | .null, path => [(strings.Join path ".", sprintV lib .null)]
  | .bool b, path => [(strings.Join path ".", sprintV lib (.bool b))]
  | .num x, path => [(strings.Join path ".", sprintV lib (.num x))]
  | .str s, path => [(strings.Join path ".", sprintV lib (.str s))]
/-- The leaf pairs of the members of an object. -/
def fieldPairs (lib : StdLib) : List (String × JSON) → List String → List (String × String)
  | [], _ => []
  | (key, value) :: rest, path =>
    leafPairs lib value (path ++ [key]) ++ fieldPairs lib rest path
/-- The leaf pairs of the elements of an array, the first one having index `i`. -/
def itemPairs (lib : StdLib) : List JSON → Nat → List String → List (String × String)
  | [], _, _ => []
  | item :: rest, i, path =>
    leafPairs lib item (path ++ [toString i]) ++ itemPairs lib rest (i + 1) path
end

mutual
/-- Every object of the value has distinct keys, as every Go map has. -/
def JSON.nodupKeys : JSON → Bool
  | .obj fields => decide (fields.map Prod.fst).Nodup && JSON.nodupKeysFields fields
  | .arr items => JSON.nodupKeysItems items
  | _ => true
/-- Every member value has distinct keys. -/
def JSON.nodupKeysFields : List (String × JSON) → Bool
  | [] => true
  | (_, value) :: rest => value.nodupKeys && JSON.nodupKeysFields rest
/-- Every element has distinct keys. -/
def JSON.nodupKeysItems : List JSON → Bool
  | [] => true
  | item :: rest => item.nodupKeys && JSON.nodupKeysItems rest
end

mutual
/-- No array of the value has an array as an element. -/
def JSON.flatArrays : JSON → Bool
  | .obj fields => JSON.flatArraysFields fields
  | .arr items => JSON.flatArraysItems items
  | _ => true
/-- No array in a member value has an array as an element. -/
def JSON.flatArraysFields : List (String × JSON) → Bool
  | [] => true
  | (_, value) :: rest => value.flatArrays && JSON.flatArraysFields rest
/-- No element is an array, and no array in an element has an array as an element. -/
def JSON.flatArraysItems : List JSON → Bool
  | [] => true
  | item :: rest => !item.isArr && item.flatArrays && JSON.flatArraysItems rest
end

/-- A JSON text with a nested object. -/
def nestedDoc : String := "\x7b\"a\":\x7b\"b\":1\x7d,\"c\":2\x7d"

/-- The members of the object that `nestedDoc` denotes. -/
def nestedFields : List (String × JSON) := [("a", .obj [("b", .num 1)]), ("c", .num 2)]

/-- The CSV text that `JSONToCSV` writes for `nestedDoc`. -/
def nestedCSV : String := "a.b,c\n1,\n,2\n"

/-- The pairs that the scalar members of an object put into `rowMap`. -/
def scalarLeafs (lib : StdLib) : List (String × JSON) → List String → List (String × String)
  | [], _ => []
  | (key, value) :: rest, path =>
    if value.isObj || value.isArr then scalarLeafs lib rest path
    else (strings.Join (path ++ [key]) ".", sprintV lib value) :: scalarLeafs lib rest path

/-- The leaf pairs below the members of an object that are objects or arrays. -/
def nestedPairs (lib : StdLib) : List (String × JSON) → List String → List (String × String)
  | [], _ => []
  | (key, value) :: rest, path =>
    if value.isObj || value.isArr then
      leafPairs lib value (path ++ [key]) ++ nestedPairs lib rest path
    else nestedPairs lib rest path

/-- The invariant of the state of `flattenJSON`: `headerSet` holds the
headers, no header is repeated, and no row is longer than the header. -/
def FlatState.Inv (st : FlatState) : Prop :=
  st.headerSet = st.headers ∧ st.headers.Nodup ∧ ∀ r ∈ st.rows, r.length ≤ st.headers.length

/-- The state `st'` comes from `st` by flattening values whose leaf pairs are
`P`: headers are only appended, each new one being the path of a pair of `P`
or a member of `K`; rows are only appended, every pair of `P` is a cell of a
new row, and every cell of a new row is a pair of `P` or is empty. -/
def Extends (st st' : FlatState) (P : List (String × String)) (K : List String) : Prop :=
  st'.Inv ∧
  (∃ ext, st'.headers = st.headers ++ ext ∧ ∀ h ∈ ext, h ∈ P.map Prod.fst ∨ h ∈ K) ∧
  (∃ new, st'.rows = st.rows ++ new ∧
    (∀ p ∈ P, ∃ r ∈ new, p ∈ st'.headers.zip r) ∧
    (∀ r ∈ new, ∀ c ∈ st'.headers.zip r, c ∈ P ∨ c.2 = ""))

/-- What the loop over the members of an object establishes: `rowMap` gains
the pairs of the scalar members, its keys are headers, and the state is
extended by the rows of the members that are objects or arrays. -/
def FieldsSpec (lib : StdLib) (fields : List (String × JSON)) (st : FlatState)
    (path : List String) (rowMap : GoMap String) : Prop :=
  (flattenFields lib fields st path rowMap).2 = rowMap ++ scalarLeafs lib fields path ∧
  (∀ k ∈ (flattenFields lib fields st path rowMap).2.keys,
    k ∈ (flattenFields lib fields st path rowMap).1.headers) ∧
  Extends st (flattenFields lib fields st path rowMap).1 (nestedPairs lib fields path)
    ((scalarLeafs lib fields path).map Prod.fst)

/-- The payload of the example of the specification, decoded. -/
def stripeExample : GoMap JSON :=
  [("order_id", .str "O1"), ("amount", .num 1999), ("currency", .str "usd"),
    ("status", .str "succeeded"), ("customer_id", .str "C1")]

/-- The keys that `transformStripeToSAP` writes. -/
def sapKeys : List String :=
  ["OrderNumber", "Amount", "Currency", "PaymentStatus", "CustomerID", "PaymentGateway",
    "Timestamp"]

/-- The keys that `transformSAPToSalesforce` writes. -/
def salesforceKeys : List String :=
  ["OrderId", "Status", "Amount", "Currency", "AccountId", "LastModifiedDate"]

/-- A conditional assignment `if v, ok := ...; ok { m[key] = v }`. -/
def GoMap.setIf (m : GoMap JSON) (key : String) (o : Option JSON) : GoMap JSON :=
  match o with
  | some v => m.set key v
  | none => m

/-- What `childMap` holds under a tag name whose children, in document order,
convert to `values`: nothing, the value itself, or the list of the values. -/
def collapse : List JSON → Option JSON
  | [] => none
  | [v] => some v
  | values => some (.arr values)

/-- The direct children with the tag name `t`, in document order. -/
def childrenNamed (t : String) (children : List XMLNode) : List XMLNode :=
  children.filter (fun child => child.name = t)

/-! ## Rows of the CSV table -/

/-- The map `rowMap` at the end of the loop over the members of an object:
one assignment per member that is neither an object nor an array. -/
def rowMapOf (lib : StdLib) : List (String × JSON) → List String → GoMap String → GoMap String
  | [], _, rowMap => rowMap
  | (key, value) :: rest, path, rowMap =>
    if value.isObj || value.isArr then rowMapOf lib rest path rowMap
    else rowMapOf lib rest path
      (rowMap.set (strings.Join (path ++ [key]) ".") (sprintV lib value))

mutual
/-- The values from which `flattenJSON` makes its rows, one map per row in the
order of the rows: the `rowMap` of an object that has scalar members, and the
single cell of a scalar. The keys are the `pathKey` of the code, which is not
the dotted leaf path below an array that is the document or an element of an
array: there the code passes the path on without the index. -/
def rowMaps (lib : StdLib) : JSON → List String → List (GoMap String)
  | .obj v, path =>
    nestedMaps lib v path
      ++ (if (rowMapOf lib v path []).length > 0 then [rowMapOf lib v path []] else [])
  | .arr v, path => itemMaps lib v path
  | .null, path => [[(strings.Join path ".", sprintV lib .null)]]
  | .bool b, path => [[(strings.Join path ".", sprintV lib (.bool b))]]
  | .num x, path => [[(strings.Join path ".", sprintV lib (.num x))]]
  | .str s, path => [[(strings.Join path ".", sprintV lib (.str s))]]
/-- The row maps of the members of an object that are objects or arrays. -/
def nestedMaps (lib : StdLib) : List (String × JSON) → List String → List (GoMap String)
  | [], _ => []
  | (key, value) :: rest, path =>
    if value.isObj then rowMaps lib value (path ++ [key]) ++ nestedMaps lib rest path
    else if value.isArr then rangeMaps lib value (path ++ [key]) ++ nestedMaps lib rest path
    else nestedMaps lib rest path
/-- The row maps of the elements of an array that is a member of an object. -/
def rangeMaps (lib : StdLib) : JSON → List String → List (GoMap String)
  | .arr val, currentPath => indexedMaps lib val 0 currentPath
  | _, _ => []
/-- The row maps of the elements from the index `i` on. -/
def indexedMaps (lib : StdLib) : List JSON → Nat → List String → List (GoMap String)
  | [], _, _ => []
  | item :: rest, i, currentPath =>
    rowMaps lib item (currentPath ++ [toString i]) ++ indexedMaps lib rest (i + 1) currentPath
/-- The row maps of the elements of an array flattened at `path`. -/
def itemMaps (lib : StdLib) : List JSON → List String → List (GoMap String)
  | [], _ => []
  | item :: rest, path => rowMaps lib item path ++ itemMaps lib rest path
end

/-- The row was made from the map `m` when the header was `hs`, a prefix of
`headers`: it holds `m[h]` in the column of every `h` of `hs`, and every key
of `m` is in `hs`. -/
def RowOf (headers : List String) (row : List String) (m : GoMap String) : Prop :=
  ∃ hs, hs <+: headers ∧ row = hs.map (GoMap.getStr m) ∧ ∀ k ∈ GoMap.keys m, k ∈ hs

/-- The header part of the invariant of `flattenJSON`: `headerSet` holds the
headers and no header is repeated. -/
def FlatState.Hdr (st : FlatState) : Prop :=
  st.headerSet = st.headers ∧ st.headers.Nodup

/-- The state `st'` comes from `st` by appending headers and by appending one
row for each of `maps`, in order. -/
def Rect (st st' : FlatState) (maps : List (GoMap String)) : Prop :=
  st'.Hdr ∧ st.headers <+: st'.headers ∧
    ∃ new, st'.rows = st.rows ++ new ∧ List.Forall₂ (RowOf st'.headers) new maps

/-- What the loop over the members of an object establishes for the table:
`rowMap` ends as `rowMapOf` says, its keys are headers, and the state is
extended by one row for each row map of the nested members. -/
def FieldsRect (lib : StdLib) (fields : List (String × JSON)) (st : FlatState)
    (path : List String) (rowMap : GoMap String) : Prop :=
  (flattenFields lib fields st path rowMap).2 = rowMapOf lib fields path rowMap ∧
  (∀ k ∈ GoMap.keys (flattenFields lib fields st path rowMap).2,
    k ∈ (flattenFields lib fields st path rowMap).1.headers) ∧
  Rect st (flattenFields lib fields st path rowMap).1 (nestedMaps lib fields path)

/-! ## Routes, systems and sample stores for the router properties -/

/-- The end of `processRoute`: what it returns for the result of `Send`. -/
def sendOutcome (r : SendResult × List Event) : Outcome Unit × List Event :=
  match r.1.err with
  | some err => (.error ("failed to send message: " ++ err), r.2)
  | none => (.ok (), r.2)

/-- The id of the last system of the list that has the name `name`, and
`uuid.Nil` when no system of the list has it. -/
def lastNamed (name : String) (systems : List System) : UUID :=
  ((systems.filter (fun sys => sys.Name = name)).getLast?.map System.Ref).getD UUID.Nil

namespace Sample

/-- The store `flowStore` in which the connection setting of SAP references
the authentication record 51, which the store does not have. -/
def danglingAuthStore : Store :=
  { flowStore with
    settings := [⟨61, "sap", 1, "https://sap.example.com/api", 0, 51⟩,
      ⟨62, "crm", 2, "https://crm.example.com", 0, 0⟩] }

/-- A store with one AMQP thread and two outbound routes. -/
def queueStore : Store where
  systems := [⟨41, "billing"⟩, ⟨42, "crm"⟩]
  routes := [⟨31, "first", "", 41, ""⟩, ⟨32, "second", "", 42, ""⟩]
  settings := [⟨61, "billing", 41, "billing-queue", 0, 0⟩, ⟨62, "crm", 42, "crm-queue", 0, 0⟩]
  auths := []
  groups := [⟨20, "queue", "AMQP", none, "Rabbit"⟩]
  threads := [⟨10, "fanout", 20, "None"⟩]
  threadRoutes := [⟨10, "Out", 31, "JSON", 0, 0⟩, ⟨10, "Out", 32, "JSON", 0, 0⟩]

/-- A store with one AMQP thread whose route has a path and a method. -/
def exchangeStore : Store where
  systems := [⟨41, "billing"⟩]
  routes := [⟨31, "first", "/orders", 41, "POST"⟩]
  settings := [⟨61, "billing", 41, "billing", 0, 0⟩]
  auths := []
  groups := [⟨20, "queue", "AMQP", none, "Rabbit"⟩]
  threads := [⟨10, "fanout", 20, "None"⟩]
  threadRoutes := [⟨10, "Out", 31, "JSON", 0, 0⟩]

/-- The store `flowStore` without the system Salesforce. -/
def sapOnlyStore : Store := { flowStore with systems := [⟨1, "SAP"⟩, ⟨3, "Stripe"⟩] }

/-- The store `flowStore` with a second system named SAP, listed last, that
has the nil id. -/
def nilSAPStore : Store :=
  { flowStore with systems := [⟨1, "SAP"⟩, ⟨2, "Salesforce"⟩, ⟨0, "SAP"⟩] }

/-- The store `flowStore` with an earlier system named SAP that has no route. -/
def twoSAPStore : Store :=
  { flowStore with systems := [⟨7, "SAP"⟩, ⟨1, "SAP"⟩, ⟨2, "Salesforce"⟩] }

end Sample

/-- The steps 3 to 5 of `orderPaymentFlow`, for the system ids that the loop
over the systems has found. -/
def paymentSteps (env : Env) (sapSystemID salesforceSystemID : UUID)
    (stripePaymentData : GoMap JSON) (hist : List Event) : Outcome Unit × List Event :=
  let sapOrderData := transformStripeToSAP env.lib (env.timeNow hist) stripePaymentData
  let hist := hist ++ [.timeNow]
  match env.lib.jsonMarshal (.obj sapOrderData) with
  | .error err => (.error ("failed to marshal SAP data: " ++ err), hist)
  | .ok sapData =>
    match findThreadForSystem env sapSystemID DirectionOut hist with
    | (.error err, hist) => (.error ("failed to find SAP thread: " ++ err), hist)
    | (.ok threadID, hist) =>
      match RouteMessage env threadID DirectionOut sapData hist with
      | (.error err, hist) => (.error ("failed to send to SAP: " ++ err), hist)
      | (.panic msg, hist) => (.panic msg, hist)
      | (.ok _, hist) => salesforceStep env salesforceSystemID sapOrderData hist

/-! ## Properties of the format converter -/

/-- C1: for every byte string `data` and every format string `F`,
`Convert(data, F, F)` returns `data` unchanged and no error. -/
theorem Convert_identity (lib : StdLib) (data F : String) :
    Convert lib data F F = .ok data := by
  simp [Convert]

/-- C2, as stated, fails: the pair (YAML, YAML) is outside
{JSON,XML,CSV} x {JSON,XML,CSV}, and `Convert` returns the data, not the
unsupported-conversion error. -/
theorem Convert_unsupported_same_format_returns :
    ¬ ("YAML" ∈ convertFormats ∧ "YAML" ∈ convertFormats) ∧
      Convert Sample.lib "a: 1" "YAML" "YAML" = .ok "a: 1" ∧
      Convert Sample.lib "a: 1" "YAML" "YAML"
        ≠ .error ("unsupported conversion: " ++ "YAML" ++ " -> " ++ "YAML") := by
  decide

/-- C2, amended: for every data and every pair of two different formats that
is not in {JSON,XML,CSV} x {JSON,XML,CSV}, `Convert` fails with the
unsupported-conversion error. -/
theorem Convert_unsupported (lib : StdLib) (data fromFormat toFormat : String)
    (hne : fromFormat ≠ toFormat)
    (hpair : ¬ (fromFormat ∈ convertFormats ∧ toFormat ∈ convertFormats)) :
    Convert lib data fromFormat toFormat
      = .error ("unsupported conversion: " ++ fromFormat ++ " -> " ++ toFormat) := by
  have h1 : ¬ (fromFormat = "JSON" ∧ toFormat = "XML") := by
    rintro ⟨rfl, rfl⟩; exact hpair (by decide)
  have h2 : ¬ (fromFormat = "XML" ∧ toFormat = "JSON") := by
    rintro ⟨rfl, rfl⟩; exact hpair (by decide)
  have h3 : ¬ (fromFormat = "JSON" ∧ toFormat = "CSV") := by
    rintro ⟨rfl, rfl⟩; exact hpair (by decide)
  have h4 : ¬ (fromFormat = "CSV" ∧ toFormat = "JSON") := by
    rintro ⟨rfl, rfl⟩; exact hpair (by decide)
  have h5 : ¬ (fromFormat = "XML" ∧ toFormat = "CSV") := by
    rintro ⟨rfl, rfl⟩; exact hpair (by decide)
  have h6 : ¬ (fromFormat = "CSV" ∧ toFormat = "XML") := by
    rintro ⟨rfl, rfl⟩; exact hpair (by decide)
  unfold Convert
  rw [if_neg hne, if_neg (not_or.mpr ⟨h1, h2⟩), if_neg h3, if_neg h4, if_neg h5, if_neg h6]

/-- C2, amended, at the pair (YAML, JSON). -/
theorem Convert_unsupported_witness :
    Convert Sample.lib "a: 1" "YAML" "JSON"
      = .error ("unsupported conversion: " ++ "YAML" ++ " -> " ++ "JSON") :=
  Convert_unsupported Sample.lib "a: 1" "YAML" "JSON" (by decide) (by decide)

/-- C3: `Convert(data, "XML", "CSV")` is `JSONToCSV` applied to the result of
`XMLToJSON(data)`, and `Convert(data, "CSV", "XML")` is `JSONToXML` applied to
the result of `CSVToJSON(data)`; an error of the first stage is the error of
the conversion, and the second stage is not applied. -/
theorem Convert_through_JSON (lib : StdLib) (data : String) :
    Convert lib data "XML" "CSV"
        = (match XMLToJSON lib data with
          | .error err => .error err
          | .ok jsonData => JSONToCSV lib jsonData) ∧
      Convert lib data "CSV" "XML"
        = (match CSVToJSON lib data with
          | .error err => .error err
          | .ok jsonData => JSONToXML lib jsonData) := by
  constructor <;> simp [Convert]

/-! ## The round trip JSON -> CSV -> JSON -/

theorem zip_append_of_length_le {α β : Type} (l₁ l₂ : List α) (r : List β)
    (h : r.length ≤ l₁.length) : (l₁ ++ l₂).zip r = l₁.zip r := by
  induction l₁ generalizing r with
  | nil =>
    cases r with
    | nil => simp
    | cons b r => simp at h
  | cons a l₁ ih =>
    cases r with
    | nil => simp
    | cons b r =>
      simp only [List.cons_append, List.zip_cons_cons, List.cons.injEq, true_and]
      exact ih r (by simpa using h)

theorem mem_zip_map_self {α β : Type} (hs : List α) (f : α → β) (c : α × β) :
    c ∈ hs.zip (hs.map f) ↔ ∃ h ∈ hs, c = (h, f h) := by
  induction hs with
  | nil => simp
  | cons a hs ih =>
    simp only [List.map_cons, List.zip_cons_cons, List.mem_cons, ih]
    constructor
    · rintro (h | ⟨x, hx, hc⟩)
      · exact ⟨a, Or.inl rfl, h⟩
      · exact ⟨x, Or.inr hx, hc⟩
    · rintro ⟨x, (rfl | hx), hc⟩
      · exact Or.inl hc
      · exact Or.inr ⟨x, hx, hc⟩

theorem GoMap.set_eq_append {α : Type} (m : GoMap α) (k : String) (v : α)
    (h : k ∉ m.keys) : m.set k v = m ++ [(k, v)] := by
  induction m with
  | nil => rfl
  | cons e m ih =>
    obtain ⟨k', v'⟩ := e
    simp only [GoMap.keys, List.map_cons, List.mem_cons, not_or] at h
    have hne : ¬ k' = k := fun hk => h.1 hk.symm
    simp only [GoMap.set, hne, if_false, List.cons_append, List.cons.injEq, true_and]
    exact ih h.2

theorem GoMap.get?_of_mem {α : Type} (m : GoMap α) (k : String) (v : α)
    (hnd : m.keys.Nodup) (h : (k, v) ∈ m) : m.get? k = some v := by
  induction m with
  | nil => simp at h
  | cons e m ih =>
    obtain ⟨k', v'⟩ := e
    simp only [GoMap.keys, List.map_cons, List.nodup_cons] at hnd
    simp only [List.mem_cons, Prod.mk.injEq] at h
    rcases h with ⟨rfl, rfl⟩ | h
    · simp [GoMap.get?]
    · have hne : ¬ k' = k := by
        rintro rfl
        exact hnd.1 (List.mem_map_of_mem Prod.fst h)
      simp only [GoMap.get?, hne, if_false]
      exact ih hnd.2 h

theorem GoMap.mem_of_get? {α : Type} (m : GoMap α) (k : String) (v : α)
    (h : m.get? k = some v) : (k, v) ∈ m := by
  induction m with
  | nil => simp [GoMap.get?] at h
  | cons e m ih =>
    obtain ⟨k', v'⟩ := e
    by_cases hk : k' = k
    · simp only [GoMap.get?, hk, if_true, Option.some.injEq] at h
      simp [hk, h]
    · simp only [GoMap.get?, hk, if_false] at h
      exact List.mem_cons_of_mem _ (ih h)

theorem Join_snoc (path : List String) (k sep : String) :
    strings.Join (path ++ [k]) sep
      = if path = [] then k else strings.Join path sep ++ sep ++ k := by
  induction path with
  | nil => simp [strings.Join]
  | cons a path ih =>
    cases path with
    | nil => simp [strings.Join]
    | cons b path =>
      have h1 : strings.Join (a :: b :: path ++ [k]) sep
          = a ++ sep ++ strings.Join (b :: path ++ [k]) sep := rfl
      have h2 : strings.Join (a :: b :: path) sep = a ++ sep ++ strings.Join (b :: path) sep := rfl
      simp only [reduceCtorEq, if_false] at ih ⊢
      rw [h1, ih, h2]
      simp [String.append_assoc]

theorem String.append_left_cancel (s a b : String) (h : s ++ a = s ++ b) : a = b := by
  have := congrArg String.data h
  simp only [String.data_append, List.append_cancel_left_eq] at this
  exact String.ext this

theorem Join_snoc_inj (path : List String) (k k' sep : String)
    (h : strings.Join (path ++ [k]) sep = strings.Join (path ++ [k']) sep) : k = k' := by
  rw [Join_snoc, Join_snoc] at h
  by_cases hp : path = []
  · simpa [hp] using h
  · simp only [hp, if_false] at h
    exact String.append_left_cancel _ _ _ h

theorem addHeader_spec (st : FlatState) (k : String) (hinv : st.Inv) :
    (addHeader st k).Inv ∧ (addHeader st k).rows = st.rows ∧ k ∈ (addHeader st k).headers ∧
      ∃ ext, (addHeader st k).headers = st.headers ++ ext ∧ ∀ h ∈ ext, h = k := by
  obtain ⟨hset, hnd, hrows⟩ := hinv
  unfold addHeader
  by_cases hc : st.headerSet.contains k = true
  · have hmem : k ∈ st.headers := by
      rw [← hset]; simpa using hc
    rw [if_pos hc]
    exact ⟨⟨hset, hnd, hrows⟩, rfl, hmem, [], by simp, by simp⟩
  · have hmem : k ∉ st.headers := by
      rw [← hset]; simpa using hc
    rw [if_neg hc]
    refine ⟨⟨?_, ?_, ?_⟩, rfl, ?_, [k], rfl, by simp⟩
    · show st.headerSet ++ [k] = st.headers ++ [k]
      rw [hset]
    · show (st.headers ++ [k]).Nodup
      exact List.Nodup.append hnd (List.nodup_singleton k) (by simpa using hmem)
    · intro r hr
      have := hrows r hr
      show r.length ≤ (st.headers ++ [k]).length
      simp only [List.length_append, List.length_singleton]
      omega
    · show k ∈ st.headers ++ [k]
      simp

theorem Extends.refl (st : FlatState) (h : st.Inv) : Extends st st [] [] :=
  ⟨h, ⟨[], by simp, by simp⟩, ⟨[], by simp, by simp, by simp⟩⟩

theorem Extends.trans {st st' st'' : FlatState} {P Q : List (String × String)}
    {K L : List String} (h₁ : Extends st st' P K) (h₂ : Extends st' st'' Q L) :
    Extends st st'' (P ++ Q) (K ++ L) := by
  obtain ⟨hinv₁, ⟨e₁, he₁, hh₁⟩, ⟨n₁, hn₁, hc₁, hs₁⟩⟩ := h₁
  obtain ⟨hinv₂, ⟨e₂, he₂, hh₂⟩, ⟨n₂, hn₂, hc₂, hs₂⟩⟩ := h₂
  have hstable : ∀ r ∈ n₁, st''.headers.zip r = st'.headers.zip r := by
    intro r hr
    rw [he₂]
    apply zip_append_of_length_le
    exact hinv₁.2.2 r (by rw [hn₁]; exact List.mem_append_right _ hr)
  refine ⟨hinv₂, ⟨e₁ ++ e₂, by rw [he₂, he₁, List.append_assoc], ?_⟩,
    ⟨n₁ ++ n₂, by rw [hn₂, hn₁, List.append_assoc], ?_, ?_⟩⟩
  · intro h hh
    rcases List.mem_append.mp hh with hh | hh
    · rcases hh₁ h hh with hp | hk
      · exact Or.inl (by rw [List.map_append]; exact List.mem_append_left _ hp)
      · exact Or.inr (List.mem_append_left _ hk)
    · rcases hh₂ h hh with hp | hk
      · exact Or.inl (by rw [List.map_append]; exact List.mem_append_right _ hp)
      · exact Or.inr (List.mem_append_right _ hk)
  · intro p hp
    rcases List.mem_append.mp hp with hp | hp
    · obtain ⟨r, hr, hpr⟩ := hc₁ p hp
      exact ⟨r, List.mem_append_left _ hr, by rw [hstable r hr]; exact hpr⟩
    · obtain ⟨r, hr, hpr⟩ := hc₂ p hp
      exact ⟨r, List.mem_append_right _ hr, hpr⟩
  · intro r hr c hc
    rcases List.mem_append.mp hr with hr | hr
    · rw [hstable r hr] at hc
      rcases hs₁ r hr c hc with h | h
      · exact Or.inl (List.mem_append_left _ h)
      · exact Or.inr h
    · rcases hs₂ r hr c hc with h | h
      · exact Or.inl (List.mem_append_right _ h)
      · exact Or.inr h

theorem Extends.weaken {st st' : FlatState} {P P' : List (String × String)}
    {K K' : List String} (h : Extends st st' P K) (hP : ∀ p, p ∈ P ↔ p ∈ P')
    (hK : ∀ k ∈ K, k ∈ P'.map Prod.fst ∨ k ∈ K') : Extends st st' P' K' := by
  obtain ⟨hinv, ⟨e, he, hh⟩, ⟨n, hn, hc, hs⟩⟩ := h
  refine ⟨hinv, ⟨e, he, ?_⟩, ⟨n, hn, ?_, ?_⟩⟩
  · intro h hmem
    rcases hh h hmem with hq | hk
    · obtain ⟨q, hqP, rfl⟩ := List.mem_map.mp hq
      exact Or.inl (List.mem_map_of_mem Prod.fst ((hP q).mp hqP))
    · exact hK _ hk
  · intro p hp
    exact hc p ((hP p).mpr hp)
  · intro r hr c hcell
    rcases hs r hr c hcell with h | h
    · exact Or.inl ((hP c).mp h)
    · exact Or.inr h

theorem flattenScalar_ext (lib : StdLib) (v : JSON) (st : FlatState) (path : List String)
    (hinv : st.Inv) :
    Extends st (flattenScalar lib v st path) [(strings.Join path ".", sprintV lib v)] [] := by
  obtain ⟨hinv', hrows, hmem, ext, hext, hk⟩ := addHeader_spec st (strings.Join path ".") hinv
  show Extends st { addHeader st (strings.Join path ".") with
    rows := (addHeader st (strings.Join path ".")).rows
      ++ [(addHeader st (strings.Join path ".")).headers.map
        (fun h => if h = strings.Join path "." then sprintV lib v else "")] } _ _
  refine ⟨⟨hinv'.1, hinv'.2.1, ?_⟩, ⟨ext, hext, ?_⟩,
    ⟨[(addHeader st (strings.Join path ".")).headers.map
        (fun h => if h = strings.Join path "." then sprintV lib v else "")],
      by rw [hrows], ?_, ?_⟩⟩
  · intro r hr
    simp only [List.mem_append, List.mem_singleton] at hr
    rcases hr with hr | rfl
    · exact hinv'.2.2 r hr
    · simp
  · intro h hh
    exact Or.inl (by simp [hk h hh])
  · intro p hp
    simp only [List.mem_singleton] at hp
    subst hp
    refine ⟨_, List.mem_singleton.mpr rfl, ?_⟩
    rw [mem_zip_map_self]
    exact ⟨_, hmem, by simp⟩
  · intro r hr c hc
    simp only [List.mem_singleton] at hr
    subst hr
    rw [mem_zip_map_self] at hc
    obtain ⟨h, _, rfl⟩ := hc
    by_cases hh : h = strings.Join path "."
    · exact Or.inl (by simp [hh])
    · exact Or.inr (by simp [hh])

theorem appendRow_ext {st st' : FlatState} {P : List (String × String)} {K : List String}
    (rowMap : GoMap String) (hext : Extends st st' P K) (hnd : rowMap.keys.Nodup)
    (hk : ∀ k ∈ rowMap.keys, k ∈ st'.headers) (hK : ∀ k ∈ K, k ∈ rowMap.keys) :
    Extends st (appendRow st' rowMap) (P ++ rowMap) [] := by
  unfold appendRow
  by_cases hlen : rowMap.length > 0
  · simp only [hlen, if_true]
    have hrow : Extends st' { st' with rows := st'.rows
        ++ [st'.headers.map (fun h => GoMap.getStr rowMap h)] } rowMap [] := by
      refine ⟨⟨hext.1.1, hext.1.2.1, ?_⟩, ⟨[], by simp, by simp⟩, ⟨[_], rfl, ?_, ?_⟩⟩
      · intro r hr
        simp only [List.mem_append, List.mem_singleton] at hr
        rcases hr with hr | rfl
        · exact hext.1.2.2 r hr
        · simp
      · intro p hp
        refine ⟨_, List.mem_singleton.mpr rfl, ?_⟩
        show p ∈ st'.headers.zip (st'.headers.map (fun h => GoMap.getStr rowMap h))
        rw [mem_zip_map_self]
        refine ⟨p.1, hk p.1 (List.mem_map_of_mem Prod.fst hp), ?_⟩
        have := GoMap.get?_of_mem rowMap p.1 p.2 hnd hp
        simp [GoMap.getStr, this]
      · intro r hr c hc
        simp only [List.mem_singleton] at hr
        subst hr
        have hc' : c ∈ st'.headers.zip (st'.headers.map (fun h => GoMap.getStr rowMap h)) := hc
        rw [mem_zip_map_self] at hc'
        obtain ⟨h, _, rfl⟩ := hc'
        cases hget : rowMap.get? h with
        | none => exact Or.inr (by simp [GoMap.getStr, hget])
        | some v =>
          refine Or.inl ?_
          have := GoMap.mem_of_get? rowMap h v hget
          simpa [GoMap.getStr, hget] using this
    refine (hext.trans hrow).weaken (fun p => Iff.rfl) ?_
    intro k hk'
    simp only [List.append_nil] at hk'
    refine Or.inl ?_
    rw [List.map_append]
    exact List.mem_append_right _ (hK k hk')
  · have hnil : rowMap = [] := by
      cases rowMap with
      | nil => rfl
      | cons e m => simp at hlen
    subst hnil
    simp only [List.length_nil, gt_iff_lt, lt_self_iff_false, if_false]
    refine hext.weaken (fun p => by simp) ?_
    intro k hk'
    simpa [GoMap.keys] using hK k hk'

theorem flattenFields_cons (lib : StdLib) (key : String) (value : JSON)
    (rest : List (String × JSON)) (st : FlatState) (path : List String) (rowMap : GoMap String) :
    flattenFields lib ((key, value) :: rest) st path rowMap
      = if value.isObj then
          flattenFields lib rest (flattenJSON lib value st (path ++ [key])) path rowMap
        else if value.isArr then
          flattenFields lib rest (flattenRange lib value st (path ++ [key])) path rowMap
        else
          flattenFields lib rest (addHeader st (strings.Join (path ++ [key]) ".")) path
            (rowMap.set (strings.Join (path ++ [key]) ".") (sprintV lib value)) := by
  rw [flattenFields]

theorem flattenJSON_scalar (lib : StdLib) (v : JSON) (st : FlatState) (path : List String)
    (hobj : v.isObj = false) (harr : v.isArr = false) :
    flattenJSON lib v st path = flattenScalar lib v st path := by
  cases v <;> simp [flattenJSON, JSON.isObj, JSON.isArr] at hobj harr ⊢

theorem leafPairs_scalar (lib : StdLib) (v : JSON) (path : List String)
    (hobj : v.isObj = false) (harr : v.isArr = false) :
    leafPairs lib v path = [(strings.Join path ".", sprintV lib v)] := by
  cases v <;> simp [leafPairs, JSON.isObj, JSON.isArr] at hobj harr ⊢

theorem scalar_of_not_nested (value : JSON) (h : (value.isObj || value.isArr) = false) :
    value.isObj = false ∧ value.isArr = false := by
  cases ho : value.isObj <;> cases ha : value.isArr <;> simp [ho, ha] at h ⊢

theorem mem_fieldPairs_iff (lib : StdLib) (fields : List (String × JSON)) (path : List String)
    (p : String × String) :
    p ∈ fieldPairs lib fields path
      ↔ p ∈ nestedPairs lib fields path ∨ p ∈ scalarLeafs lib fields path := by
  induction fields with
  | nil => simp [fieldPairs, nestedPairs, scalarLeafs]
  | cons e rest ih =>
    obtain ⟨key, value⟩ := e
    cases hb : (value.isObj || value.isArr)
    · obtain ⟨hobj, harr⟩ := scalar_of_not_nested value hb
      simp only [fieldPairs, nestedPairs, scalarLeafs, hb, Bool.false_eq_true, if_false,
        List.mem_append, ih, leafPairs_scalar lib value _ hobj harr, List.mem_cons,
        List.mem_singleton, List.not_mem_nil, or_false]
      tauto
    · simp only [fieldPairs, nestedPairs, scalarLeafs, hb, if_true, List.mem_append, ih]
      tauto

theorem scalarLeafs_keys (lib : StdLib) (fields : List (String × JSON)) (path : List String) :
    ∀ x ∈ (scalarLeafs lib fields path).map Prod.fst,
      ∃ k ∈ fields.map Prod.fst, x = strings.Join (path ++ [k]) "." := by
  induction fields with
  | nil => simp [scalarLeafs]
  | cons e rest ih =>
    obtain ⟨key, value⟩ := e
    intro x hx
    cases hb : (value.isObj || value.isArr)
    · simp only [scalarLeafs, hb, Bool.false_eq_true, if_false, List.map_cons,
        List.mem_cons] at hx
      rcases hx with hx | hx
      · exact ⟨key, by simp, hx⟩
      · obtain ⟨k, hk, hk'⟩ := ih x hx
        exact ⟨k, List.mem_cons_of_mem _ hk, hk'⟩
    · simp only [scalarLeafs, hb, if_true] at hx
      obtain ⟨k, hk, hk'⟩ := ih x hx
      exact ⟨k, List.mem_cons_of_mem _ hk, hk'⟩

theorem scalarLeafs_nodup (lib : StdLib) (fields : List (String × JSON)) (path : List String)
    (hnd : (fields.map Prod.fst).Nodup) : ((scalarLeafs lib fields path).map Prod.fst).Nodup := by
  induction fields with
  | nil => simp [scalarLeafs]
  | cons e rest ih =>
    obtain ⟨key, value⟩ := e
    simp only [List.map_cons, List.nodup_cons] at hnd
    cases hb : (value.isObj || value.isArr)
    · simp only [scalarLeafs, hb, Bool.false_eq_true, if_false, List.map_cons, List.nodup_cons]
      refine ⟨?_, ih hnd.2⟩
      intro hmem
      obtain ⟨k, hk, heq⟩ := scalarLeafs_keys lib rest path _ hmem
      have := Join_snoc_inj path key k "." heq
      exact hnd.1 (this ▸ hk)
    · simp only [scalarLeafs, hb, if_true]
      exact ih hnd.2

theorem Extends.headers_subset {st st' : FlatState} {P : List (String × String)}
    {K : List String} (h : Extends st st' P K) : ∀ k ∈ st.headers, k ∈ st'.headers := by
  obtain ⟨_, ⟨e, he, _⟩, _⟩ := h
  intro k hk
  rw [he]
  exact List.mem_append_left _ hk

theorem FieldsSpec.nested_step (lib : StdLib) (key : String) (value : JSON)
    (rest : List (String × JSON)) (st st1 : FlatState) (path : List String)
    (rowMap : GoMap String) (hb : (value.isObj || value.isArr) = true)
    (hstep : flattenFields lib ((key, value) :: rest) st path rowMap
      = flattenFields lib rest st1 path rowMap)
    (h1 : Extends st st1 (leafPairs lib value (path ++ [key])) [])
    (hsub : ∀ k ∈ rowMap.keys, k ∈ st.headers)
    (IH : st1.Inv → (∀ k ∈ rowMap.keys, k ∈ st1.headers) → FieldsSpec lib rest st1 path rowMap) :
    FieldsSpec lib ((key, value) :: rest) st path rowMap := by
  obtain ⟨hmap, hkeys, hext⟩ := IH h1.1 (fun k hk => h1.headers_subset k (hsub k hk))
  unfold FieldsSpec
  rw [hstep]
  refine ⟨?_, hkeys, ?_⟩
  · rw [hmap]
    simp only [scalarLeafs, hb, if_true]
  · have := h1.trans hext
    simp only [nestedPairs, scalarLeafs, hb, if_true]
    simpa using this

theorem FieldsSpec.scalar_step (lib : StdLib) (key : String) (value : JSON)
    (rest : List (String × JSON)) (st : FlatState) (path : List String)
    (rowMap : GoMap String) (hb : (value.isObj || value.isArr) = false) (hinv : st.Inv)
    (hnd : (rowMap.keys ++ (scalarLeafs lib ((key, value) :: rest) path).map Prod.fst).Nodup)
    (hsub : ∀ k ∈ rowMap.keys, k ∈ st.headers)
    (IH : ∀ st1 rowMap1, st1.Inv →
      (GoMap.keys rowMap1 ++ (scalarLeafs lib rest path).map Prod.fst).Nodup →
      (∀ k ∈ GoMap.keys rowMap1, k ∈ st1.headers) → FieldsSpec lib rest st1 path rowMap1) :
    FieldsSpec lib ((key, value) :: rest) st path rowMap := by
  obtain ⟨hobj, harr⟩ := scalar_of_not_nested value hb
  have hleafs : scalarLeafs lib ((key, value) :: rest) path
      = (strings.Join (path ++ [key]) ".", sprintV lib value) :: scalarLeafs lib rest path := by
    simp only [scalarLeafs, hb, Bool.false_eq_true, if_false]
  rw [hleafs] at hnd
  have hfresh : strings.Join (path ++ [key]) "." ∉ rowMap.keys := by
    intro hmem
    have := (List.nodup_append.mp hnd).2.2
    exact this hmem (by simp)
  have hset : rowMap.set (strings.Join (path ++ [key]) ".") (sprintV lib value)
      = rowMap ++ [(strings.Join (path ++ [key]) ".", sprintV lib value)] :=
    GoMap.set_eq_append rowMap _ _ hfresh
  obtain ⟨hinv1, hrows1, hmem1, ext, hext1, hk1⟩ :=
    addHeader_spec st (strings.Join (path ++ [key]) ".") hinv
  have hstep : flattenFields lib ((key, value) :: rest) st path rowMap
      = flattenFields lib rest (addHeader st (strings.Join (path ++ [key]) ".")) path
          (rowMap ++ [(strings.Join (path ++ [key]) ".", sprintV lib value)]) := by
    rw [flattenFields_cons, hobj, harr, hset]
    simp
  have h1 : Extends st (addHeader st (strings.Join (path ++ [key]) ".")) []
      [strings.Join (path ++ [key]) "."] := by
    refine ⟨hinv1, ⟨ext, hext1, fun h hh => Or.inr (by simp [hk1 h hh])⟩,
      ⟨[], by simp [hrows1], by simp, by simp⟩⟩
  obtain ⟨hmap, hkeys, hext⟩ := IH (addHeader st (strings.Join (path ++ [key]) "."))
    (rowMap ++ [(strings.Join (path ++ [key]) ".", sprintV lib value)]) hinv1
    (by simpa [GoMap.keys, List.append_assoc] using hnd)
    (by
      intro k hk
      simp only [GoMap.keys, List.map_append, List.map_cons, List.map_nil, List.mem_append,
        List.mem_singleton] at hk
      rcases hk with hk | rfl
      · exact h1.headers_subset k (hsub k hk)
      · exact hmem1)
  unfold FieldsSpec
  rw [hstep, hleafs]
  refine ⟨?_, hkeys, ?_⟩
  · rw [hmap]; simp
  · have := h1.trans hext
    have hnested : nestedPairs lib ((key, value) :: rest) path = nestedPairs lib rest path := by
      simp only [nestedPairs, hb, Bool.false_eq_true, if_false]
    rw [hnested]
    simpa using this

mutual
theorem flattenJSON_ext (lib : StdLib) : ∀ (v : JSON) (st : FlatState) (path : List String),
    v.isArr = false → v.nodupKeys = true → v.flatArrays = true → st.Inv →
    Extends st (flattenJSON lib v st path) (leafPairs lib v path) []
  | .obj fields, st, path, _, hk, hf, hinv => by
    simp only [JSON.nodupKeys, Bool.and_eq_true, decide_eq_true_eq] at hk
    simp only [JSON.flatArrays] at hf
    have hnd := scalarLeafs_nodup lib fields path hk.1
    obtain ⟨hmap, hkeys, hext⟩ := flattenFields_ext lib fields st path [] hk.2 hf hinv
      (by simpa [GoMap.keys] using hnd) (by simp [GoMap.keys])
    have hrow : flattenJSON lib (.obj fields) st path
        = appendRow (flattenFields lib fields st path []).1
            (flattenFields lib fields st path []).2 := by
      rw [flattenJSON]
    rw [hrow]
    simp only [List.nil_append] at hmap
    have h2 := appendRow_ext (flattenFields lib fields st path []).2 hext
      (by rw [hmap]; exact hnd) hkeys (by rw [hmap]; exact fun k hk => hk)
    rw [hmap] at h2 ⊢
    refine h2.weaken (fun p => ?_) (by simp)
    rw [leafPairs, mem_fieldPairs_iff, List.mem_append]
  | .arr items, _, _, harr, _, _, _ => by simp [JSON.isArr] at harr
  | .null, st, path, _, _, _, hinv => by
    rw [flattenJSON_scalar lib .null st path rfl rfl, leafPairs_scalar lib .null path rfl rfl]
    exact flattenScalar_ext lib .null st path hinv
  | .bool b, st, path, _, _, _, hinv => by
    rw [flattenJSON_scalar lib (.bool b) st path rfl rfl, leafPairs_scalar lib (.bool b) path rfl rfl]
    exact flattenScalar_ext lib (.bool b) st path hinv
  | .num x, st, path, _, _, _, hinv => by
    rw [flattenJSON_scalar lib (.num x) st path rfl rfl, leafPairs_scalar lib (.num x) path rfl rfl]
    exact flattenScalar_ext lib (.num x) st path hinv
  | .str s, st, path, _, _, _, hinv => by
    rw [flattenJSON_scalar lib (.str s) st path rfl rfl, leafPairs_scalar lib (.str s) path rfl rfl]
    exact flattenScalar_ext lib (.str s) st path hinv
theorem flattenFields_ext (lib : StdLib) : ∀ (fields : List (String × JSON)) (st : FlatState)
    (path : List String) (rowMap : GoMap String),
    JSON.nodupKeysFields fields = true → JSON.flatArraysFields fields = true → st.Inv →
    (GoMap.keys rowMap ++ (scalarLeafs lib fields path).map Prod.fst).Nodup →
    (∀ k ∈ GoMap.keys rowMap, k ∈ st.headers) → FieldsSpec lib fields st path rowMap
  | [], st, path, rowMap, _, _, hinv, _, hsub => by
    unfold FieldsSpec
    simp only [flattenFields, scalarLeafs, nestedPairs, List.append_nil, List.map_nil, true_and]
    exact ⟨hsub, Extends.refl st hinv⟩
  | (key, .obj fs) :: rest, st, path, rowMap, hk, hf, hinv, hnd, hsub => by
    simp only [JSON.nodupKeysFields, JSON.flatArraysFields, Bool.and_eq_true] at hk hf
    have h1 := flattenJSON_ext lib (.obj fs) st (path ++ [key]) rfl hk.1 hf.1 hinv
    refine FieldsSpec.nested_step lib key (.obj fs) rest st
      (flattenJSON lib (.obj fs) st (path ++ [key])) path rowMap rfl
      (by rw [flattenFields_cons]; simp [JSON.isObj]) h1 hsub (fun hinv1 hsub1 => ?_)
    exact flattenFields_ext lib rest _ path rowMap hk.2 hf.2 hinv1
      (by simpa [scalarLeafs, JSON.isObj] using hnd) hsub1
  | (key, .arr items) :: rest, st, path, rowMap, hk, hf, hinv, hnd, hsub => by
    simp only [JSON.nodupKeysFields, JSON.flatArraysFields, JSON.nodupKeys, JSON.flatArrays,
      Bool.and_eq_true] at hk hf
    have h1 := flattenIndexed_ext lib items 0 st (path ++ [key]) hk.1 hf.1 hinv
    refine FieldsSpec.nested_step lib key (.arr items) rest st
      (flattenIndexed lib items 0 st (path ++ [key])) path rowMap rfl
      (by rw [flattenFields_cons]; simp [JSON.isObj, JSON.isArr, flattenRange])
      (by rw [leafPairs]; exact h1) hsub (fun hinv1 hsub1 => ?_)
    exact flattenFields_ext lib rest _ path rowMap hk.2 hf.2 hinv1
      (by simpa [scalarLeafs, JSON.isObj, JSON.isArr] using hnd) hsub1
  | (key, .null) :: rest, st, path, rowMap, hk, hf, hinv, hnd, hsub => by
    simp only [JSON.nodupKeysFields, JSON.flatArraysFields, Bool.and_eq_true] at hk hf
    exact FieldsSpec.scalar_step lib key .null rest st path rowMap rfl hinv hnd hsub
      (fun st1 rowMap1 h1 h2 h3 => flattenFields_ext lib rest st1 path rowMap1 hk.2 hf.2 h1 h2 h3)
  | (key, .bool b) :: rest, st, path, rowMap, hk, hf, hinv, hnd, hsub => by
    simp only [JSON.nodupKeysFields, JSON.flatArraysFields, Bool.and_eq_true] at hk hf
    exact FieldsSpec.scalar_step lib key (.bool b) rest st path rowMap rfl hinv hnd hsub
      (fun st1 rowMap1 h1 h2 h3 => flattenFields_ext lib rest st1 path rowMap1 hk.2 hf.2 h1 h2 h3)
  | (key, .num x) :: rest, st, path, rowMap, hk, hf, hinv, hnd, hsub => by
    simp only [JSON.nodupKeysFields, JSON.flatArraysFields, Bool.and_eq_true] at hk hf
    exact FieldsSpec.scalar_step lib key (.num x) rest st path rowMap rfl hinv hnd hsub
      (fun st1 rowMap1 h1 h2 h3 => flattenFields_ext lib rest st1 path rowMap1 hk.2 hf.2 h1 h2 h3)
  | (key, .str s) :: rest, st, path, rowMap, hk, hf, hinv, hnd, hsub => by
    simp only [JSON.nodupKeysFields, JSON.flatArraysFields, Bool.and_eq_true] at hk hf
    exact FieldsSpec.scalar_step lib key (.str s) rest st path rowMap rfl hinv hnd hsub
      (fun st1 rowMap1 h1 h2 h3 => flattenFields_ext lib rest st1 path rowMap1 hk.2 hf.2 h1 h2 h3)
theorem flattenIndexed_ext (lib : StdLib) : ∀ (items : List JSON) (i : Nat) (st : FlatState)
    (path : List String),
    JSON.nodupKeysItems items = true → JSON.flatArraysItems items = true → st.Inv →
    Extends st (flattenIndexed lib items i st path) (itemPairs lib items i path) []
  | [], i, st, path, _, _, hinv => by
    rw [flattenIndexed, itemPairs]
    exact Extends.refl st hinv
  | item :: rest, i, st, path, hk, hf, hinv => by
    simp only [JSON.nodupKeysItems, JSON.flatArraysItems, Bool.and_eq_true,
      Bool.not_eq_true'] at hk hf
    have h1 := flattenJSON_ext lib item st (path ++ [toString i]) hf.1.1 hk.1 hf.1.2 hinv
    have h2 := flattenIndexed_ext lib rest (i + 1) _ path hk.2 hf.2 h1.1
    rw [flattenIndexed, itemPairs]
    simpa using h1.trans h2
end

theorem zip_append_right {α β : Type} (l : List α) (r s : List β) (h : r.length ≤ l.length) :
    l.zip (r ++ s) = l.zip r ++ (l.drop r.length).zip s := by
  induction l generalizing r with
  | nil =>
    cases r with
    | nil => simp
    | cons b r => simp at h
  | cons a l ih =>
    cases r with
    | nil => simp
    | cons b r =>
      simp only [List.cons_append, List.zip_cons_cons, List.length_cons, List.drop_succ_cons,
        List.cons.injEq, true_and]
      exact ih r (by simpa using h)

theorem fillRow_eq_zip (record : List String) : ∀ (headers : List String) (j : Nat)
    (row : GoMap String), (GoMap.keys row ++ headers).Nodup →
    headers.length ≤ (record.drop j).length →
    fillRow record headers j row = row ++ headers.zip (record.drop j) := by
  intro headers
  induction headers with
  | nil => intro j row _ _; simp [fillRow]
  | cons h hs ih =>
    intro j row hnd hlen
    have hj : j < record.length := by
      simp only [List.length_cons, List.length_drop] at hlen
      omega
    have hfresh : h ∉ GoMap.keys row := by
      intro hmem
      exact (List.nodup_append.mp hnd).2.2 hmem (by simp)
    have hdrop : record.drop j = record[j] :: record.drop (j + 1) := List.drop_eq_getElem_cons hj
    have hget : (if j < record.length then record.getD j "" else "") = record[j] := by
      simp [hj, List.getD_eq_getElem?_getD, List.getElem?_eq_getElem hj]
    rw [fillRow, hget, GoMap.set_eq_append row h _ hfresh, ih (j + 1)]
    · rw [hdrop, List.zip_cons_cons, List.append_assoc]
      rfl
    · have : (GoMap.keys row ++ h :: hs) = ((GoMap.keys row ++ [h]) ++ hs) := by simp
      rw [this] at hnd
      simpa [GoMap.keys] using hnd
    · simp only [List.length_cons, List.length_drop] at hlen ⊢
      omega

theorem padRow_length (n : Nat) (r : List String) (h : r.length ≤ n) :
    (padRow n r).length = n := by
  simp only [padRow, List.length_append, List.length_replicate]
  omega

/-- The objects that `CSVToJSON` builds from the records that `JSONToCSV` writes:
one per row, mapping each header to the field of the padded row in its column. -/
theorem csvResult_csvRecords (lib : StdLib) (d : JSON) (hinv : (flattened lib d).Inv) :
    csvResult (csvRecords lib d)
      = (flattened lib d).rows.map
          (fun r => (flattened lib d).headers.zip (padRow (flattened lib d).headers.length r)) := by
  unfold csvRecords
  by_cases hrows : (flattened lib d).rows.length = 0
  · have : (flattened lib d).rows = [] := List.length_eq_zero.mp hrows
    simp [hrows, this, csvResult]
  · simp only [hrows, if_false, csvResult, List.map_map]
    apply List.map_congr_left
    intro r hr
    have hlen := padRow_length _ r (hinv.2.2 r hr)
    simp only [Function.comp]
    rw [fillRow_eq_zip _ _ 0 [] (by simpa [GoMap.keys] using hinv.2.1) (by simp [hlen])]
    simp

theorem JSONToCSV_eq_writeRecords (lib : StdLib) (data : String) (d : JSON)
    (hdata : lib.jsonUnmarshal data = .ok d) :
    JSONToCSV lib data = writeRecords lib (csvRecords lib d) "" := by
  unfold JSONToCSV csvRecords
  rw [hdata]
  by_cases hrows : (flattened lib d).rows.length = 0
  · simp [hrows, writeRecords]
  · simp only [hrows, if_false, writeRecords]
    cases lib.csvWrite (flattened lib d).headers with
    | error e => rfl
    | ok t => simp

theorem flattened_ext (lib : StdLib) (fields : List (String × JSON))
    (hkeys : (JSON.obj fields).nodupKeys = true) (harr : (JSON.obj fields).flatArrays = true) :
    Extends ⟨[], [], []⟩ (flattened lib (.obj fields)) (leafPairs lib (.obj fields) []) [] :=
  flattenJSON_ext lib (.obj fields) ⟨[], [], []⟩ [] rfl hkeys harr
    ⟨rfl, List.nodup_nil, by simp⟩

/-- C4, amended: for every JSON object `d` with distinct keys and no array
directly inside an array, whose CSV text the CSV reader reads back as the
records written, every pair (dotted leaf path, leaf value rendered as a string)
of `d` is in some object that `CSVToJSON(JSONToCSV(d))` returns, and every pair
of a returned object is such a pair of `d` or maps a leaf path of `d` to the
empty string. -/
theorem JSONToCSV_CSVToJSON_leaf_pairs (lib : StdLib) (data text : String)
    (fields : List (String × JSON))
    (hdata : lib.jsonUnmarshal data = .ok (.obj fields))
    (hkeys : (JSON.obj fields).nodupKeys = true)
    (harr : (JSON.obj fields).flatArrays = true)
    (hwrite : JSONToCSV lib data = .ok text)
    (hread : lib.csvReadAll text = .ok (csvRecords lib (.obj fields))) :
    writeRecords lib (csvRecords lib (.obj fields)) "" = .ok text ∧
      CSVToJSON lib text
        = (if (csvRecords lib (.obj fields)).length = 0 then .ok "[]"
          else lib.jsonMarshal (stringMaps (csvResult (csvRecords lib (.obj fields))))) ∧
      (∀ p ∈ leafPairs lib (.obj fields) [],
        ∃ row ∈ csvResult (csvRecords lib (.obj fields)), p ∈ row) ∧
      (∀ row ∈ csvResult (csvRecords lib (.obj fields)), ∀ p ∈ row,
        p ∈ leafPairs lib (.obj fields) [] ∨
          (p.2 = "" ∧ p.1 ∈ (leafPairs lib (.obj fields) []).map Prod.fst)) := by
  obtain ⟨hinv, ⟨ext, hext, hhs⟩, ⟨new, hnew, hcomplete, hsound⟩⟩ :=
    flattened_ext lib fields hkeys harr
  simp only [List.nil_append] at hext hnew
  have hheaders : ∀ h ∈ (flattened lib (.obj fields)).headers,
      h ∈ (leafPairs lib (.obj fields) []).map Prod.fst := by
    intro h hh
    rw [hext] at hh
    rcases hhs h hh with hp | hk
    · exact hp
    · simp at hk
  refine ⟨by rw [← JSONToCSV_eq_writeRecords lib data _ hdata]; exact hwrite, ?_, ?_, ?_⟩
  · unfold CSVToJSON
    rw [hread]
  · intro p hp
    obtain ⟨r, hr, hpr⟩ := hcomplete p hp
    rw [csvResult_csvRecords lib _ hinv]
    refine ⟨_, List.mem_map_of_mem _ (by rw [hnew]; exact hr), ?_⟩
    have hlen : r.length ≤ (flattened lib (.obj fields)).headers.length :=
      hinv.2.2 r (by rw [hnew]; exact hr)
    simp only [padRow]
    rw [zip_append_right _ _ _ hlen]
    exact List.mem_append_left _ hpr
  · intro row hrow p hp
    rw [csvResult_csvRecords lib _ hinv] at hrow
    obtain ⟨r, hr, rfl⟩ := List.mem_map.mp hrow
    have hlen : r.length ≤ (flattened lib (.obj fields)).headers.length := hinv.2.2 r hr
    simp only [padRow] at hp
    rw [zip_append_right _ _ _ hlen] at hp
    rcases List.mem_append.mp hp with hp | hp
    · rcases hsound r (by rw [← hnew]; exact hr) p hp with h | h
      · exact Or.inl h
      · exact Or.inr ⟨h, hheaders p.1 (List.of_mem_zip hp).1⟩
    · have hmem := List.of_mem_zip hp
      refine Or.inr ⟨?_, hheaders p.1 (List.mem_of_mem_drop hmem.1)⟩
      exact (List.mem_replicate.mp hmem.2).2

/-- C4, as stated, fails: for the object `{"a":{"b":1},"c":2}` the CSV text
is `a.b,c`, `1,`, `,2`, and the objects that `CSVToJSON` returns for it hold
the pairs (`c`, empty string) and (`a.b`, empty string), which are not leaf
pairs of the document. Two more failures, which the amended claim leaves
out: for `{"a":[[1,2]]}` both leaves come back under `a.0`, not under `a.0.0`
and `a.0.1`; and a field that holds CR LF is read back with LF alone. -/
theorem JSONToCSV_CSVToJSON_adds_pairs :
    (Sample.lib.jsonUnmarshal nestedDoc = .ok (.obj nestedFields) ∧
      leafPairs Sample.lib (.obj nestedFields) [] = [("a.b", "1"), ("c", "2")] ∧
      JSONToCSV Sample.lib nestedDoc = .ok nestedCSV ∧
      Sample.lib.csvReadAll nestedCSV = .ok [["a.b", "c"], ["1", ""], ["", "2"]] ∧
      csvResult [["a.b", "c"], ["1", ""], ["", "2"]]
        = [[("a.b", "1"), ("c", "")], [("a.b", ""), ("c", "2")]] ∧
      CSVToJSON Sample.lib nestedCSV
        = .ok "[\x7b\"a.b\":\"1\",\"c\":\"\"\x7d,\x7b\"a.b\":\"\",\"c\":\"2\"\x7d]" ∧
      ("c", "") ∉ leafPairs Sample.lib (.obj nestedFields) []) ∧
    (Sample.lib.jsonUnmarshal "\x7b\"a\":[[1,2]]\x7d"
        = .ok (.obj [("a", .arr [.arr [.num 1, .num 2]])]) ∧
      leafPairs Sample.lib (.obj [("a", .arr [.arr [.num 1, .num 2]])]) []
        = [("a.0.0", "1"), ("a.0.1", "2")] ∧
      JSONToCSV Sample.lib "\x7b\"a\":[[1,2]]\x7d" = .ok "a.0\n1\n2\n" ∧
      csvResult (csvRecords Sample.lib (.obj [("a", .arr [.arr [.num 1, .num 2]])]))
        = [[("a.0", "1")], [("a.0", "2")]]) ∧
    (writeRecords Sample.lib [["a"], ["x\r\ny"]] "" = .ok "a\n\"x\r\ny\"\n" ∧
      Sample.lib.csvReadAll "a\n\"x\r\ny\"\n" = .ok [["a"], ["x\ny"]]) :=
  ⟨⟨rfl, by decide, by decide, by decide, by decide, by decide, by decide⟩,
    ⟨rfl, by decide, by decide, by decide⟩, ⟨by decide, by decide⟩⟩

/-- C4, amended, for the object `{"a":{"b":1},"c":2}`. -/
theorem JSONToCSV_CSVToJSON_leaf_pairs_witness :
    writeRecords Sample.lib (csvRecords Sample.lib (.obj nestedFields)) "" = .ok nestedCSV ∧
      CSVToJSON Sample.lib nestedCSV
        = (if (csvRecords Sample.lib (.obj nestedFields)).length = 0 then .ok "[]"
          else Sample.lib.jsonMarshal
            (stringMaps (csvResult (csvRecords Sample.lib (.obj nestedFields))))) ∧
      (∀ p ∈ leafPairs Sample.lib (.obj nestedFields) [],
        ∃ row ∈ csvResult (csvRecords Sample.lib (.obj nestedFields)), p ∈ row) ∧
      (∀ row ∈ csvResult (csvRecords Sample.lib (.obj nestedFields)), ∀ p ∈ row,
        p ∈ leafPairs Sample.lib (.obj nestedFields) [] ∨
          (p.2 = "" ∧ p.1 ∈ (leafPairs Sample.lib (.obj nestedFields) []).map Prod.fst)) :=
  JSONToCSV_CSVToJSON_leaf_pairs Sample.lib nestedDoc nestedCSV nestedFields rfl (by decide)
    (by decide) (by decide) (by decide)


/-! ## Properties of `buildEndpoint` -/

/-- C7 fails on the code: with the base path `https://sap.example.com/api`
and the port 8443, `buildEndpoint` returns the base path without the port
(the base path holds the colon of `https://`, so that the port is never
added), for an empty route path and for the route path `/api`. -/
theorem buildEndpoint_drops_port :
    buildEndpoint ⟨61, "sap", 1, "https://sap.example.com/api", 8443, 0⟩
        ⟨11, "orders", "", 1, "POST"⟩ = "https://sap.example.com/api" ∧
      buildEndpoint ⟨61, "sap", 1, "https://sap.example.com/api", 8443, 0⟩
        ⟨11, "orders", "/api", 1, "POST"⟩ = "https://sap.example.com/api" ∧
      buildEndpoint ⟨61, "sap", 1, "https://sap.example.com/api", 8443, 0⟩
        ⟨11, "orders", "", 1, "POST"⟩ ≠ "https://sap.example.com:8443/api" := by
  decide

/-- The port-injection block leaves the base path alone for the ports 443, 80 and 0. -/
theorem injectPort_default (basePath : String) (port : Int)
    (hport : port = 443 ∨ port = 80 ∨ port = 0) : injectPort basePath port = basePath := by
  unfold injectPort
  rcases hport with h | h | h <;> subst h <;> simp

/-- A text ends with each of its suffixes. -/
theorem HasSuffix_append (pre suf : String) : strings.HasSuffix (pre ++ suf) suf = true := by
  simp [strings.HasSuffix, String.data_append]

/-- C8: for every non-empty base path and every route whose path is empty or
a suffix of the base path, `buildEndpoint` with the port 443, 80 or 0 returns
the base path unchanged. -/
theorem buildEndpoint_default_port (connSettings : ConnectionSetting) (route : Route)
    (hbase : connSettings.Path ≠ "")
    (hroute : route.Path = "" ∨ ∃ pre : String, connSettings.Path = pre ++ route.Path)
    (hport : connSettings.Port = 443 ∨ connSettings.Port = 80 ∨ connSettings.Port = 0) :
    buildEndpoint connSettings route = connSettings.Path := by
  have hsuf : strings.HasSuffix connSettings.Path route.Path = true := by
    rcases hroute with h | ⟨pre, h⟩
    · rw [h]; simp [strings.HasSuffix]
    · rw [h]; exact HasSuffix_append pre route.Path
  unfold buildEndpoint
  simp [hbase, injectPort_default _ _ hport, hsuf]

/-- C8 at the base path `https://sap.example.com/api` with the port 443. -/
theorem buildEndpoint_default_port_witness :
    buildEndpoint ⟨61, "sap", 1, "https://sap.example.com/api", 443, 0⟩
      ⟨11, "orders", "", 1, "POST"⟩ = "https://sap.example.com/api" :=
  buildEndpoint_default_port ⟨61, "sap", 1, "https://sap.example.com/api", 443, 0⟩
    ⟨11, "orders", "", 1, "POST"⟩ (by decide) (Or.inl rfl) (Or.inl rfl)

/-! ## Properties of the message router -/

/-- C6: when the thread and its group resolve and there is no ThreadRoute
for the direction, `RouteMessage` fails with the no-route error, and the only
calls it makes are the two queries for the thread and its group and the query
for the routes: no route, connection or authentication lookup, and no send. -/
theorem RouteMessage_no_routes (env : Env) (threadID : UUID) (direction messageData : String)
    (hist : List Event) (thread : Thread) (group : ThreadGroup)
    (hthread : env.queryThread hist threadID = .ok thread)
    (hgroup : env.queryThreadGroup (hist ++ [.queryThread threadID]) thread.Group = .ok group)
    (hroutes : env.GetThreadRouteByDirection
      (hist ++ [.queryThread threadID] ++ [.queryThreadGroup thread.Group])
      threadID direction = .ok []) :
    RouteMessage env threadID direction messageData hist
      = (.error ("no routes found for thread " ++ sprintUUID threadID ++ " with direction "
          ++ direction),
        hist ++ [.queryThread threadID] ++ [.queryThreadGroup thread.Group]
          ++ [.GetThreadRouteByDirection threadID direction]) := by
  simp only [List.append_assoc, List.singleton_append] at hroutes
  simp [RouteMessage, GetThreadWithGroup, hthread, hgroup, hroutes]

/-- C6 for a thread of the sample store and the direction `In`, for which
the store has no route. -/
theorem RouteMessage_no_routes_witness :
    RouteMessage (Sample.env Sample.flowStore Sample.allUp) 21 "In" "\x7b\x7d" []
      = (.error ("no routes found for thread " ++ sprintUUID 21 ++ " with direction " ++ "In"),
        [] ++ [.queryThread 21] ++ [.queryThreadGroup 30]
          ++ [.GetThreadRouteByDirection 21 "In"]) :=
  RouteMessage_no_routes (Sample.env Sample.flowStore Sample.allUp) 21 "In" "\x7b\x7d" []
    ⟨21, "to-sap", 30, "None"⟩ ⟨30, "rest", "REST", none, "Rabbit"⟩ (by decide) (by decide)
    (by decide)

/-- The adapters look up no route. -/
theorem Send_routeLookups (env : Env) (p : ProtocolAdapter) (endpoint action : String)
    (headers : GoMap String) (body : String) (hist : List Event) :
    routeLookups (p.Send env endpoint action headers body hist).2 = routeLookups hist := by
  cases p with
  | rest =>
    simp only [ProtocolAdapter.Send, RESTAdapter.Send]
    repeat (any_goals split)
    all_goals simp [routeLookups, List.filterMap_append]
  | soap =>
    simp only [ProtocolAdapter.Send, SOAPAdapter.Send]
    repeat (any_goals split)
    all_goals simp [routeLookups, List.filterMap_append]
  | amqp a =>
    simp only [ProtocolAdapter.Send, AMQPAdapter.Send]
    repeat (any_goals split)
    all_goals simp [routeLookups, List.filterMap_append]

/-- The authentication block looks up no route. -/
theorem authHeaders_routeLookups (env : Env) (p : ProtocolAdapter)
    (connSettings : ConnectionSetting) (hist : List Event) :
    routeLookups (authHeaders env p connSettings hist).2 = routeLookups hist := by
  unfold authHeaders
  repeat (any_goals split)
  all_goals simp [routeLookups, List.filterMap_append]

/-- One call of `processRoute` looks up its own route, once, and no other. -/
theorem processRoute_routeLookups (env : Env) (thread : Thread) (group : ThreadGroup)
    (threadRoute : ThreadRoute) (messageData : String) (hist : List Event) :
    routeLookups (processRoute env thread group threadRoute messageData hist).2
      = routeLookups hist ++ [threadRoute.Route] := by
  have hbase : ∀ sys : UUID,
      routeLookups (hist ++ [Event.RouteGetByID threadRoute.Route]
        ++ [Event.GetConnectionSettings sys]) = routeLookups hist ++ [threadRoute.Route] := by
    intro sys
    simp [routeLookups, List.filterMap_append]
  unfold processRoute
  dsimp only
  cases hr : env.RouteGetByID hist threadRoute.Route with
  | error err => simp [routeLookups, List.filterMap_append]
  | ok route =>
    dsimp only
    cases hc : env.GetConnectionSettings (hist ++ [Event.RouteGetByID threadRoute.Route])
        route.System with
    | error err => exact hbase _
    | ok connSettings =>
      dsimp only
      cases hconv : (if threadRoute.FileFormat ≠ "JSON" then
        Convert env.lib messageData "JSON" threadRoute.FileFormat
        else Except.ok messageData) with
      | error err => exact hbase _
      | ok convertedData =>
        dsimp only
        cases hg : NewAdapterFactory.GetAdapter group.Protocol with
        | error err => exact hbase _
        | ok protocolAdapter =>
          dsimp only
          have hauth := authHeaders_routeLookups env protocolAdapter connSettings
            (hist ++ [Event.RouteGetByID threadRoute.Route]
              ++ [Event.GetConnectionSettings route.System])
          cases ha : authHeaders env protocolAdapter connSettings
              (hist ++ [Event.RouteGetByID threadRoute.Route]
                ++ [Event.GetConnectionSettings route.System]) with
          | mk o hist' =>
            rw [ha] at hauth
            cases o with
            | panic msg => exact hauth.trans (hbase _)
            | error err => exact hauth.trans (hbase _)
            | ok headers =>
              dsimp only
              have hsend := Send_routeLookups env protocolAdapter
                (buildEndpoint connSettings route) (routeAction group route) headers
                convertedData hist'
              cases hs : protocolAdapter.Send env (buildEndpoint connSettings route)
                  (routeAction group route) headers convertedData hist' with
              | mk res hist'' =>
                rw [hs] at hsend
                dsimp only
                cases res.err with
                | some err => exact hsend.trans (hauth.trans (hbase _))
                | none => exact hsend.trans (hauth.trans (hbase _))

/-- Unless a route panics, the loop of `RouteMessage` returns success and has
looked up every route once, in list order, whatever each route returned. -/
theorem routeLoop_attempts_every_route (env : Env) (thread : Thread) (group : ThreadGroup)
    (messageData : String) : ∀ (routes : List ThreadRoute) (hist : List Event),
    (∀ msg, (routeLoop env thread group messageData routes hist).1 ≠ .panic msg) →
    (routeLoop env thread group messageData routes hist).1 = .ok () ∧
      routeLookups (routeLoop env thread group messageData routes hist).2
        = routeLookups hist ++ routes.map (fun tr => tr.Route) := by
  intro routes
  induction routes with
  | nil => intro hist _; simp [routeLoop]
  | cons tr rest ih =>
    intro hist hpanic
    have hlook := processRoute_routeLookups env thread group tr messageData hist
    rw [routeLoop] at hpanic ⊢
    split at hpanic
    · rename_i msg hist' heq
      exact absurd rfl (hpanic msg)
    · rename_i o hist' hne heq
      rw [heq] at hlook
      obtain ⟨hok, hlk⟩ := ih hist' hpanic
      refine ⟨hok, ?_⟩
      rw [hlk, hlook]
      simp

/-- C5 fails on the code: the thread 10 has two outbound routes, and the
connection setting of the first has a Basic authentication record and a path
that `http.NewRequest` refuses. `Authenticate` calls `SetBasicAuth` on the nil
request and panics: `RouteMessage` does not return success, and the second
route (32) is never looked up. -/
theorem RouteMessage_panic_stops_fanout :
    RouteMessage (Sample.env Sample.fanoutStore Sample.allUp) 10 "Out" "\x7b\x7d" []
      = (.panic "runtime error: invalid memory address or nil pointer dereference",
        [.queryThread 10, .queryThreadGroup 20, .GetThreadRouteByDirection 10 "Out",
          .RouteGetByID 31, .GetConnectionSettings 41, .GetConnectionAuth 51]) := by
  decide

/-! ## Properties of the process orchestrator -/

/-- C9 fails on the code: SAP and Salesforce are configured, and the send to
SAP fails (context deadline exceeded). `RouteMessage` drops the error of the
route and returns nil, so that `ExecuteProcess` goes on, sends the step-B
message to Salesforce and returns success. -/
theorem ExecuteProcess_continues_after_failed_send :
    (ExecuteProcess (Sample.env Sample.flowStore Sample.sapDown) "order_payment_flow"
        "\x7b\"order_id\":\"O1\",\"status\":\"succeeded\"\x7d" []).1 = .ok () ∧
      sentURLs (ExecuteProcess (Sample.env Sample.flowStore Sample.sapDown)
        "order_payment_flow" "\x7b\"order_id\":\"O1\",\"status\":\"succeeded\"\x7d" []).2
        = ["https://sap.example.com/api/orders", "https://crm.example.com/notify"] ∧
      Sample.sapDown ⟨"POST", "https://sap.example.com/api/orders",
        [("Content-Type", "application/json")],
        some ("\x7b\"OrderNumber\":\"O1\",\"PaymentGateway\":\"Stripe\","
          ++ "\"PaymentStatus\":\"succeeded\",\"Timestamp\":\"2024-05-01T12:00:00Z\"\x7d")⟩
        = .failed "context deadline exceeded" := by
  decide

/-- C10: for every process name other than `order_payment_flow`,
`ExecuteProcess` fails with the unknown-process error; the result is the same
for every environment and every payload, and no call is made. -/
theorem ExecuteProcess_unknown_process (env : Env) (processName initialData : String)
    (hist : List Event) (hname : processName ≠ "order_payment_flow") :
    ExecuteProcess env processName initialData hist
      = (.error ("unknown process: " ++ processName), hist) := by
  simp [ExecuteProcess, hname]

/-- C10 for the process name `order_payment`. -/
theorem ExecuteProcess_unknown_process_witness :
    ExecuteProcess (Sample.env Sample.flowStore Sample.allUp) "order_payment" "\x7b\x7d" []
      = (.error ("unknown process: " ++ "order_payment"), []) :=
  ExecuteProcess_unknown_process (Sample.env Sample.flowStore Sample.allUp) "order_payment"
    "\x7b\x7d" [] (by decide)

/-! ## Properties of the payload transforms -/

/-- Reading a map after the assignment `m[k] = v`. -/
theorem GoMap.get?_set {α : Type} (m : GoMap α) (k k' : String) (v : α) :
    (m.set k v).get? k' = if k' = k then some v else m.get? k' := by
  induction m with
  | nil =>
    by_cases h : k' = k
    · simp [GoMap.set, GoMap.get?, h]
    · have h' : ¬ k = k' := fun e => h e.symm
      simp [GoMap.set, GoMap.get?, h, h']
  | cons e m ih =>
    obtain ⟨k₀, v₀⟩ := e
    by_cases h₀ : k₀ = k
    · subst h₀
      by_cases h : k' = k₀
      · simp [GoMap.set, GoMap.get?, h]
      · have h' : ¬ k₀ = k' := fun e => h e.symm
        simp [GoMap.set, GoMap.get?, h, h']
    · by_cases h : k₀ = k'
      · subst h
        simp [GoMap.set, GoMap.get?, h₀]
      · simp only [GoMap.set, h₀, if_false, GoMap.get?, h, ih]

/-- The assignment `m[k] = v` keeps the keys of a map distinct. -/
theorem GoMap.set_keys_nodup {α : Type} (m : GoMap α) (k : String) (v : α)
    (h : m.keys.Nodup) : (m.set k v).keys.Nodup ∧ ∀ x ∈ (m.set k v).keys, x = k ∨ x ∈ m.keys := by
  induction m with
  | nil => simp [GoMap.set, GoMap.keys]
  | cons e m ih =>
    obtain ⟨k₀, v₀⟩ := e
    simp only [GoMap.keys, List.map_cons, List.nodup_cons] at h
    by_cases h₀ : k₀ = k
    · subst h₀
      simp only [GoMap.set, if_true, GoMap.keys, List.map_cons, List.nodup_cons]
      exact ⟨⟨h.1, h.2⟩, fun x hx => Or.inr hx⟩
    · obtain ⟨ihn, ihk⟩ := ih h.2
      simp only [GoMap.set, h₀, if_false, GoMap.keys, List.map_cons, List.nodup_cons,
        List.mem_cons]
      refine ⟨⟨?_, ihn⟩, ?_⟩
      · intro hmem
        rcases ihk k₀ hmem with hk | hk
        · exact h₀ hk
        · exact h.1 hk
      · rintro x (rfl | hx)
        · exact Or.inr (Or.inl rfl)
        · rcases ihk x hx with hk | hk
          · exact Or.inl hk
          · exact Or.inr (Or.inr hk)

theorem GoMap.get?_setIf (m : GoMap JSON) (key k : String) (o : Option JSON) :
    GoMap.get? (GoMap.setIf m key o) k = if k = key then (o <|> GoMap.get? m k) else GoMap.get? m k := by
  cases o with
  | none => simp [GoMap.setIf]
  | some v => simp [GoMap.setIf, GoMap.get?_set]

theorem GoMap.setIf_keys_nodup (m : GoMap JSON) (key : String) (o : Option JSON)
    (h : (GoMap.keys m).Nodup) : (GoMap.keys (GoMap.setIf m key o)).Nodup := by
  cases o with
  | none => exact h
  | some v => exact (GoMap.set_keys_nodup m key v h).1

/-- The steps of `transformStripeToSAP` as conditional assignments. -/
theorem transformStripeToSAP_eq (lib : StdLib) (now : String) (stripeData : GoMap JSON) :
    transformStripeToSAP lib now stripeData
      = GoMap.set (GoMap.set (GoMap.setIf (GoMap.setIf (GoMap.setIf (GoMap.setIf (GoMap.setIf []
          "OrderNumber" ((getString stripeData "order_id").map JSON.str))
          "Amount" ((getFloat64 stripeData "amount").map
            (fun amount => JSON.num (lib.float64Div amount 100))))
          "Currency" ((getString stripeData "currency").map JSON.str))
          "PaymentStatus" ((getString stripeData "status").map JSON.str))
          "CustomerID" ((getString stripeData "customer_id").map JSON.str))
          "PaymentGateway" (.str "Stripe")) "Timestamp" (.str now) := by
  unfold transformStripeToSAP
  cases getString stripeData "order_id" <;> cases getFloat64 stripeData "amount" <;>
    cases getString stripeData "currency" <;> cases getString stripeData "status" <;>
    cases getString stripeData "customer_id" <;> rfl

/-- What `transformStripeToSAP` holds under each key. -/
theorem transformStripeToSAP_get? (lib : StdLib) (now : String) (stripeData : GoMap JSON)
    (k : String) :
    (transformStripeToSAP lib now stripeData).get? k
      = if k = "Timestamp" then some (.str now)
        else if k = "PaymentGateway" then some (.str "Stripe")
        else if k = "CustomerID" then (getString stripeData "customer_id").map JSON.str
        else if k = "PaymentStatus" then (getString stripeData "status").map JSON.str
        else if k = "Currency" then (getString stripeData "currency").map JSON.str
        else if k = "Amount" then (getFloat64 stripeData "amount").map
          (fun amount => JSON.num (lib.float64Div amount 100))
        else if k = "OrderNumber" then (getString stripeData "order_id").map JSON.str
        else none := by
  rw [transformStripeToSAP_eq]
  simp only [GoMap.get?_set, GoMap.get?_setIf, GoMap.get?]
  by_cases h1 : k = "Timestamp"
  · simp [h1]
  by_cases h2 : k = "PaymentGateway"
  · simp [h2]
  by_cases h3 : k = "CustomerID"
  · simp [h3]
  by_cases h4 : k = "PaymentStatus"
  · simp [h4]
  by_cases h5 : k = "Currency"
  · simp [h5]
  by_cases h6 : k = "Amount"
  · simp [h6]
  by_cases h7 : k = "OrderNumber"
  · simp [h7]
  simp [h1, h2, h3, h4, h5, h6, h7]

/-- The step-A map of the example of the specification, the division being exact. -/
theorem transformStripeToSAP_example (now : String) :
    transformStripeToSAP Sample.lib now stripeExample
      = [("OrderNumber", .str "O1"), ("Amount", .num 19.99), ("Currency", .str "usd"),
          ("PaymentStatus", .str "succeeded"), ("CustomerID", .str "C1"),
          ("PaymentGateway", .str "Stripe"), ("Timestamp", .str now)] := by
  simp [transformStripeToSAP, stripeExample, getString, getFloat64, GoMap.get?, GoMap.set,
    Sample.lib]
  norm_num

/-- C11: for every input map, `transformStripeToSAP` returns a map that holds
`PaymentGateway` = `Stripe`, `Timestamp`, and, for each known input field that
is present with the expected type, `OrderNumber` = `order_id`, `Amount` =
`amount / 100`, `Currency` = `currency`, `PaymentStatus` = `status`,
`CustomerID` = `customer_id`; it holds no other key, and every field except
`Timestamp` is the same whatever the clock says. For the example of the
specification (amount 1999, the division being exact) the `Amount` is 19.99. -/
theorem transformStripeToSAP_fields (lib : StdLib) (now : String) (stripeData : GoMap JSON) :
    (transformStripeToSAP lib now stripeData).get? "PaymentGateway" = some (.str "Stripe") ∧
      (transformStripeToSAP lib now stripeData).get? "Timestamp" = some (.str now) ∧
      (transformStripeToSAP lib now stripeData).get? "OrderNumber"
        = (getString stripeData "order_id").map JSON.str ∧
      (transformStripeToSAP lib now stripeData).get? "Amount"
        = (getFloat64 stripeData "amount").map (fun amount => JSON.num (lib.float64Div amount 100)) ∧
      (transformStripeToSAP lib now stripeData).get? "Currency"
        = (getString stripeData "currency").map JSON.str ∧
      (transformStripeToSAP lib now stripeData).get? "PaymentStatus"
        = (getString stripeData "status").map JSON.str ∧
      (transformStripeToSAP lib now stripeData).get? "CustomerID"
        = (getString stripeData "customer_id").map JSON.str ∧
      (∀ k, k ∉ sapKeys → (transformStripeToSAP lib now stripeData).get? k = none) ∧
      (GoMap.keys (transformStripeToSAP lib now stripeData)).Nodup ∧
      (∀ now' k, k ≠ "Timestamp" → (transformStripeToSAP lib now' stripeData).get? k
        = (transformStripeToSAP lib now stripeData).get? k) ∧
      transformStripeToSAP Sample.lib now stripeExample
        = [("OrderNumber", .str "O1"), ("Amount", .num 19.99), ("Currency", .str "usd"),
            ("PaymentStatus", .str "succeeded"), ("CustomerID", .str "C1"),
            ("PaymentGateway", .str "Stripe"), ("Timestamp", .str now)] := by
  refine ⟨?_, ?_, ?_, ?_, ?_, ?_, ?_, ?_, ?_, ?_, transformStripeToSAP_example now⟩
  · simp [transformStripeToSAP_get?]
  · simp [transformStripeToSAP_get?]
  · simp [transformStripeToSAP_get?]
  · simp [transformStripeToSAP_get?]
  · simp [transformStripeToSAP_get?]
  · simp [transformStripeToSAP_get?]
  · simp [transformStripeToSAP_get?]
  · intro k hk
    simp only [sapKeys, List.mem_cons, List.mem_singleton, List.not_mem_nil, or_false,
      not_or] at hk
    simp [transformStripeToSAP_get?, hk]
  · rw [transformStripeToSAP_eq]
    refine (GoMap.set_keys_nodup _ _ _ (GoMap.set_keys_nodup _ _ _ ?_).1).1
    repeat apply GoMap.setIf_keys_nodup
    exact List.nodup_nil
  · intro now' k hk
    simp [transformStripeToSAP_get?, hk]

/-- The steps of `transformSAPToSalesforce` as conditional assignments. -/
theorem transformSAPToSalesforce_eq (now : String) (sapData : GoMap JSON) :
    transformSAPToSalesforce now sapData
      = GoMap.set (GoMap.setIf (GoMap.setIf (GoMap.setIf (GoMap.setIf (GoMap.setIf []
          "OrderId" ((getString sapData "OrderNumber").map JSON.str))
          "Status" ((getString sapData "PaymentStatus").map
            (fun status => JSON.str (if status = "succeeded" then "Paid" else status))))
          "Amount" ((getFloat64 sapData "Amount").map JSON.num))
          "Currency" ((getString sapData "Currency").map JSON.str))
          "AccountId" ((getString sapData "CustomerID").map JSON.str))
          "LastModifiedDate" (.str now) := by
  unfold transformSAPToSalesforce
  cases getString sapData "OrderNumber" <;> cases getString sapData "PaymentStatus" <;>
    cases getFloat64 sapData "Amount" <;> cases getString sapData "Currency" <;>
    cases getString sapData "CustomerID" <;>
    simp only [GoMap.setIf, Option.map] <;> split_ifs <;> rfl

/-- What `transformSAPToSalesforce` holds under each key. -/
theorem transformSAPToSalesforce_get? (now : String) (sapData : GoMap JSON) (k : String) :
    (transformSAPToSalesforce now sapData).get? k
      = if k = "LastModifiedDate" then some (.str now)
        else if k = "AccountId" then (getString sapData "CustomerID").map JSON.str
        else if k = "Currency" then (getString sapData "Currency").map JSON.str
        else if k = "Amount" then (getFloat64 sapData "Amount").map JSON.num
        else if k = "Status" then (getString sapData "PaymentStatus").map
          (fun status => JSON.str (if status = "succeeded" then "Paid" else status))
        else if k = "OrderId" then (getString sapData "OrderNumber").map JSON.str
        else none := by
  rw [transformSAPToSalesforce_eq]
  simp only [GoMap.get?_set, GoMap.get?_setIf, GoMap.get?]
  by_cases h1 : k = "LastModifiedDate"
  · simp [h1]
  by_cases h2 : k = "AccountId"
  · simp [h2]
  by_cases h3 : k = "Currency"
  · simp [h3]
  by_cases h4 : k = "Amount"
  · simp [h4]
  by_cases h5 : k = "Status"
  · simp [h5]
  by_cases h6 : k = "OrderId"
  · simp [h6]
  simp [h1, h2, h3, h4, h5, h6]

/-- C12: for every step-A map, `transformSAPToSalesforce` returns `OrderId` =
`OrderNumber`, `Amount` = `Amount`, `Currency` = `Currency`, `AccountId` =
`CustomerID`, each when the field is present with its type, `Status` = `Paid`
when `PaymentStatus` is `succeeded` and `Status` = `PaymentStatus` unchanged
otherwise, `LastModifiedDate`, and no other key. Applied to the step-A map of
the example of the specification it yields `OrderId` O1, `Status` Paid,
`Amount` 19.99, `Currency` usd, `AccountId` C1. -/
theorem transformSAPToSalesforce_fields (now : String) (sapData : GoMap JSON) :
    (transformSAPToSalesforce now sapData).get? "OrderId"
        = (getString sapData "OrderNumber").map JSON.str ∧
      (transformSAPToSalesforce now sapData).get? "Status"
        = (getString sapData "PaymentStatus").map
            (fun status => JSON.str (if status = "succeeded" then "Paid" else status)) ∧
      (transformSAPToSalesforce now sapData).get? "Amount"
        = (getFloat64 sapData "Amount").map JSON.num ∧
      (transformSAPToSalesforce now sapData).get? "Currency"
        = (getString sapData "Currency").map JSON.str ∧
      (transformSAPToSalesforce now sapData).get? "AccountId"
        = (getString sapData "CustomerID").map JSON.str ∧
      (transformSAPToSalesforce now sapData).get? "LastModifiedDate" = some (.str now) ∧
      (∀ k, k ∉ salesforceKeys → (transformSAPToSalesforce now sapData).get? k = none) ∧
      (∀ stamp, transformSAPToSalesforce now (transformStripeToSAP Sample.lib stamp stripeExample)
        = [("OrderId", .str "O1"), ("Status", .str "Paid"), ("Amount", .num 19.99),
            ("Currency", .str "usd"), ("AccountId", .str "C1"),
            ("LastModifiedDate", .str now)]) := by
  refine ⟨?_, ?_, ?_, ?_, ?_, ?_, ?_, ?_⟩
  · simp [transformSAPToSalesforce_get?]
  · simp [transformSAPToSalesforce_get?]
  · simp [transformSAPToSalesforce_get?]
  · simp [transformSAPToSalesforce_get?]
  · simp [transformSAPToSalesforce_get?]
  · simp [transformSAPToSalesforce_get?]
  · intro k hk
    simp only [salesforceKeys, List.mem_cons, List.mem_singleton, List.not_mem_nil, or_false,
      not_or] at hk
    simp [transformSAPToSalesforce_get?, hk]
  · intro stamp
    rw [transformStripeToSAP_example]
    simp [transformSAPToSalesforce, getString, getFloat64, GoMap.get?, GoMap.set]

/-! ## Properties of the adapter registry -/

/-- C13: `GetAdapter` returns the REST adapter for REST, the SOAP adapter for
SOAP and the AMQP adapter for AMQP, and fails with the unsupported-protocol
error for every other protocol value, the declared protocol TCP among them. -/
theorem GetAdapter_by_protocol (f : AdapterFactory) :
    f.GetAdapter ProtocolREST = .ok .rest ∧
      f.GetAdapter ProtocolSOAP = .ok .soap ∧
      f.GetAdapter ProtocolAMQP = .ok (.amqp f.amqpAdapter) ∧
      f.GetAdapter ProtocolTCP = .error ("unsupported protocol: " ++ ProtocolTCP) ∧
      (∀ protocol, protocol ∉ [ProtocolREST, ProtocolSOAP, ProtocolAMQP] →
        f.GetAdapter protocol = .error ("unsupported protocol: " ++ protocol)) := by
  refine ⟨by simp [AdapterFactory.GetAdapter], ?_, ?_, ?_, ?_⟩
  · simp [AdapterFactory.GetAdapter, ProtocolREST, ProtocolSOAP]
  · simp [AdapterFactory.GetAdapter, ProtocolREST, ProtocolSOAP, ProtocolAMQP]
  · simp [AdapterFactory.GetAdapter, ProtocolREST, ProtocolSOAP, ProtocolAMQP, ProtocolTCP]
  · intro protocol h
    simp only [List.mem_cons, List.mem_singleton, List.not_mem_nil, or_false, not_or] at h
    simp [AdapterFactory.GetAdapter, h]

/-! ## Properties of JSON -> XML -/

/-- C14: `JSONToXML` does not succeed on valid JSON. `convertToXML` returns a
map for every value, and `xml.MarshalIndent` has no encoding for a map: on the
object with the member `a` = 1, on the array of 1 and 2 and on the string `x`,
all decoded without error, `JSONToXML` returns the marshalling error, and so it
does on every text that decodes, with every XML encoder that refuses maps. -/
theorem JSONToXML_fails_to_marshal :
    Sample.jsonUnmarshal "\x7b\"a\":1\x7d" = .ok (.obj [("a", .num 1)]) ∧
      JSONToXML Sample.lib "\x7b\"a\":1\x7d"
        = .error "failed to marshal XML: xml: unsupported type: map[string]interface \x7b\x7d" ∧
      Sample.jsonUnmarshal "[1,2]" = .ok (.arr [.num 1, .num 2]) ∧
      JSONToXML Sample.lib "[1,2]"
        = .error "failed to marshal XML: xml: unsupported type: map[string]interface \x7b\x7d" ∧
      Sample.jsonUnmarshal "\"x\"" = .ok (.str "x") ∧
      JSONToXML Sample.lib "\"x\""
        = .error "failed to marshal XML: xml: unsupported type: map[string]interface \x7b\x7d" ∧
      (∀ obj rootName, (convertToXML obj rootName).isObj = true) ∧
      (∀ (lib : StdLib) (jsonData : String) (jsonObj : JSON) (err : String),
        lib.jsonUnmarshal jsonData = .ok jsonObj →
        (∀ v : JSON, v.isObj = true → lib.xmlMarshalIndent v = .error err) →
        JSONToXML lib jsonData = .error ("failed to marshal XML: " ++ err)) := by
  refine ⟨rfl, rfl, rfl, rfl, rfl, rfl, ?_, ?_⟩
  · intro obj rootName
    cases obj <;> rfl
  · intro lib jsonData jsonObj err hjson hxml
    have hobj : (convertToXML jsonObj "root").isObj = true := by cases jsonObj <;> rfl
    simp [JSONToXML, hjson, hxml _ hobj]

/-- C15: the structure that `convertToXML` returns for an object keeps the keys
as they are. For the object with the keys `order id` and `1st-item` the
sanitised names are `order_id` and `n1st_item`, and they are in the slice
`elements` only, which is not part of the result: the children of `root` are
named `order id` and `1st-item`. For every object the result is the object
itself under the key `root`. -/
theorem convertToXML_keeps_raw_keys :
    convertToXML (.obj [("order id", .num 1), ("1st-item", .num 2)]) "root"
        = .obj [("root", .obj [("order id", .num 1), ("1st-item", .num 2)])] ∧
      xmlElements [("order id", .num 1), ("1st-item", .num 2)] = ["order_id", "n1st_item"] ∧
      sanitizeXMLName "order id" ≠ "order id" ∧
      sanitizeXMLName "1st-item" ≠ "1st-item" ∧
      (∀ (v : GoMap JSON) (rootName : String),
        convertToXML (.obj v) rootName = .obj [("root", .obj v)]) := by
  refine ⟨rfl, by decide, by decide, by decide, ?_⟩
  intro v rootName
  rfl

/-! ## Properties of CSV -> JSON -/

/-- C16: for a CSV input of one record (the header alone) `CSVToJSON` does not
return an array: `result` is still the nil slice, which `json.Marshal` encodes
as `null`. So it is for the text of the single line `a,b`, and for every input
that is read as one record. The empty input gives `[]`, and an input read as a
header and at least one data record gives the array with one object per data
record. -/
theorem CSVToJSON_header_only_is_null :
    Sample.csvReadAll "a,b\n" = .ok [["a", "b"]] ∧
      CSVToJSON Sample.lib "a,b\n" = .ok "null" ∧
      (∀ (lib : StdLib) (csvData : String) (headers : List String),
        lib.csvReadAll csvData = .ok [headers] →
        CSVToJSON lib csvData = lib.jsonMarshal .null) ∧
      CSVToJSON Sample.lib "" = .ok "[]" ∧
      CSVToJSON Sample.lib "a,b\n1,2\n" = .ok "[\x7b\"a\":\"1\",\"b\":\"2\"\x7d]" ∧
      (∀ (lib : StdLib) (csvData : String) (headers record : List String)
          (data : List (List String)),
        lib.csvReadAll csvData = .ok (headers :: record :: data) →
        CSVToJSON lib csvData
          = lib.jsonMarshal (.arr ((record :: data).map (fun record =>
              .obj ((fillRow record headers 0 []).map (fun kv => (kv.1, .str kv.2))))))) := by
  refine ⟨by decide, by decide, ?_, by decide, by decide, ?_⟩
  · intro lib csvData headers hread
    simp [CSVToJSON, hread, csvResult, stringMaps]
  · intro lib csvData headers record data hread
    simp [CSVToJSON, hread, csvResult, stringMaps, Function.comp_def]

/-- The records that the CSV reader returns all have the length of the first. -/
theorem Sample.readAll_uniform (fuel : Nat) :
    ∀ (input : List Char) (records : List (List String)) (numLine : Nat)
      (out : List (List String)),
      (∀ first ∈ records.head?, ∀ r ∈ records, r.length = first.length) →
      Sample.readAll fuel input records numLine = .ok out →
      ∀ first ∈ out.head?, ∀ r ∈ out, r.length = first.length := by
  induction fuel with
  | zero =>
    intro input records numLine out _ h
    simp [Sample.readAll] at h
  | succ fuel ih =>
    intro input records numLine out hrec h
    unfold Sample.readAll at h
    cases hline : Sample.readLine input with
    | none =>
      simp only [hline, Except.ok.injEq] at h
      subst h
      exact hrec
    | some p =>
      obtain ⟨line, input'⟩ := p
      simp only [hline] at h
      by_cases hempty : Sample.dropNL line = []
      · rw [if_pos hempty] at h
        exact ih _ _ _ _ hrec h
      · rw [if_neg hempty] at h
        cases hf : Sample.readFields (line.length + 1) line input' [] with
        | error e => simp [hf] at h
        | ok q =>
          obtain ⟨record, rest⟩ := q
          simp only [hf] at h
          cases records with
          | nil =>
            refine ih _ _ _ _ ?_ h
            simp
          | cons first tl =>
            simp only at h
            by_cases hlen : record.length ≠ first.length
            · rw [if_pos hlen] at h
              simp at h
            · rw [if_neg hlen] at h
              refine ih _ _ _ _ ?_ h
              intro f hf' r hr
              simp only [List.cons_append, List.head?_cons, Option.mem_def,
                Option.some.injEq] at hf'
              subst hf'
              simp only [List.cons_append, List.mem_cons, List.mem_append,
                List.mem_singleton, List.not_mem_nil, or_false] at hr
              rcases hr with rfl | hr | rfl
              · rfl
              · exact hrec first (by simp) r (by simp [hr])
              · exact not_not.mp hlen

/-- C17: for a CSV input with a data record shorter than the header record
`CSVToJSON` does not succeed. The reader is created with `FieldsPerRecord = 0`
and so requires of every record the number of fields of the first: on the
header `a,b` followed by the record `1` the read fails and `CSVToJSON` returns
the parse error, every read error is returned in this way, and no list of
records that the reader returns has a record shorter than the header. -/
theorem CSVToJSON_short_record_fails :
    CSVToJSON Sample.lib "a,b\n1\n"
        = .error "failed to parse CSV: record on line 2: wrong number of fields" ∧
      (∀ (lib : StdLib) (csvData err : String),
        lib.csvReadAll csvData = .error err →
        CSVToJSON lib csvData = .error ("failed to parse CSV: " ++ err)) ∧
      (∀ (csvData : String) (headers : List String) (data : List (List String)),
        Sample.csvReadAll csvData = .ok (headers :: data) →
        ∀ record ∈ data, record.length = headers.length) := by
  refine ⟨by decide, ?_, ?_⟩
  · intro lib csvData err hread
    simp [CSVToJSON, hread]
  · intro csvData headers data hread record hrecord
    exact Sample.readAll_uniform _ _ _ _ _ (by simp) hread headers (by simp) record
      (by simp [hrecord])

/-! ## Properties of XML -> JSON -/

theorem GoMap.get?_eq_none {α : Type} (m : GoMap α) (k : String) (h : k ∉ m.keys) :
    m.get? k = none := by
  induction m with
  | nil => rfl
  | cons e m ih =>
    obtain ⟨k', v'⟩ := e
    simp only [GoMap.keys, List.map_cons, List.mem_cons, not_or] at h
    have hne : ¬ k' = k := fun e => h.1 e.symm
    simp only [GoMap.get?, hne, if_false]
    exact ih h.2

/-- The function `convertToJSON` returns a string, a map or nil, never a list. -/
theorem convertToJSON_isArr (lib : StdLib) (node : XMLNode) :
    (convertToJSON lib node).isArr = false := by
  obtain ⟨XMLName, Content, Attrs, Child⟩ := node
  unfold convertToJSON
  split_ifs <;> rfl

theorem collapse_snoc (values : List JSON) (v : JSON)
    (hvalues : ∀ x ∈ values, x.isArr = false) :
    (match collapse values with
      | some (.arr arr) => some (.arr (arr ++ [v]))
      | some existing => some (.arr [existing, v])
      | none => some v) = collapse (values ++ [v]) := by
  match values, hvalues with
  | [], _ => rfl
  | [x], hx =>
    have hx : x.isArr = false := hx x (by simp)
    cases x <;> first | rfl | simp [JSON.isArr] at hx
  | x :: y :: rest, _ => rfl

theorem addChild_get? (childMap : GoMap JSON) (key : String) (value : JSON) (t : String) :
    (addChild childMap key value).get? t
      = if t = key then
          (match childMap.get? key with
            | some (.arr arr) => some (.arr (arr ++ [value]))
            | some existing => some (.arr [existing, value])
            | none => some value)
        else childMap.get? t := by
  unfold addChild
  split <;> simp_all [GoMap.get?_set]

theorem addChild_keys_nodup (childMap : GoMap JSON) (key : String) (value : JSON)
    (h : (GoMap.keys childMap).Nodup) : (GoMap.keys (addChild childMap key value)).Nodup := by
  unfold addChild
  split <;> exact (GoMap.set_keys_nodup _ _ _ h).1

theorem convertChildren_keys_nodup (lib : StdLib) (rest : List XMLNode) :
    ∀ childMap : GoMap JSON, (GoMap.keys childMap).Nodup →
      (GoMap.keys (convertChildren lib rest childMap)).Nodup := by
  induction rest with
  | nil =>
    intro childMap h
    simpa [convertChildren] using h
  | cons child rest ih =>
    intro childMap h
    rw [convertChildren]
    exact ih _ (addChild_keys_nodup _ _ _ h)

/-- The loop over the children leaves under every tag name the collapse of
the conversions of the children of that name. -/
theorem convertChildren_get? (lib : StdLib) (rest : List XMLNode) :
    ∀ (done : List XMLNode) (childMap : GoMap JSON),
      (∀ t, GoMap.get? childMap t
        = collapse ((childrenNamed t done).map (convertToJSON lib))) →
      ∀ t, GoMap.get? (convertChildren lib rest childMap) t
        = collapse ((childrenNamed t (done ++ rest)).map (convertToJSON lib)) := by
  induction rest with
  | nil =>
    intro done childMap h t
    simpa [convertChildren] using h t
  | cons child rest ih =>
    intro done childMap h t
    rw [convertChildren]
    have hstep := ih (done ++ [child]) (addChild childMap child.name (convertToJSON lib child)) ?_ t
    · simpa using hstep
    intro t
    rw [addChild_get?]
    by_cases ht : t = child.name
    · subst ht
      rw [if_pos rfl, h child.name]
      have hfilter : childrenNamed child.name (done ++ [child])
          = childrenNamed child.name done ++ [child] := by
        simp [childrenNamed, List.filter_append]
      rw [hfilter, List.map_append]
      refine collapse_snoc _ _ ?_
      intro x hx
      obtain ⟨c, _, rfl⟩ := List.mem_map.mp hx
      exact convertToJSON_isArr lib c
    · rw [if_neg ht, h t]
      have hne : ¬ child.name = t := fun e => ht e.symm
      have hfilter : childrenNamed t (done ++ [child]) = childrenNamed t done := by
        simp [childrenNamed, List.filter_append, hne]
      rw [hfilter]

theorem mergeInto_get? (childMap : GoMap JSON) :
    ∀ (result : GoMap JSON) (t : String), (GoMap.keys childMap).Nodup →
      GoMap.get? (mergeInto childMap result) t
        = (match GoMap.get? childMap t with
          | some v => some v
          | none => GoMap.get? result t) := by
  induction childMap with
  | nil =>
    intro result t _
    rfl
  | cons e childMap ih =>
    intro result t hnd
    obtain ⟨k, v⟩ := e
    simp only [GoMap.keys, List.map_cons, List.nodup_cons] at hnd
    rw [mergeInto, ih _ _ hnd.2, GoMap.get?_set]
    by_cases hk : k = t
    · subst hk
      have hnone : GoMap.get? childMap k = none := GoMap.get?_eq_none _ _ hnd.1
      simp [GoMap.get?, hnone]
    · have hk' : ¬ t = k := fun e => hk e.symm
      simp [GoMap.get?, hk, hk']

theorem mergeInto_keys_nodup (childMap : GoMap JSON) :
    ∀ result : GoMap JSON, (GoMap.keys result).Nodup →
      (GoMap.keys (mergeInto childMap result)).Nodup := by
  induction childMap with
  | nil =>
    intro result h
    exact h
  | cons e childMap ih =>
    intro result h
    obtain ⟨k, v⟩ := e
    rw [mergeInto]
    exact ih _ (GoMap.set_keys_nodup _ _ _ h).1

theorem attrEntries_keys_nodup (attrs : List XMLAttr) :
    ∀ result : GoMap JSON, (GoMap.keys result).Nodup →
      (GoMap.keys (attrEntries attrs result)).Nodup := by
  induction attrs with
  | nil =>
    intro result h
    exact h
  | cons attr attrs ih =>
    intro result h
    rw [attrEntries]
    exact ih _ (GoMap.set_keys_nodup _ _ _ h).1

/-- C18: `convertToJSON` on an element with children returns a map that, for
every tag name `t`, holds under `t` the conversion of the child itself when one
direct child is named `t`, and when `k >= 2` direct children are named `t` the
list of their `k` conversions in document order. -/
theorem convertToJSON_children (lib : StdLib) (XMLName Content : String)
    (Attrs : List XMLAttr) (Child : List XMLNode) (hchild : Child ≠ []) :
    ∃ result : GoMap JSON,
      convertToJSON lib (.mk XMLName Content Attrs Child) = .obj result ∧
        (GoMap.keys result).Nodup ∧
        ∀ t : String,
          (∀ child, childrenNamed t Child = [child] →
            GoMap.get? result t = some (convertToJSON lib child)) ∧
          (2 ≤ (childrenNamed t Child).length →
            GoMap.get? result t = some (.arr ((childrenNamed t Child).map (convertToJSON lib))) ∧
              ((childrenNamed t Child).map (convertToJSON lib)).length
                = (childrenNamed t Child).length) := by
  have hlen : ¬ Child.length = 0 := by
    intro h
    exact hchild (List.length_eq_zero.mp h)
  have hmerge : ∀ (m r : GoMap JSON), (if m.length > 0 then mergeInto m r else r) = mergeInto m r := by
    intro m r
    cases m <;> simp [mergeInto]
  have hbase : (GoMap.keys (if Content ≠ "" ∧ lib.trimSpace Content ≠ ""
      then GoMap.set (attrEntries Attrs []) "#text" (.str Content)
      else attrEntries Attrs [])).Nodup := by
    have h0 : (GoMap.keys (attrEntries Attrs [])).Nodup :=
      attrEntries_keys_nodup Attrs [] (by simp [GoMap.keys])
    split_ifs
    · exact (GoMap.set_keys_nodup _ _ _ h0).1
    · exact h0
  have hnd : (GoMap.keys (convertChildren lib Child [])).Nodup :=
    convertChildren_keys_nodup lib Child [] (by simp [GoMap.keys])
  have hget := convertChildren_get? lib Child [] [] (fun t => by simp [childrenNamed, collapse, GoMap.get?])
  simp only [List.nil_append] at hget
  refine ⟨mergeInto (convertChildren lib Child [])
    (if Content ≠ "" ∧ lib.trimSpace Content ≠ ""
      then GoMap.set (attrEntries Attrs []) "#text" (.str Content)
      else attrEntries Attrs []), ?_, mergeInto_keys_nodup _ _ hbase, ?_⟩
  · rw [convertToJSON, if_neg hlen]
    simp only [hmerge]
  · intro t
    rw [mergeInto_get? _ _ _ hnd, hget t]
    constructor
    · intro child hone
      rw [hone]
      rfl
    · intro htwo
      refine ⟨?_, by simp⟩
      match hcs : childrenNamed t Child, htwo with
      | x :: y :: rest, _ => rfl

/-- C18 at the element `order` with the children `item`, `id`, `item`. -/
theorem convertToJSON_children_witness :
    ∃ result : GoMap JSON,
      convertToJSON Sample.lib
          (.mk "order" "" [] [.mk "item" "a" [] [], .mk "id" "7" [] [], .mk "item" "b" [] []])
        = .obj result ∧
        (GoMap.keys result).Nodup ∧
        ∀ t : String,
          (∀ child,
            childrenNamed t [.mk "item" "a" [] [], .mk "id" "7" [] [], .mk "item" "b" [] []]
              = [child] →
            GoMap.get? result t = some (convertToJSON Sample.lib child)) ∧
          (2 ≤ (childrenNamed t
              [.mk "item" "a" [] [], .mk "id" "7" [] [], .mk "item" "b" [] []]).length →
            GoMap.get? result t
                = some (.arr ((childrenNamed t
                    [.mk "item" "a" [] [], .mk "id" "7" [] [], .mk "item" "b" [] []]).map
                      (convertToJSON Sample.lib))) ∧
              ((childrenNamed t
                  [.mk "item" "a" [] [], .mk "id" "7" [] [], .mk "item" "b" [] []]).map
                    (convertToJSON Sample.lib)).length
                = (childrenNamed t
                    [.mk "item" "a" [] [], .mk "id" "7" [] [], .mk "item" "b" [] []]).length) :=
  convertToJSON_children Sample.lib "order" "" []
    [.mk "item" "a" [] [], .mk "id" "7" [] [], .mk "item" "b" [] []] (by simp)

theorem GoMap.mem_keys_set {α : Type} (m : GoMap α) (k : String) (v : α) (x : String) :
    x ∈ (m.set k v).keys ↔ x = k ∨ x ∈ m.keys := by
  induction m with
  | nil => simp [GoMap.set, GoMap.keys]
  | cons e m ih =>
    obtain ⟨k', v'⟩ := e
    by_cases hk : k' = k
    · subst hk
      simp [GoMap.set, GoMap.keys]
    · simp only [GoMap.keys] at ih
      simp only [GoMap.set, hk, if_false, GoMap.keys, List.map_cons, List.mem_cons, ih]
      tauto

theorem attrEntries_mem_keys (attrs : List XMLAttr) :
    ∀ (result : GoMap JSON) (k : String),
      k ∈ GoMap.keys (attrEntries attrs result)
        ↔ k ∈ GoMap.keys result ∨ ∃ attr ∈ attrs, k = "@" ++ attr.Local := by
  induction attrs with
  | nil =>
    intro result k
    simp [attrEntries]
  | cons attr attrs ih =>
    intro result k
    rw [attrEntries, ih, GoMap.mem_keys_set]
    simp only [List.mem_cons, exists_eq_or_imp]
    tauto

/-- The attribute loop leaves under `@name` the value of the last attribute
with the local name `name`. -/
theorem attrEntries_get? (attrs : List XMLAttr) :
    ∀ (result : GoMap JSON) (name : String),
      GoMap.get? (attrEntries attrs result) ("@" ++ name)
        = (match attrs.reverse.find? (fun attr => attr.Local = name) with
          | some attr => some (.str attr.Value)
          | none => GoMap.get? result ("@" ++ name)) := by
  induction attrs with
  | nil =>
    intro result name
    rfl
  | cons attr attrs ih =>
    intro result name
    rw [attrEntries, ih, GoMap.get?_set, List.reverse_cons, List.find?_append]
    cases hfind : attrs.reverse.find? (fun attr => attr.Local = name) with
    | some a => rfl
    | none =>
      by_cases hname : attr.Local = name
      · simp [hname]
      · have hne : ¬ "@" ++ name = "@" ++ attr.Local := fun e =>
          hname (String.append_left_cancel _ _ _ e).symm
        simp [hname, hne]

/-- With distinct local names the attribute loop appends one entry per attribute. -/
theorem attrEntries_distinct (attrs : List XMLAttr) :
    ∀ result : GoMap JSON,
      (GoMap.keys result ++ attrs.map (fun attr => "@" ++ attr.Local)).Nodup →
      attrEntries attrs result
        = result ++ attrs.map (fun attr => ("@" ++ attr.Local, JSON.str attr.Value)) := by
  induction attrs with
  | nil =>
    intro result _
    simp [attrEntries]
  | cons attr attrs ih =>
    intro result hnd
    have hnot : "@" ++ attr.Local ∉ GoMap.keys result := by
      intro hmem
      have := List.nodup_append.mp hnd
      exact this.2.2 hmem (by simp)
    rw [attrEntries, GoMap.set_eq_append _ _ _ hnot, ih]
    · simp
    · simpa [GoMap.keys, List.append_assoc] using hnd

/-- On a node with no children `convertToJSON` returns the text content as a
string when the content is non-empty; otherwise, when the node holds
attributes, a map whose keys are the `@name` of the local names of the
attributes, holding under `@name` the value of the last attribute with that
local name, which is one entry `@name` -> value per attribute, in order, when
the local names are distinct; otherwise null. -/
theorem convertToJSON_leaf (lib : StdLib) (XMLName Content : String) (Attrs : List XMLAttr) :
    (Content ≠ "" → convertToJSON lib (.mk XMLName Content Attrs []) = .str Content) ∧
      (Content = "" → Attrs = [] → convertToJSON lib (.mk XMLName Content Attrs []) = .null) ∧
      (Content = "" → Attrs ≠ [] →
        ∃ result : GoMap JSON,
          convertToJSON lib (.mk XMLName Content Attrs []) = .obj result ∧
            (GoMap.keys result).Nodup ∧
            (∀ k, k ∈ GoMap.keys result ↔ ∃ attr ∈ Attrs, k = "@" ++ attr.Local) ∧
            (∀ name, GoMap.get? result ("@" ++ name)
              = (Attrs.reverse.find? (fun attr => attr.Local = name)).map
                  (fun attr => JSON.str attr.Value)) ∧
            ((Attrs.map XMLAttr.Local).Nodup →
              result = Attrs.map (fun attr => ("@" ++ attr.Local, JSON.str attr.Value)))) := by
  refine ⟨?_, ?_, ?_⟩
  · intro hcontent
    rw [convertToJSON]
    simp [hcontent]
  · intro hcontent hattrs
    rw [convertToJSON]
    simp [hcontent, hattrs]
  · intro hcontent hattrs
    have hlen : Attrs.length > 0 := List.length_pos.mpr hattrs
    refine ⟨attrEntries Attrs [], ?_, attrEntries_keys_nodup Attrs [] (by simp [GoMap.keys]),
      ?_, ?_, ?_⟩
    · rw [convertToJSON]
      simp [hcontent, hlen]
    · intro k
      rw [attrEntries_mem_keys]
      simp [GoMap.keys]
    · intro name
      rw [attrEntries_get?]
      cases Attrs.reverse.find? (fun attr => attr.Local = name) <;> rfl
    · intro hnd
      rw [attrEntries_distinct]
      · simp
      · simp only [GoMap.keys, List.map_nil, List.nil_append]
        have hinj : Function.Injective (fun name : String => "@" ++ name) :=
          fun a b e => String.append_left_cancel _ _ _ e
        have := hnd.map hinj
        simpa [List.map_map, Function.comp_def] using this

/-- C19 fails on the code: the field `Attrs` of `XMLNode` is tagged
`xml:",attr"`, so that `xml.Unmarshal` stores in it only attributes that are
themselves named `Attrs`. For the element `e` with the attribute `id` = 1, no
content and no children, the node that the decoder builds holds no attribute
and `convertToJSON` returns null, not the map with the entry `@id` -> 1 that
it returns for a node that holds the attribute; so it is for every such
element none of whose attributes is named `Attrs`, and `XMLToJSON` then
encodes null. -/
theorem XMLToJSON_drops_attributes :
    unmarshalXMLNode (.mk "e" [⟨"id", "1"⟩] "" []) = .mk "e" "" [] [] ∧
      convertToJSON Sample.lib (unmarshalXMLNode (.mk "e" [⟨"id", "1"⟩] "" [])) = .null ∧
      convertToJSON Sample.lib (.mk "e" "" [⟨"id", "1"⟩] []) = .obj [("@id", .str "1")] ∧
      convertToJSON Sample.lib
          (unmarshalXMLNode (.mk "e" [⟨"id", "1"⟩, ⟨"Attrs", "x"⟩] "" []))
        = .obj [("@Attrs", .str "x")] ∧
      (∀ (lib : StdLib) (Name : String) (Attr : List XMLAttr),
        (∀ attr ∈ Attr, attr.Local ≠ "Attrs") →
        convertToJSON lib (unmarshalXMLNode (.mk Name Attr "" [])) = .null) ∧
      (∀ (lib : StdLib) (xmlData Name : String) (Attr : List XMLAttr),
        lib.xmlUnmarshal xmlData = .ok (unmarshalXMLNode (.mk Name Attr "" [])) →
        (∀ attr ∈ Attr, attr.Local ≠ "Attrs") →
        XMLToJSON lib xmlData
          = (match lib.jsonMarshalIndent .null with
            | .error err => .error ("failed to marshal JSON: " ++ err)
            | .ok output => .ok output)) := by
  have hnull : ∀ (lib : StdLib) (Name : String) (Attr : List XMLAttr),
      (∀ attr ∈ Attr, attr.Local ≠ "Attrs") →
      convertToJSON lib (unmarshalXMLNode (.mk Name Attr "" [])) = .null := by
    intro lib Name Attr hattr
    have hfilter : Attr.filter (fun attr => attr.Local = "Attrs") = [] := by
      rw [List.filter_eq_nil_iff]
      intro attr hmem
      simpa using hattr attr hmem
    rw [unmarshalXMLNode, hfilter, unmarshalChildren, convertToJSON]
    simp
  refine ⟨rfl, rfl, rfl, rfl, hnull, ?_⟩
  intro lib xmlData Name Attr hdata hattr
  unfold XMLToJSON
  rw [hdata]
  dsimp only
  rw [hnull lib Name Attr hattr]

/-! ## The table of JSON -> CSV -/

theorem RowOf.mono {headers headers' row : List String} {m : GoMap String}
    (h : RowOf headers row m) (hp : headers <+: headers') : RowOf headers' row m := by
  obtain ⟨hs, hpre, hrow, hkeys⟩ := h
  exact ⟨hs, hpre.trans hp, hrow, hkeys⟩

theorem rect_refl (st : FlatState) (h : st.Hdr) : Rect st st [] :=
  ⟨h, List.prefix_refl _, [], by simp, List.Forall₂.nil⟩

theorem rect_trans {st st' st'' : FlatState} {A B : List (GoMap String)}
    (h1 : Rect st st' A) (h2 : Rect st' st'' B) : Rect st st'' (A ++ B) := by
  obtain ⟨_, hp1, new1, hrows1, hall1⟩ := h1
  obtain ⟨hhdr2, hp2, new2, hrows2, hall2⟩ := h2
  refine ⟨hhdr2, hp1.trans hp2, new1 ++ new2, ?_, ?_⟩
  · rw [hrows2, hrows1, List.append_assoc]
  · exact List.rel_append (hall1.imp (fun _ _ h => h.mono hp2)) hall2

theorem addHeader_hdr (st : FlatState) (k : String) (h : st.Hdr) :
    Rect st (addHeader st k) [] ∧ k ∈ (addHeader st k).headers := by
  obtain ⟨hset, hnd⟩ := h
  unfold addHeader
  by_cases hc : st.headerSet.contains k = true
  · have hmem : k ∈ st.headers := by
      rw [← hset]; simpa using hc
    rw [if_pos hc]
    exact ⟨rect_refl st ⟨hset, hnd⟩, hmem⟩
  · have hmem : k ∉ st.headers := by
      rw [← hset]; simpa using hc
    rw [if_neg hc]
    refine ⟨⟨⟨?_, ?_⟩, ?_, [], by simp, List.Forall₂.nil⟩, ?_⟩
    · show st.headerSet ++ [k] = st.headers ++ [k]
      rw [hset]
    · show (st.headers ++ [k]).Nodup
      exact List.Nodup.append hnd (List.nodup_singleton k) (by simpa using hmem)
    · show st.headers <+: st.headers ++ [k]
      exact List.prefix_append _ _
    · show k ∈ st.headers ++ [k]
      simp

theorem flattenScalar_rect (lib : StdLib) (v : JSON) (st : FlatState) (path : List String)
    (h : st.Hdr) :
    Rect st (flattenScalar lib v st path) [[(strings.Join path ".", sprintV lib v)]] := by
  obtain ⟨⟨hhdr, hpre, new, hrows, hall⟩, hmem⟩ := addHeader_hdr st (strings.Join path ".") h
  have hnew : new = [] := List.forall₂_nil_right_iff.mp hall
  subst hnew
  simp only [List.append_nil] at hrows
  refine ⟨hhdr, hpre, [(addHeader st (strings.Join path ".")).headers.map
    (fun h => if h = strings.Join path "." then sprintV lib v else "")], ?_, ?_⟩
  · show (addHeader st (strings.Join path ".")).rows ++ [_] = st.rows ++ [_]
    rw [hrows]
  · refine List.Forall₂.cons ?_ List.Forall₂.nil
    refine ⟨(addHeader st (strings.Join path ".")).headers, List.prefix_refl _, ?_, ?_⟩
    · apply List.map_congr_left
      intro a _
      by_cases ha : a = strings.Join path "."
      · simp [GoMap.getStr, GoMap.get?, ha]
      · have ha' : ¬ strings.Join path "." = a := fun e => ha e.symm
        simp [GoMap.getStr, GoMap.get?, ha, ha']
    · intro k hk
      simp only [GoMap.keys, List.map_cons, List.map_nil, List.mem_singleton] at hk
      rw [hk]
      exact hmem

theorem appendRow_rect (st : FlatState) (rowMap : GoMap String) (h : st.Hdr)
    (hk : ∀ k ∈ GoMap.keys rowMap, k ∈ st.headers) :
    Rect st (appendRow st rowMap) (if rowMap.length > 0 then [rowMap] else []) := by
  unfold appendRow
  by_cases hlen : rowMap.length > 0
  · simp only [hlen, if_true]
    exact ⟨h, List.prefix_refl _, [st.headers.map (fun h => GoMap.getStr rowMap h)], rfl,
      List.Forall₂.cons ⟨st.headers, List.prefix_refl _, rfl, hk⟩ List.Forall₂.nil⟩
  · simp only [hlen, if_false]
    exact rect_refl st h

theorem fieldsRect_nested_step (lib : StdLib) (key : String) (value : JSON)
    (rest : List (String × JSON)) (st st1 : FlatState) (path : List String)
    (rowMap : GoMap String) (maps : List (GoMap String))
    (hnested : (value.isObj || value.isArr) = true)
    (hcons : flattenFields lib ((key, value) :: rest) st path rowMap
      = flattenFields lib rest st1 path rowMap)
    (hmaps : nestedMaps lib ((key, value) :: rest) path = maps ++ nestedMaps lib rest path)
    (h1 : Rect st st1 maps) (hsub : ∀ k ∈ GoMap.keys rowMap, k ∈ st.headers)
    (hrest : st1.Hdr → (∀ k ∈ GoMap.keys rowMap, k ∈ st1.headers) →
      FieldsRect lib rest st1 path rowMap) :
    FieldsRect lib ((key, value) :: rest) st path rowMap := by
  obtain ⟨hmap, hkeys, hrect⟩ := hrest h1.1 (fun k hk => h1.2.1.subset (hsub k hk))
  unfold FieldsRect
  rw [hcons, hmaps]
  refine ⟨?_, hkeys, rect_trans h1 hrect⟩
  rw [hmap, rowMapOf, if_pos hnested]

theorem fieldsRect_scalar_step (lib : StdLib) (key : String) (value : JSON)
    (rest : List (String × JSON)) (st : FlatState) (path : List String)
    (rowMap : GoMap String) (hscalar : (value.isObj || value.isArr) = false)
    (hhdr : st.Hdr) (hsub : ∀ k ∈ GoMap.keys rowMap, k ∈ st.headers)
    (hrest : ∀ (st1 : FlatState) (rowMap1 : GoMap String), st1.Hdr →
      (∀ k ∈ GoMap.keys rowMap1, k ∈ st1.headers) → FieldsRect lib rest st1 path rowMap1) :
    FieldsRect lib ((key, value) :: rest) st path rowMap := by
  obtain ⟨hobj, harr⟩ := scalar_of_not_nested value hscalar
  obtain ⟨hadd, hmem⟩ := addHeader_hdr st (strings.Join (path ++ [key]) ".") hhdr
  have hsub1 : ∀ k ∈ GoMap.keys (GoMap.set rowMap (strings.Join (path ++ [key]) ".")
      (sprintV lib value)), k ∈ (addHeader st (strings.Join (path ++ [key]) ".")).headers := by
    intro k hk
    rcases (GoMap.mem_keys_set _ _ _ _).mp hk with rfl | hk
    · exact hmem
    · exact hadd.2.1.subset (hsub k hk)
  obtain ⟨hmap, hkeys, hrect⟩ := hrest _ _ hadd.1 hsub1
  have hcons : flattenFields lib ((key, value) :: rest) st path rowMap
      = flattenFields lib rest (addHeader st (strings.Join (path ++ [key]) ".")) path
          (GoMap.set rowMap (strings.Join (path ++ [key]) ".") (sprintV lib value)) := by
    rw [flattenFields_cons]
    simp [hobj, harr]
  have hmaps : nestedMaps lib ((key, value) :: rest) path = nestedMaps lib rest path := by
    rw [nestedMaps]
    simp [hobj, harr]
  unfold FieldsRect
  rw [hcons, hmaps]
  refine ⟨?_, hkeys, ?_⟩
  · rw [hmap, rowMapOf, if_neg (by simp [hscalar])]
  · simpa using rect_trans hadd hrect

mutual
/-- The call `flattenJSON(v, ...)` appends one row for each row map of `v`. -/
theorem flattenJSON_rect (lib : StdLib) : ∀ (v : JSON) (st : FlatState) (path : List String),
    st.Hdr → Rect st (flattenJSON lib v st path) (rowMaps lib v path)
  | .obj fields, st, path, hhdr => by
    obtain ⟨hmap, hkeys, hrect⟩ := flattenFields_rect lib fields st path [] hhdr
      (by simp [GoMap.keys])
    have hrow : flattenJSON lib (.obj fields) st path
        = appendRow (flattenFields lib fields st path []).1
            (flattenFields lib fields st path []).2 := by
      rw [flattenJSON]
    rw [hrow, rowMaps]
    have h2 := appendRow_rect _ _ hrect.1 hkeys
    rw [hmap] at h2 ⊢
    exact rect_trans hrect h2
  | .arr items, st, path, hhdr => by
    rw [flattenJSON, rowMaps]
    exact flattenItems_rect lib items st path hhdr
  | .null, st, path, hhdr => by
    rw [flattenJSON_scalar lib .null st path rfl rfl, rowMaps]
    exact flattenScalar_rect lib .null st path hhdr
  | .bool b, st, path, hhdr => by
    rw [flattenJSON_scalar lib (.bool b) st path rfl rfl, rowMaps]
    exact flattenScalar_rect lib (.bool b) st path hhdr
  | .num x, st, path, hhdr => by
    rw [flattenJSON_scalar lib (.num x) st path rfl rfl, rowMaps]
    exact flattenScalar_rect lib (.num x) st path hhdr
  | .str s, st, path, hhdr => by
    rw [flattenJSON_scalar lib (.str s) st path rfl rfl, rowMaps]
    exact flattenScalar_rect lib (.str s) st path hhdr
theorem flattenFields_rect (lib : StdLib) : ∀ (fields : List (String × JSON)) (st : FlatState)
    (path : List String) (rowMap : GoMap String),
    st.Hdr → (∀ k ∈ GoMap.keys rowMap, k ∈ st.headers) → FieldsRect lib fields st path rowMap
  | [], st, path, rowMap, hhdr, hsub => by
    unfold FieldsRect
    simp only [flattenFields, rowMapOf, nestedMaps, true_and]
    exact ⟨hsub, rect_refl st hhdr⟩
  | (key, .obj fs) :: rest, st, path, rowMap, hhdr, hsub => by
    have h1 := flattenJSON_rect lib (.obj fs) st (path ++ [key]) hhdr
    refine fieldsRect_nested_step lib key (.obj fs) rest st
      (flattenJSON lib (.obj fs) st (path ++ [key])) path rowMap _ rfl
      (by rw [flattenFields_cons]; simp [JSON.isObj])
      (by rw [nestedMaps]; simp [JSON.isObj]) h1 hsub (fun hhdr1 hsub1 => ?_)
    exact flattenFields_rect lib rest _ path rowMap hhdr1 hsub1
  | (key, .arr items) :: rest, st, path, rowMap, hhdr, hsub => by
    have h1 := flattenIndexed_rect lib items 0 st (path ++ [key]) hhdr
    refine fieldsRect_nested_step lib key (.arr items) rest st
      (flattenIndexed lib items 0 st (path ++ [key])) path rowMap
      (indexedMaps lib items 0 (path ++ [key])) rfl
      (by rw [flattenFields_cons]; simp [JSON.isObj, JSON.isArr, flattenRange])
      (by rw [nestedMaps]; simp [JSON.isObj, JSON.isArr, rangeMaps]) h1 hsub
      (fun hhdr1 hsub1 => ?_)
    exact flattenFields_rect lib rest _ path rowMap hhdr1 hsub1
  | (key, .null) :: rest, st, path, rowMap, hhdr, hsub =>
    fieldsRect_scalar_step lib key .null rest st path rowMap rfl hhdr hsub
      (fun st1 rowMap1 h1 h2 => flattenFields_rect lib rest st1 path rowMap1 h1 h2)
  | (key, .bool b) :: rest, st, path, rowMap, hhdr, hsub =>
    fieldsRect_scalar_step lib key (.bool b) rest st path rowMap rfl hhdr hsub
      (fun st1 rowMap1 h1 h2 => flattenFields_rect lib rest st1 path rowMap1 h1 h2)
  | (key, .num x) :: rest, st, path, rowMap, hhdr, hsub =>
    fieldsRect_scalar_step lib key (.num x) rest st path rowMap rfl hhdr hsub
      (fun st1 rowMap1 h1 h2 => flattenFields_rect lib rest st1 path rowMap1 h1 h2)
  | (key, .str s) :: rest, st, path, rowMap, hhdr, hsub =>
    fieldsRect_scalar_step lib key (.str s) rest st path rowMap rfl hhdr hsub
      (fun st1 rowMap1 h1 h2 => flattenFields_rect lib rest st1 path rowMap1 h1 h2)
theorem flattenIndexed_rect (lib : StdLib) : ∀ (items : List JSON) (i : Nat) (st : FlatState)
    (path : List String),
    st.Hdr → Rect st (flattenIndexed lib items i st path) (indexedMaps lib items i path)
  | [], i, st, path, hhdr => by
    rw [flattenIndexed, indexedMaps]
    exact rect_refl st hhdr
  | item :: rest, i, st, path, hhdr => by
    have h1 := flattenJSON_rect lib item st (path ++ [toString i]) hhdr
    have h2 := flattenIndexed_rect lib rest (i + 1) _ path h1.1
    rw [flattenIndexed, indexedMaps]
    exact rect_trans h1 h2
theorem flattenItems_rect (lib : StdLib) : ∀ (items : List JSON) (st : FlatState)
    (path : List String),
    st.Hdr → Rect st (flattenItems lib items st path) (itemMaps lib items path)
  | [], st, path, hhdr => by
    rw [flattenItems, itemMaps]
    exact rect_refl st hhdr
  | item :: rest, st, path, hhdr => by
    have h1 := flattenJSON_rect lib item st path hhdr
    have h2 := flattenItems_rect lib rest _ path h1.1
    rw [flattenItems, itemMaps]
    exact rect_trans h1 h2
end

theorem map_eq_replicate (t : List String) (g : String → String) (h : ∀ x ∈ t, g x = "") :
    t.map g = List.replicate t.length "" := by
  induction t with
  | nil => rfl
  | cons a t ih =>
    simp only [List.map_cons, List.length_cons, List.replicate_succ]
    rw [h a (by simp), ih (fun x hx => h x (by simp [hx]))]

/-- A row made under a prefix of the final header, once padded, holds under
every final header `h` the value `m[h]`. -/
theorem padRow_rowOf {headers row : List String} {m : GoMap String} (hnd : headers.Nodup)
    (h : RowOf headers row m) :
    padRow headers.length row = headers.map (GoMap.getStr m) := by
  obtain ⟨hs, ⟨t, ht⟩, hrow, hkeys⟩ := h
  subst ht
  subst hrow
  have hempty : ∀ x ∈ t, GoMap.getStr m x = "" := by
    intro x hx
    have hnot : x ∉ GoMap.keys m := by
      intro hmem
      exact (List.nodup_append.mp hnd).2.2 (hkeys x hmem) hx
    simp [GoMap.getStr, GoMap.get?_eq_none m x hnot]
  simp only [padRow, List.length_map, List.length_append, List.map_append,
    Nat.add_sub_cancel_left]
  rw [map_eq_replicate t _ hempty]

theorem forall₂_padRow {headers : List String} (hnd : headers.Nodup)
    {rows : List (List String)} {maps : List (GoMap String)}
    (h : List.Forall₂ (RowOf headers) rows maps) :
    rows.map (padRow headers.length) = maps.map (fun m => headers.map (GoMap.getStr m)) := by
  induction h with
  | nil => rfl
  | cons h1 _ ih =>
    simp only [List.map_cons, ih, padRow_rowOf hnd h1]

theorem forall₂_keys {headers : List String} {rows : List (List String)}
    {maps : List (GoMap String)} (h : List.Forall₂ (RowOf headers) rows maps) :
    ∀ m ∈ maps, ∀ k ∈ GoMap.keys m, k ∈ headers := by
  induction h with
  | nil => simp
  | cons h1 _ ih =>
    intro m hm k hk
    simp only [List.mem_cons] at hm
    rcases hm with rfl | hm
    · obtain ⟨hs, hpre, _, hkeys⟩ := h1
      exact hpre.subset (hkeys k hk)
    · exact ih m hm k hk

theorem rowMapOf_keys_nodup (lib : StdLib) (fields : List (String × JSON)) (path : List String) :
    ∀ rowMap : GoMap String, (GoMap.keys rowMap).Nodup →
      (GoMap.keys (rowMapOf lib fields path rowMap)).Nodup := by
  induction fields with
  | nil =>
    intro rowMap h
    exact h
  | cons e fields ih =>
    intro rowMap h
    obtain ⟨key, value⟩ := e
    rw [rowMapOf]
    split_ifs
    · exact ih _ h
    · exact ih _ (GoMap.set_keys_nodup _ _ _ h).1

mutual
/-- No row map has a repeated key. -/
theorem rowMaps_nodup (lib : StdLib) : ∀ (v : JSON) (path : List String),
    ∀ m ∈ rowMaps lib v path, (GoMap.keys m).Nodup
  | .obj fields, path, m, hm => by
    rw [rowMaps, List.mem_append] at hm
    rcases hm with hm | hm
    · exact nestedMaps_nodup lib fields path m hm
    · split_ifs at hm
      · simp only [List.mem_singleton] at hm
        rw [hm]
        exact rowMapOf_keys_nodup lib fields path [] (by simp [GoMap.keys])
      · simp at hm
  | .arr items, path, m, hm => by
    rw [rowMaps] at hm
    exact itemMaps_nodup lib items path m hm
  | .null, path, m, hm => by
    simp only [rowMaps, List.mem_singleton] at hm
    simp [hm, GoMap.keys]
  | .bool b, path, m, hm => by
    simp only [rowMaps, List.mem_singleton] at hm
    simp [hm, GoMap.keys]
  | .num x, path, m, hm => by
    simp only [rowMaps, List.mem_singleton] at hm
    simp [hm, GoMap.keys]
  | .str s, path, m, hm => by
    simp only [rowMaps, List.mem_singleton] at hm
    simp [hm, GoMap.keys]
theorem nestedMaps_nodup (lib : StdLib) : ∀ (fields : List (String × JSON)) (path : List String),
    ∀ m ∈ nestedMaps lib fields path, (GoMap.keys m).Nodup
  | [], path, m, hm => by simp [nestedMaps] at hm
  | (key, .obj fs) :: rest, path, m, hm => by
    simp only [nestedMaps, JSON.isObj, if_true, List.mem_append] at hm
    rcases hm with hm | hm
    · exact rowMaps_nodup lib (.obj fs) (path ++ [key]) m hm
    · exact nestedMaps_nodup lib rest path m hm
  | (key, .arr items) :: rest, path, m, hm => by
    simp only [nestedMaps, JSON.isObj, JSON.isArr, if_true, rangeMaps, List.mem_append,
      Bool.false_eq_true, if_false] at hm
    rcases hm with hm | hm
    · exact indexedMaps_nodup lib items 0 (path ++ [key]) m hm
    · exact nestedMaps_nodup lib rest path m hm
  | (key, .null) :: rest, path, m, hm => by
    simp only [nestedMaps, JSON.isObj, JSON.isArr, Bool.false_eq_true, if_false] at hm
    exact nestedMaps_nodup lib rest path m hm
  | (key, .bool b) :: rest, path, m, hm => by
    simp only [nestedMaps, JSON.isObj, JSON.isArr, Bool.false_eq_true, if_false] at hm
    exact nestedMaps_nodup lib rest path m hm
  | (key, .num x) :: rest, path, m, hm => by
    simp only [nestedMaps, JSON.isObj, JSON.isArr, Bool.false_eq_true, if_false] at hm
    exact nestedMaps_nodup lib rest path m hm
  | (key, .str s) :: rest, path, m, hm => by
    simp only [nestedMaps, JSON.isObj, JSON.isArr, Bool.false_eq_true, if_false] at hm
    exact nestedMaps_nodup lib rest path m hm
theorem indexedMaps_nodup (lib : StdLib) : ∀ (items : List JSON) (i : Nat) (path : List String),
    ∀ m ∈ indexedMaps lib items i path, (GoMap.keys m).Nodup
  | [], i, path, m, hm => by simp [indexedMaps] at hm
  | item :: rest, i, path, m, hm => by
    rw [indexedMaps, List.mem_append] at hm
    rcases hm with hm | hm
    · exact rowMaps_nodup lib item (path ++ [toString i]) m hm
    · exact indexedMaps_nodup lib rest (i + 1) path m hm
theorem itemMaps_nodup (lib : StdLib) : ∀ (items : List JSON) (path : List String),
    ∀ m ∈ itemMaps lib items path, (GoMap.keys m).Nodup
  | [], path, m, hm => by simp [itemMaps] at hm
  | item :: rest, path, m, hm => by
    rw [itemMaps, List.mem_append] at hm
    rcases hm with hm | hm
    · exact rowMaps_nodup lib item path m hm
    · exact itemMaps_nodup lib rest path m hm
end

/-- The records that `JSONToCSV` writes when it emits rows, by the path keys
under which `flattenJSON` recorded the values: the header, which has no
duplicate, and one row for each row map, holding under every header the value
that the map has for it and the empty string when it has none. -/
theorem csvRecords_by_path_key (lib : StdLib) (jsonData : String) (jsonObj : JSON)
    (hdata : lib.jsonUnmarshal jsonData = .ok jsonObj)
    (hrows : (flattened lib jsonObj).rows ≠ []) :
    JSONToCSV lib jsonData = writeRecords lib (csvRecords lib jsonObj) "" ∧
      csvRecords lib jsonObj
        = (flattened lib jsonObj).headers
            :: (rowMaps lib jsonObj []).map
                (fun m => (flattened lib jsonObj).headers.map (GoMap.getStr m)) ∧
      (flattened lib jsonObj).headers.Nodup ∧
      (∀ m ∈ rowMaps lib jsonObj [],
        ((flattened lib jsonObj).headers.map (GoMap.getStr m)).length
            = (flattened lib jsonObj).headers.length ∧
          (∀ kv ∈ m, kv.1 ∈ (flattened lib jsonObj).headers ∧ GoMap.getStr m kv.1 = kv.2) ∧
          (∀ h, h ∉ GoMap.keys m → GoMap.getStr m h = "")) := by
  obtain ⟨hhdr, _, new, hnew, hall⟩ :=
    flattenJSON_rect lib jsonObj ⟨[], [], []⟩ [] ⟨rfl, List.nodup_nil⟩
  change (flattened lib jsonObj).Hdr at hhdr
  change (flattened lib jsonObj).rows = [] ++ new at hnew
  change List.Forall₂ (RowOf (flattened lib jsonObj).headers) new _ at hall
  simp only [List.nil_append] at hnew
  have hlen : ¬ (flattened lib jsonObj).rows.length = 0 := by
    intro h
    exact hrows (List.length_eq_zero.mp h)
  refine ⟨JSONToCSV_eq_writeRecords lib jsonData jsonObj hdata, ?_, hhdr.2, ?_⟩
  · unfold csvRecords
    simp only [hlen, if_false]
    rw [hnew, forall₂_padRow hhdr.2 hall]
  · intro m hm
    refine ⟨by simp, ?_, ?_⟩
    · intro kv hkv
      have hkey : kv.1 ∈ GoMap.keys m := List.mem_map.mpr ⟨kv, hkv, rfl⟩
      refine ⟨forall₂_keys hall m hm kv.1 hkey, ?_⟩
      have hget := GoMap.get?_of_mem m kv.1 kv.2 (rowMaps_nodup lib jsonObj [] m hm) hkv
      simp [GoMap.getStr, hget]
    · intro h hnot
      simp [GoMap.getStr, GoMap.get?_eq_none m h hnot]

theorem csvRecords_tail (lib : StdLib) (jsonObj : JSON) :
    (csvRecords lib jsonObj).tail
      = (flattened lib jsonObj).rows.map (padRow (flattened lib jsonObj).headers.length) := by
  unfold csvRecords
  by_cases hrows : (flattened lib jsonObj).rows.length = 0
  · have : (flattened lib jsonObj).rows = [] := List.length_eq_zero.mp hrows
    simp [this]
  · simp [hrows]

/-- For an object with distinct keys and no array directly inside an array,
every leaf pair is a cell of a padded row under the column of its dotted path,
and every cell of a padded row is such a pair or holds the empty string. -/
theorem padded_rows_flat (lib : StdLib) (fields : List (String × JSON))
    (hkeys : (JSON.obj fields).nodupKeys = true) (harr : (JSON.obj fields).flatArrays = true) :
    (∀ p ∈ leafPairs lib (.obj fields) [],
      ∃ row ∈ (csvRecords lib (.obj fields)).tail,
        p ∈ (flattened lib (.obj fields)).headers.zip row) ∧
      (∀ row ∈ (csvRecords lib (.obj fields)).tail,
        ∀ c ∈ (flattened lib (.obj fields)).headers.zip row,
          c ∈ leafPairs lib (.obj fields) [] ∨ c.2 = "") := by
  obtain ⟨hinv, _, ⟨new, hnew, hcomplete, hsound⟩⟩ := flattened_ext lib fields hkeys harr
  simp only [List.nil_append] at hnew
  rw [csvRecords_tail]
  constructor
  · intro p hp
    obtain ⟨r, hr, hpr⟩ := hcomplete p hp
    refine ⟨_, List.mem_map_of_mem _ (by rw [hnew]; exact hr), ?_⟩
    have hlen : r.length ≤ (flattened lib (.obj fields)).headers.length :=
      hinv.2.2 r (by rw [hnew]; exact hr)
    simp only [padRow]
    rw [zip_append_right _ _ _ hlen]
    exact List.mem_append_left _ hpr
  · intro row hrow c hc
    obtain ⟨r, hr, rfl⟩ := List.mem_map.mp hrow
    have hlen : r.length ≤ (flattened lib (.obj fields)).headers.length := hinv.2.2 r hr
    simp only [padRow] at hc
    rw [zip_append_right _ _ _ hlen] at hc
    rcases List.mem_append.mp hc with hc | hc
    · exact hsound r (by rw [← hnew]; exact hr) c hc
    · exact Or.inr (List.mem_replicate.mp (List.of_mem_zip hc).2).2

/-- C20 fails on the code in its last part: for the object whose member `a` is
an array holding the array of 1 and 2, the records are the header `a.0` and
the rows `1` and `2`: the values 1 and 2, whose paths are `a.0.0` and `a.0.1`,
both stand in the column `a.0`, and no column has the name of either path.
The shape holds for every input for which rows are emitted: the header is the
first record and has no duplicate column, and every row has as many fields as
the header. For an object with distinct keys and no array directly inside an
array every value stands in the column of its own path and every other cell
of its row is the empty string. -/
theorem JSONToCSV_value_outside_own_column :
    Sample.jsonUnmarshal "\x7b\"a\":[[1,2]]\x7d"
        = .ok (.obj [("a", .arr [.arr [.num 1, .num 2]])]) ∧
      leafPairs Sample.lib (.obj [("a", .arr [.arr [.num 1, .num 2]])]) []
        = [("a.0.0", "1"), ("a.0.1", "2")] ∧
      csvRecords Sample.lib (.obj [("a", .arr [.arr [.num 1, .num 2]])])
        = [["a.0"], ["1"], ["2"]] ∧
      JSONToCSV Sample.lib "\x7b\"a\":[[1,2]]\x7d" = .ok "a.0\n1\n2\n" ∧
      "a.0.0" ∉ (flattened Sample.lib (.obj [("a", .arr [.arr [.num 1, .num 2]])])).headers ∧
      "a.0.1" ∉ (flattened Sample.lib (.obj [("a", .arr [.arr [.num 1, .num 2]])])).headers ∧
      (∀ (lib : StdLib) (jsonData : String) (jsonObj : JSON),
        lib.jsonUnmarshal jsonData = .ok jsonObj → (flattened lib jsonObj).rows ≠ [] →
        JSONToCSV lib jsonData = writeRecords lib (csvRecords lib jsonObj) "" ∧
          (flattened lib jsonObj).headers.Nodup ∧
          ∃ rows : List (List String),
            csvRecords lib jsonObj = (flattened lib jsonObj).headers :: rows ∧
              rows.length = (flattened lib jsonObj).rows.length ∧
              ∀ row ∈ rows, row.length = (flattened lib jsonObj).headers.length) ∧
      (∀ (lib : StdLib) (fields : List (String × JSON)),
        (JSON.obj fields).nodupKeys = true → (JSON.obj fields).flatArrays = true →
        (∀ p ∈ leafPairs lib (.obj fields) [],
          ∃ row ∈ (csvRecords lib (.obj fields)).tail,
            p ∈ (flattened lib (.obj fields)).headers.zip row) ∧
          (∀ row ∈ (csvRecords lib (.obj fields)).tail,
            ∀ c ∈ (flattened lib (.obj fields)).headers.zip row,
              c ∈ leafPairs lib (.obj fields) [] ∨ c.2 = "")) := by
  refine ⟨rfl, by decide, by decide, by decide, by decide, by decide, ?_, padded_rows_flat⟩
  intro lib jsonData jsonObj hdata hrows
  obtain ⟨hwrite, hrecords, hnd, _⟩ :=
    csvRecords_by_path_key lib jsonData jsonObj hdata hrows
  refine ⟨hwrite, hnd, _, hrecords, ?_, ?_⟩
  · have htail := csvRecords_tail lib jsonObj
    rw [hrecords] at htail
    simp only [List.tail_cons] at htail
    rw [htail, List.length_map]
  · intro row hrow
    obtain ⟨m, _, rfl⟩ := List.mem_map.mp hrow
    simp

/-! ## The port and the path in `buildEndpoint` -/

theorem cut_isSome_of_mem (c : Char) (l : List Char) (h : c ∈ l) :
    (strings.cut [c] l).isSome = true := by
  induction l with
  | nil => simp at h
  | cons x xs ih =>
    rw [strings.cut]
    by_cases hx : c = x
    · subst hx
      simp
    · have hmem : c ∈ xs := by
        rcases List.mem_cons.mp h with h | h
        · exact absurd h hx
        · exact h
      have hsome := ih hmem
      have hpre : List.isPrefixOf [c] (x :: xs) = false := by
        simp [List.isPrefixOf, hx]
      rw [hpre]
      cases hcut : strings.cut [c] xs with
      | none => simp [hcut] at hsome
      | some p => simp

/-- A base path that starts with `http://` or `https://` contains a colon. -/
theorem Contains_colon_of_scheme (basePath : String)
    (h : strings.HasPrefix basePath "https://" = true
      ∨ strings.HasPrefix basePath "http://" = true) :
    strings.Contains basePath ":" = true := by
  have hmem : ':' ∈ basePath.data := by
    rcases h with h | h
    all_goals
      obtain ⟨t, ht⟩ := List.isPrefixOf_iff_prefix.mp h
      rw [← ht]
      simp
  simp only [strings.Contains, Bool.or_eq_true]
  exact Or.inr (cut_isSome_of_mem ':' basePath.data hmem)

/-- The port-injection block never changes the base path. -/
theorem injectPort_eq (basePath : String) (port : Int) : injectPort basePath port = basePath := by
  unfold injectPort
  by_cases hcolon : strings.Contains basePath ":" = true
  · simp [hcolon]
  · have h1 : ¬ strings.HasPrefix basePath "https://" = true := fun h =>
      hcolon (Contains_colon_of_scheme basePath (Or.inl h))
    have h2 : ¬ strings.HasPrefix basePath "http://" = true := fun h =>
      hcolon (Contains_colon_of_scheme basePath (Or.inr h))
    simp [h1, h2]

/-- C28: the result of `buildEndpoint` does not depend on the configured
port: two connection settings that differ only in `Port` give the same
endpoint for every route, because no base path has no colon and yet starts
with `http://` or `https://`, so that the port block leaves every base path as
it is. -/
theorem buildEndpoint_ignores_port (connSettings : ConnectionSetting) (route : Route) :
    (∀ port : Int,
      buildEndpoint { connSettings with Port := port } route = buildEndpoint connSettings route) ∧
      (∀ (basePath : String) (port : Int), injectPort basePath port = basePath) ∧
      (∀ basePath : String,
        ¬ (strings.Contains basePath ":" = false ∧
          (strings.HasPrefix basePath "https://" = true
            ∨ strings.HasPrefix basePath "http://" = true))) := by
  refine ⟨?_, injectPort_eq, ?_⟩
  · intro port
    simp [buildEndpoint, injectPort_eq]
  · rintro basePath ⟨hno, hscheme⟩
    rw [Contains_colon_of_scheme basePath hscheme] at hno
    exact absurd hno (by decide)

theorem TrimSuffix_append (pre suf : String) : strings.TrimSuffix (pre ++ suf) suf = pre := by
  unfold strings.TrimSuffix
  rw [if_pos (HasSuffix_append pre suf)]
  apply String.ext
  simp [String.data_append]

/-- C26: the base is the path of the connection setting, or the path of the
route when that is empty. For a route whose path does not start with `http`,
`buildEndpoint` returns the base unchanged when the base ends with the route
path, and otherwise the base without one trailing `/` followed by the route
path; in both cases the result ends with the route path. -/
theorem buildEndpoint_joins (connSettings : ConnectionSetting) (route : Route)
    (hroute : strings.HasPrefix route.Path "http" = false) :
    (strings.HasSuffix (if connSettings.Path = "" then route.Path else connSettings.Path)
        route.Path = true →
      buildEndpoint connSettings route
        = (if connSettings.Path = "" then route.Path else connSettings.Path)) ∧
      (strings.HasSuffix (if connSettings.Path = "" then route.Path else connSettings.Path)
          route.Path = false →
        buildEndpoint connSettings route
          = strings.TrimSuffix (if connSettings.Path = "" then route.Path else connSettings.Path)
              "/" ++ route.Path) ∧
      strings.HasSuffix (buildEndpoint connSettings route) route.Path = true ∧
      (∀ pre : String, strings.TrimSuffix (pre ++ "/") "/" = pre) ∧
      (∀ base : String, strings.HasSuffix base "/" = false → strings.TrimSuffix base "/" = base) := by
  have hyes : strings.HasSuffix (if connSettings.Path = "" then route.Path else connSettings.Path)
        route.Path = true →
      buildEndpoint connSettings route
        = (if connSettings.Path = "" then route.Path else connSettings.Path) := by
    intro hsuf
    simp only [buildEndpoint, injectPort_eq, hroute, hsuf]
    simp
  have hno : strings.HasSuffix (if connSettings.Path = "" then route.Path else connSettings.Path)
          route.Path = false →
        buildEndpoint connSettings route
          = strings.TrimSuffix (if connSettings.Path = "" then route.Path else connSettings.Path)
              "/" ++ route.Path := by
    intro hsuf
    simp only [buildEndpoint, injectPort_eq, hroute, hsuf]
    simp
  refine ⟨hyes, hno, ?_, fun pre => TrimSuffix_append pre "/", ?_⟩
  · cases hsuf : strings.HasSuffix
        (if connSettings.Path = "" then route.Path else connSettings.Path) route.Path with
    | true => rw [hyes hsuf]; exact hsuf
    | false => rw [hno hsuf]; exact HasSuffix_append _ _
  · intro base hbase
    simp [strings.TrimSuffix, hbase]

/-- C26 for the base `https://sap.example.com/api/` and the route path `/orders`. -/
theorem buildEndpoint_joins_witness :
    buildEndpoint ⟨61, "sap", 1, "https://sap.example.com/api/", 8443, 0⟩
        ⟨11, "orders", "/orders", 1, "POST"⟩ = "https://sap.example.com/api/orders" ∧
      strings.HasSuffix (buildEndpoint ⟨61, "sap", 1, "https://sap.example.com/api/", 8443, 0⟩
        ⟨11, "orders", "/orders", 1, "POST"⟩) "/orders" = true :=
  ⟨((buildEndpoint_joins ⟨61, "sap", 1, "https://sap.example.com/api/", 8443, 0⟩
      ⟨11, "orders", "/orders", 1, "POST"⟩ (by decide)).2.1 (by decide)).trans (by decide),
    (buildEndpoint_joins ⟨61, "sap", 1, "https://sap.example.com/api/", 8443, 0⟩
      ⟨11, "orders", "/orders", 1, "POST"⟩ (by decide)).2.2.1⟩

/-! ## Column names of JSON -> CSV -/

/-- C21 fails on the code for an array directly inside an array: in the
object whose member `a` is an array holding the array of 1 and 2, the leaves
have the paths `a.0.0` and `a.0.1`, and `flattenJSON` writes both under the
column `a.0`, because its array case passes `path` on without the index. For
an object with distinct keys and no array directly inside an array every leaf
is written under the column of its dotted path. -/
theorem flattenJSON_drops_inner_index :
    Sample.jsonUnmarshal "\x7b\"a\":[[1,2]]\x7d"
        = .ok (.obj [("a", .arr [.arr [.num 1, .num 2]])]) ∧
      leafPairs Sample.lib (.obj [("a", .arr [.arr [.num 1, .num 2]])]) []
        = [("a.0.0", "1"), ("a.0.1", "2")] ∧
      rowMaps Sample.lib (.obj [("a", .arr [.arr [.num 1, .num 2]])]) []
        = [[("a.0", "1")], [("a.0", "2")]] ∧
      (flattened Sample.lib (.obj [("a", .arr [.arr [.num 1, .num 2]])])).headers = ["a.0"] ∧
      (flattened Sample.lib (.obj [("a", .arr [.arr [.num 1, .num 2]])])).rows
        = [["1"], ["2"]] ∧
      JSONToCSV Sample.lib "\x7b\"a\":[[1,2]]\x7d" = .ok "a.0\n1\n2\n" ∧
      (∀ (lib : StdLib) (fields : List (String × JSON)),
        (JSON.obj fields).nodupKeys = true → (JSON.obj fields).flatArrays = true →
        ∀ p ∈ leafPairs lib (.obj fields) [],
          ∃ row ∈ (flattened lib (.obj fields)).rows,
            p ∈ (flattened lib (.obj fields)).headers.zip row) := by
  refine ⟨rfl, by decide, by decide, by decide, by decide, by decide, ?_⟩
  intro lib fields hkeys harr p hp
  obtain ⟨_, _, new, hnew, hall, _⟩ := flattened_ext lib fields hkeys harr
  obtain ⟨row, hrow, hmem⟩ := hall p hp
  exact ⟨row, by rw [hnew]; simp [hrow], hmem⟩

/-! ## Properties of `Authenticate` -/

/-- C22 fails on the code for the SOAP adapter: its `Authenticate` has no case
for a BearerToken record and returns no header for it, where the REST adapter
returns `Authorization: Bearer <token>`. For a Basic record with a non-empty
user name and password both adapters return the pre-encoded Basic header when
`http.NewRequest` accepts the endpoint, and panic when it refuses it; the
Queue adapter returns no header and no error for every record. -/
theorem SOAPAdapter_Authenticate_no_bearer :
    SOAPAdapter.Authenticate Sample.lib ⟨51, "sap-auth", 1, "BearerToken", "", "", "t0k"⟩
        "https://sap.example.com/api" = .ok [] ∧
      RESTAdapter.Authenticate Sample.lib ⟨51, "sap-auth", 1, "BearerToken", "", "", "t0k"⟩
        "https://sap.example.com/api" = .ok [("Authorization", "Bearer t0k")] ∧
      (∀ (lib : StdLib) (auth : ConnectionAuthentication) (endpoint : String),
        auth.AuthType = AuthBearerToken →
        SOAPAdapter.Authenticate lib auth endpoint = .ok []) ∧
      (∀ (lib : StdLib) (auth : ConnectionAuthentication) (endpoint : String),
        auth.AuthType = AuthBearerToken → auth.Token ≠ "" →
        RESTAdapter.Authenticate lib auth endpoint
          = .ok [("Authorization", "Bearer " ++ auth.Token)]) ∧
      (∀ (lib : StdLib) (auth : ConnectionAuthentication) (endpoint : String),
        auth.AuthType = AuthBasic → auth.Username ≠ "" → auth.Password ≠ "" →
        lib.httpNewRequest "GET" endpoint = .ok () →
        RESTAdapter.Authenticate lib auth endpoint
            = .ok [("Authorization", "Basic " ++ lib.base64 (auth.Username ++ ":" ++ auth.Password))] ∧
          SOAPAdapter.Authenticate lib auth endpoint
            = .ok [("Authorization", "Basic " ++ lib.base64 (auth.Username ++ ":" ++ auth.Password))]) ∧
      RESTAdapter.Authenticate Sample.lib ⟨51, "sap-auth", 1, "Basic", "user", "secret", ""⟩
        "https://sap.example.com/api" = .ok [("Authorization", "Basic dXNlcjpzZWNyZXQ=")] ∧
      (∀ (lib : StdLib) (auth : ConnectionAuthentication) (endpoint err : String),
        auth.AuthType = AuthBasic → auth.Username ≠ "" → auth.Password ≠ "" →
        lib.httpNewRequest "GET" endpoint = .error err →
        RESTAdapter.Authenticate lib auth endpoint
            = .panic "runtime error: invalid memory address or nil pointer dereference" ∧
          SOAPAdapter.Authenticate lib auth endpoint
            = .panic "runtime error: invalid memory address or nil pointer dereference") ∧
      (∀ (auth : ConnectionAuthentication) (endpoint : String),
        AMQPAdapter.Authenticate auth endpoint = .ok []) := by
  refine ⟨by decide, by decide, ?_, ?_, ?_, by decide, ?_, fun _ _ => rfl⟩
  · intro lib auth endpoint htype
    simp [SOAPAdapter.Authenticate, htype, AuthBearerToken, AuthBasic]
  · intro lib auth endpoint htype htoken
    simp [RESTAdapter.Authenticate, htype, htoken, AuthBearerToken, AuthBasic, GoMap.set]
  · intro lib auth endpoint htype huser hpass hreq
    simp [RESTAdapter.Authenticate, SOAPAdapter.Authenticate, basicAuthHeader, htype, huser,
      hpass, hreq, GoMap.set]
  · intro lib auth endpoint err htype huser hpass hreq
    simp [RESTAdapter.Authenticate, SOAPAdapter.Authenticate, basicAuthHeader, htype, huser,
      hpass, hreq]

/-! ## Properties of `findThreadForSystem` -/

/-- C27: `findThreadForSystem` returns a thread exactly when the system has at
least one route, a ThreadRoute is found for the first route, and its direction
is the requested one, and the thread is that of this ThreadRoute; with no
route, with no ThreadRoute for the first route, and with another direction it
fails. The only calls are the query for the routes of the system and, when
there is a route, the query for the ThreadRoute of the first one. -/
theorem findThreadForSystem_first_route (env : Env) (systemID : UUID) (direction : String)
    (hist : List Event) :
    (∀ thread : UUID,
      (findThreadForSystem env systemID direction hist).1 = .ok thread ↔
        ∃ (targetRoute : Route) (rest : List Route) (threadRoute : ThreadRoute),
          env.RouteGetBySystem hist systemID = .ok (targetRoute :: rest) ∧
            env.GetThreadRouteByRouteID (hist ++ [.RouteGetBySystem systemID]) targetRoute.Ref
              = .ok threadRoute ∧
            threadRoute.Direction = direction ∧ thread = threadRoute.Thread) ∧
      (env.RouteGetBySystem hist systemID = .ok [] →
        findThreadForSystem env systemID direction hist
          = (.error ("no routes found for system " ++ sprintUUID systemID),
            hist ++ [.RouteGetBySystem systemID])) ∧
      (∀ (targetRoute : Route) (rest : List Route) (err : String),
        env.RouteGetBySystem hist systemID = .ok (targetRoute :: rest) →
        env.GetThreadRouteByRouteID (hist ++ [.RouteGetBySystem systemID]) targetRoute.Ref
          = .error err →
        findThreadForSystem env systemID direction hist
          = (.error ("no thread route found for route " ++ sprintUUID targetRoute.Ref ++ ": "
              ++ err),
            hist ++ [.RouteGetBySystem systemID] ++ [.GetThreadRouteByRouteID targetRoute.Ref])) ∧
      (∀ (targetRoute : Route) (rest : List Route) (threadRoute : ThreadRoute),
        env.RouteGetBySystem hist systemID = .ok (targetRoute :: rest) →
        env.GetThreadRouteByRouteID (hist ++ [.RouteGetBySystem systemID]) targetRoute.Ref
          = .ok threadRoute →
        threadRoute.Direction ≠ direction →
        findThreadForSystem env systemID direction hist
          = (.error ("thread route direction mismatch: expected " ++ direction ++ ", got "
              ++ threadRoute.Direction),
            hist ++ [.RouteGetBySystem systemID] ++ [.GetThreadRouteByRouteID targetRoute.Ref])) ∧
      ((findThreadForSystem env systemID direction hist).2 = hist ++ [.RouteGetBySystem systemID] ∨
        ∃ (targetRoute : Route) (rest : List Route),
          env.RouteGetBySystem hist systemID = .ok (targetRoute :: rest) ∧
            (findThreadForSystem env systemID direction hist).2
              = hist ++ [.RouteGetBySystem systemID]
                ++ [.GetThreadRouteByRouteID targetRoute.Ref]) := by
  refine ⟨?_, ?_, ?_, ?_, ?_⟩
  · intro thread
    unfold findThreadForSystem
    cases hroutes : env.RouteGetBySystem hist systemID with
    | error err => simp
    | ok routes =>
      cases routes with
      | nil => simp
      | cons targetRoute rest =>
        dsimp only
        cases htr : env.GetThreadRouteByRouteID (hist ++ [.RouteGetBySystem systemID])
            targetRoute.Ref with
        | error err => simp [htr]
        | ok threadRoute =>
          by_cases hdir : threadRoute.Direction = direction
          · simp [htr, hdir]
            exact eq_comm
          · simp [htr, hdir]
  · intro hroutes
    simp [findThreadForSystem, hroutes]
  · intro targetRoute rest err hroutes htr
    simp [findThreadForSystem, hroutes, htr]
  · intro targetRoute rest threadRoute hroutes htr hdir
    simp [findThreadForSystem, hroutes, htr, hdir]
  · unfold findThreadForSystem
    cases hroutes : env.RouteGetBySystem hist systemID with
    | error err => simp
    | ok routes =>
      cases routes with
      | nil => simp
      | cons targetRoute rest =>
        dsimp only
        right
        refine ⟨targetRoute, rest, rfl, ?_⟩
        cases htr : env.GetThreadRouteByRouteID (hist ++ [.RouteGetBySystem systemID])
            targetRoute.Ref with
        | error err => simp
        | ok threadRoute =>
          by_cases hdir : threadRoute.Direction = direction
          · simp [hdir]
          · simp [hdir]

/-! ## What `processRoute` hands to `Send` -/

/-- With the route, its connection setting, the converted data, the adapter
and the authentication headers at hand, `processRoute` calls `Send` with the
endpoint of `buildEndpoint`, the action of the protocol, these headers and the
converted data, and returns by the error of `Send`. -/
theorem processRoute_send (env : Env) (thread : Thread) (group : ThreadGroup)
    (threadRoute : ThreadRoute) (messageData : String) (hist : List Event) (route : Route)
    (connSettings : ConnectionSetting) (convertedData : String)
    (protocolAdapter : ProtocolAdapter) (headers : GoMap String) (histA : List Event)
    (hroute : env.RouteGetByID hist threadRoute.Route = .ok route)
    (hconn : env.GetConnectionSettings (hist ++ [.RouteGetByID threadRoute.Route]) route.System
      = .ok connSettings)
    (hconv : (if threadRoute.FileFormat ≠ "JSON" then
        Convert env.lib messageData "JSON" threadRoute.FileFormat
      else Except.ok messageData) = .ok convertedData)
    (hadapter : NewAdapterFactory.GetAdapter group.Protocol = .ok protocolAdapter)
    (hauth : authHeaders env protocolAdapter connSettings
      (hist ++ [.RouteGetByID threadRoute.Route] ++ [.GetConnectionSettings route.System])
        = (.ok headers, histA)) :
    processRoute env thread group threadRoute messageData hist
      = sendOutcome (protocolAdapter.Send env (buildEndpoint connSettings route)
          (routeAction group route) headers convertedData histA) := by
  unfold processRoute
  dsimp only
  rw [hroute]
  dsimp only
  rw [hconn]
  dsimp only
  rw [hconv]
  dsimp only
  rw [hadapter]
  dsimp only
  rw [hauth]
  dsimp only
  unfold sendOutcome
  cases (protocolAdapter.Send env (buildEndpoint connSettings route)
    (routeAction group route) headers convertedData histA).1.err <;> rfl

/-- C24: when the connection setting of the route references an
authentication record and the lookup of the record fails, `processRoute`
still calls `Send`, with no header, and with the endpoint, the action and the
body that it uses for the same route when the connection setting has no
authentication reference. -/
theorem processRoute_unresolved_auth (env : Env) (thread : Thread) (group : ThreadGroup)
    (threadRoute : ThreadRoute) (messageData : String) (hist : List Event) (route : Route)
    (connSettings : ConnectionSetting) (convertedData err : String)
    (protocolAdapter : ProtocolAdapter)
    (hroute : env.RouteGetByID hist threadRoute.Route = .ok route)
    (hconn : env.GetConnectionSettings (hist ++ [.RouteGetByID threadRoute.Route]) route.System
      = .ok connSettings)
    (hconv : (if threadRoute.FileFormat ≠ "JSON" then
        Convert env.lib messageData "JSON" threadRoute.FileFormat
      else Except.ok messageData) = .ok convertedData)
    (hadapter : NewAdapterFactory.GetAdapter group.Protocol = .ok protocolAdapter)
    (href : connSettings.AuthRef ≠ UUID.Nil)
    (hauth : env.GetConnectionAuth
      (hist ++ [.RouteGetByID threadRoute.Route] ++ [.GetConnectionSettings route.System])
      connSettings.AuthRef = .error err) :
    processRoute env thread group threadRoute messageData hist
        = sendOutcome (protocolAdapter.Send env (buildEndpoint connSettings route)
            (routeAction group route) [] convertedData
            (hist ++ [.RouteGetByID threadRoute.Route] ++ [.GetConnectionSettings route.System]
              ++ [.GetConnectionAuth connSettings.AuthRef])) ∧
      (∀ env' : Env, env'.lib = env.lib →
        env'.RouteGetByID hist threadRoute.Route = .ok route →
        env'.GetConnectionSettings (hist ++ [.RouteGetByID threadRoute.Route]) route.System
          = .ok { connSettings with AuthRef := UUID.Nil } →
        processRoute env' thread group threadRoute messageData hist
          = sendOutcome (protocolAdapter.Send env' (buildEndpoint connSettings route)
              (routeAction group route) [] convertedData
              (hist ++ [.RouteGetByID threadRoute.Route]
                ++ [.GetConnectionSettings route.System]))) := by
  constructor
  · refine processRoute_send env thread group threadRoute messageData hist route connSettings
      convertedData protocolAdapter [] _ hroute hconn hconv hadapter ?_
    unfold authHeaders
    rw [if_pos href, hauth]
  · intro env' hlib hroute' hconn'
    have hend : buildEndpoint { connSettings with AuthRef := UUID.Nil } route
        = buildEndpoint connSettings route := rfl
    rw [← hend]
    refine processRoute_send env' thread group threadRoute messageData hist route
      { connSettings with AuthRef := UUID.Nil } convertedData protocolAdapter [] _ hroute' hconn'
      (by rw [hlib]; exact hconv) hadapter ?_
    simp [authHeaders]

/-- C24 for the route of SAP in a store that lacks the authentication record
that the connection setting references. -/
theorem processRoute_unresolved_auth_witness :
    processRoute (Sample.env Sample.danglingAuthStore Sample.allUp) ⟨21, "to-sap", 30, "None"⟩
        ⟨30, "rest", "REST", none, "Rabbit"⟩ ⟨21, "Out", 11, "JSON", 0, 0⟩ "\x7b\x7d" []
      = sendOutcome (ProtocolAdapter.rest.Send (Sample.env Sample.danglingAuthStore Sample.allUp)
          (buildEndpoint ⟨61, "sap", 1, "https://sap.example.com/api", 0, 51⟩
            ⟨11, "orders", "/orders", 1, "POST"⟩)
          (routeAction ⟨30, "rest", "REST", none, "Rabbit"⟩ ⟨11, "orders", "/orders", 1, "POST"⟩)
          [] "\x7b\x7d"
          ([] ++ [.RouteGetByID 11] ++ [.GetConnectionSettings 1] ++ [.GetConnectionAuth 51])) :=
  (processRoute_unresolved_auth (Sample.env Sample.danglingAuthStore Sample.allUp)
    ⟨21, "to-sap", 30, "None"⟩ ⟨30, "rest", "REST", none, "Rabbit"⟩
    ⟨21, "Out", 11, "JSON", 0, 0⟩ "\x7b\x7d" [] ⟨11, "orders", "/orders", 1, "POST"⟩
    ⟨61, "sap", 1, "https://sap.example.com/api", 0, 51⟩ "\x7b\x7d" Sample.noRows .rest
    (by decide) (by decide) (by decide) (by decide) (by decide) (by decide)).1

/-- The method `processRoute` of the service that `NewMessageService` creates
is `processRouteWith` on that service. -/
theorem processRoute_eq_service (env : Env) (thread : Thread) (group : ThreadGroup)
    (threadRoute : ThreadRoute) (messageData : String) (hist : List Event) :
    processRoute env thread group threadRoute messageData hist
      = processRouteWith NewMessageService env thread group threadRoute messageData hist :=
  rfl

/-- On every service, with the route, its connection setting, the converted
data, the adapter and the authentication headers at hand, `processRoute` calls
`Send` with the action of the protocol and returns by the error of `Send`. -/
theorem serviceRoute_send (s : messageService) (env : Env) (thread : Thread)
    (group : ThreadGroup) (threadRoute : ThreadRoute) (messageData : String)
    (hist : List Event) (route : Route) (connSettings : ConnectionSetting)
    (convertedData : String) (protocolAdapter : ProtocolAdapter) (headers : GoMap String)
    (histA : List Event)
    (hroute : env.RouteGetByID hist threadRoute.Route = .ok route)
    (hconn : env.GetConnectionSettings (hist ++ [.RouteGetByID threadRoute.Route]) route.System
      = .ok connSettings)
    (hconv : (if threadRoute.FileFormat ≠ "JSON" then
        Convert env.lib messageData "JSON" threadRoute.FileFormat
      else Except.ok messageData) = .ok convertedData)
    (hadapter : s.adapterFactory.GetAdapter group.Protocol = .ok protocolAdapter)
    (hauth : authHeaders env protocolAdapter connSettings
      (hist ++ [.RouteGetByID threadRoute.Route] ++ [.GetConnectionSettings route.System])
        = (.ok headers, histA)) :
    processRouteWith s env thread group threadRoute messageData hist
      = sendOutcome (protocolAdapter.Send env (buildEndpoint connSettings route)
          (routeAction group route) headers convertedData histA) := by
  unfold processRouteWith
  dsimp only
  rw [hroute]
  dsimp only
  rw [hconn]
  dsimp only
  rw [hconv]
  dsimp only
  rw [hadapter]
  dsimp only
  rw [hauth]
  dsimp only
  unfold sendOutcome
  cases (protocolAdapter.Send env (buildEndpoint connSettings route)
    (routeAction group route) headers convertedData histA).1.err <;> rfl

/-- C25: the action that `processRoute` passes to `Send` is the method of the
route for a REST group, the path of the route for a SOAP group and the empty
string for an AMQP group, the adapter being the one that the factory of the
service holds for the protocol. This holds on every service, also on one whose
AMQP adapter has a channel, where `Send` publishes to the exchange named by
the action; `processRoute` of the router is the method on the service that
`NewMessageService` creates. -/
theorem processRoute_action (s : messageService) (env : Env) (thread : Thread)
    (group : ThreadGroup) (threadRoute : ThreadRoute) (messageData : String)
    (hist : List Event) (route : Route) (connSettings : ConnectionSetting)
    (convertedData : String) (protocolAdapter : ProtocolAdapter) (headers : GoMap String)
    (histA : List Event)
    (hroute : env.RouteGetByID hist threadRoute.Route = .ok route)
    (hconn : env.GetConnectionSettings (hist ++ [.RouteGetByID threadRoute.Route]) route.System
      = .ok connSettings)
    (hconv : (if threadRoute.FileFormat ≠ "JSON" then
        Convert env.lib messageData "JSON" threadRoute.FileFormat
      else Except.ok messageData) = .ok convertedData)
    (hadapter : s.adapterFactory.GetAdapter group.Protocol = .ok protocolAdapter)
    (hauth : authHeaders env protocolAdapter connSettings
      (hist ++ [.RouteGetByID threadRoute.Route] ++ [.GetConnectionSettings route.System])
        = (.ok headers, histA)) :
    processRouteWith s env thread group threadRoute messageData hist
        = sendOutcome (protocolAdapter.Send env (buildEndpoint connSettings route)
            (routeAction group route) headers convertedData histA) ∧
      (group.Protocol = ProtocolREST →
        routeAction group route = route.Method ∧ protocolAdapter = .rest ∧
          processRouteWith s env thread group threadRoute messageData hist
            = sendOutcome (RESTAdapter.Send env (buildEndpoint connSettings route) route.Method
                headers convertedData histA)) ∧
      (group.Protocol = ProtocolSOAP →
        routeAction group route = route.Path ∧ protocolAdapter = .soap ∧
          processRouteWith s env thread group threadRoute messageData hist
            = sendOutcome (SOAPAdapter.Send env (buildEndpoint connSettings route) route.Path
                headers convertedData histA)) ∧
      (group.Protocol = ProtocolAMQP →
        routeAction group route = "" ∧ protocolAdapter = .amqp s.adapterFactory.amqpAdapter ∧
          processRouteWith s env thread group threadRoute messageData hist
            = sendOutcome (AMQPAdapter.Send env s.adapterFactory.amqpAdapter
                (buildEndpoint connSettings route) "" headers convertedData histA)) ∧
      (group.Protocol = ProtocolREST ∨ group.Protocol = ProtocolSOAP
        ∨ group.Protocol = ProtocolAMQP) ∧
      processRoute env thread group threadRoute messageData hist
        = processRouteWith NewMessageService env thread group threadRoute messageData hist := by
  have hsend := serviceRoute_send s env thread group threadRoute messageData hist route
    connSettings convertedData protocolAdapter headers histA hroute hconn hconv hadapter hauth
  refine ⟨hsend, ?_, ?_, ?_, ?_, rfl⟩
  · intro hp
    have hpa : protocolAdapter = .rest := by
      rw [hp] at hadapter
      simpa [AdapterFactory.GetAdapter] using hadapter.symm
    have haction : routeAction group route = route.Method := by
      simp [routeAction, hp, ProtocolREST, ProtocolSOAP]
    subst hpa
    refine ⟨haction, rfl, ?_⟩
    rw [hsend, haction]
    rfl
  · intro hp
    have hpa : protocolAdapter = .soap := by
      rw [hp] at hadapter
      simpa [AdapterFactory.GetAdapter, ProtocolREST, ProtocolSOAP] using hadapter.symm
    have haction : routeAction group route = route.Path := by
      simp [routeAction, hp]
    subst hpa
    refine ⟨haction, rfl, ?_⟩
    rw [hsend, haction]
    rfl
  · intro hp
    have hpa : protocolAdapter = .amqp s.adapterFactory.amqpAdapter := by
      rw [hp] at hadapter
      simpa [AdapterFactory.GetAdapter, ProtocolREST, ProtocolSOAP, ProtocolAMQP]
        using hadapter.symm
    have haction : routeAction group route = "" := by
      simp [routeAction, hp, ProtocolREST, ProtocolSOAP, ProtocolAMQP]
    subst hpa
    refine ⟨haction, rfl, ?_⟩
    rw [hsend, haction]
    rfl
  · unfold AdapterFactory.GetAdapter at hadapter
    by_cases h1 : group.Protocol = ProtocolREST
    · exact Or.inl h1
    · by_cases h2 : group.Protocol = ProtocolSOAP
      · exact Or.inr (Or.inl h2)
      · by_cases h3 : group.Protocol = ProtocolAMQP
        · exact Or.inr (Or.inr h3)
        · simp [h1, h2, h3] at hadapter

/-- C25 on a service whose AMQP adapter has a channel, for a route with the
path `/orders` and the method `POST`: the message is published to the exchange
with the empty name; and for the REST route of SAP in the sample store, where
the action is `POST`. -/
theorem processRoute_action_witness :
    routeAction ⟨20, "queue", "AMQP", none, "Rabbit"⟩ ⟨31, "first", "/orders", 41, "POST"⟩ = "" ∧
      processRouteWith ⟨⟨⟨true⟩⟩⟩ (Sample.env Sample.exchangeStore Sample.allUp)
          ⟨10, "fanout", 20, "None"⟩ ⟨20, "queue", "AMQP", none, "Rabbit"⟩
          ⟨10, "Out", 31, "JSON", 0, 0⟩ "\x7b\x7d" []
        = (.ok (), [.RouteGetByID 31, .GetConnectionSettings 41, .QueueDeclare "billing/orders",
            .Publish "" "billing/orders" [] "\x7b\x7d"]) ∧
      processRoute (Sample.env Sample.flowStore Sample.allUp) ⟨21, "to-sap", 30, "None"⟩
          ⟨30, "rest", "REST", none, "Rabbit"⟩ ⟨21, "Out", 11, "JSON", 0, 0⟩ "\x7b\x7d" []
        = sendOutcome (RESTAdapter.Send (Sample.env Sample.flowStore Sample.allUp)
            (buildEndpoint ⟨61, "sap", 1, "https://sap.example.com/api", 0, 0⟩
              ⟨11, "orders", "/orders", 1, "POST"⟩)
            "POST" [] "\x7b\x7d" [.RouteGetByID 11, .GetConnectionSettings 1]) :=
  ⟨((processRoute_action ⟨⟨⟨true⟩⟩⟩ (Sample.env Sample.exchangeStore Sample.allUp)
      ⟨10, "fanout", 20, "None"⟩ ⟨20, "queue", "AMQP", none, "Rabbit"⟩
      ⟨10, "Out", 31, "JSON", 0, 0⟩ "\x7b\x7d" [] ⟨31, "first", "/orders", 41, "POST"⟩
      ⟨61, "billing", 41, "billing", 0, 0⟩ "\x7b\x7d" (.amqp ⟨true⟩) []
      [.RouteGetByID 31, .GetConnectionSettings 41]
      (by decide) (by decide) (by decide) (by decide) (by decide)).2.2.2.1 (by decide)).1,
    ((processRoute_action ⟨⟨⟨true⟩⟩⟩ (Sample.env Sample.exchangeStore Sample.allUp)
      ⟨10, "fanout", 20, "None"⟩ ⟨20, "queue", "AMQP", none, "Rabbit"⟩
      ⟨10, "Out", 31, "JSON", 0, 0⟩ "\x7b\x7d" [] ⟨31, "first", "/orders", 41, "POST"⟩
      ⟨61, "billing", 41, "billing", 0, 0⟩ "\x7b\x7d" (.amqp ⟨true⟩) []
      [.RouteGetByID 31, .GetConnectionSettings 41]
      (by decide) (by decide) (by decide) (by decide) (by decide)).2.2.2.1
        (by decide)).2.2.trans (by decide),
    ((processRoute_action NewMessageService (Sample.env Sample.flowStore Sample.allUp)
      ⟨21, "to-sap", 30, "None"⟩ ⟨30, "rest", "REST", none, "Rabbit"⟩
      ⟨21, "Out", 11, "JSON", 0, 0⟩ "\x7b\x7d" [] ⟨11, "orders", "/orders", 1, "POST"⟩
      ⟨61, "sap", 1, "https://sap.example.com/api", 0, 0⟩ "\x7b\x7d" .rest []
      [.RouteGetByID 11, .GetConnectionSettings 1]
      (by decide) (by decide) (by decide) (by decide) (by decide)).2.1 (by decide)).2.2⟩

/-! ## The AMQP adapter of the factory -/

/-- The authentication block returns no header for the AMQP adapter. -/
theorem authHeaders_amqp (env : Env) (a : AMQPAdapter) (connSettings : ConnectionSetting)
    (hist : List Event) :
    ∃ histA, authHeaders env (.amqp a) connSettings hist = (.ok [], histA) := by
  unfold authHeaders
  by_cases href : connSettings.AuthRef ≠ UUID.Nil
  · rw [if_pos href]
    cases env.GetConnectionAuth hist connSettings.AuthRef with
    | error err => exact ⟨_, rfl⟩
    | ok auth => exact ⟨_, rfl⟩
  · rw [if_neg href]
    exact ⟨_, rfl⟩

/-- Every route of an AMQP group fails in `processRoute`. -/
theorem processRoute_amqp_fails (env : Env) (thread : Thread) (group : ThreadGroup)
    (threadRoute : ThreadRoute) (messageData : String) (hist : List Event)
    (hproto : group.Protocol = ProtocolAMQP) :
    ∃ err, (processRoute env thread group threadRoute messageData hist).1 = .error err := by
  cases hroute : env.RouteGetByID hist threadRoute.Route with
  | error err => exact ⟨"failed to get route: " ++ err, by simp [processRoute, hroute]⟩
  | ok route =>
    cases hconn : env.GetConnectionSettings (hist ++ [.RouteGetByID threadRoute.Route])
        route.System with
    | error err =>
      exact ⟨"failed to get connection settings: " ++ err, by simp [processRoute, hroute, hconn]⟩
    | ok connSettings =>
      cases hconv : (if threadRoute.FileFormat ≠ "JSON" then
          Convert env.lib messageData "JSON" threadRoute.FileFormat
        else Except.ok messageData) with
      | error err =>
        refine ⟨"failed to convert format: " ++ err, ?_⟩
        unfold processRoute
        dsimp only
        rw [hroute]
        dsimp only
        rw [hconn]
        dsimp only
        rw [hconv]
      | ok convertedData =>
        have hadapter : NewAdapterFactory.GetAdapter group.Protocol
            = .ok (.amqp NewAMQPAdapter) := by
          rw [hproto]
          rfl
        obtain ⟨histA, hauth⟩ := authHeaders_amqp env NewAMQPAdapter connSettings
          (hist ++ [.RouteGetByID threadRoute.Route] ++ [.GetConnectionSettings route.System])
        rw [processRoute_send env thread group threadRoute messageData hist route connSettings
          convertedData _ [] histA hroute hconn hconv hadapter hauth]
        exact ⟨_, rfl⟩

/-- The loop over the routes of an AMQP group returns success. -/
theorem routeLoop_amqp (env : Env) (thread : Thread) (group : ThreadGroup)
    (messageData : String) (hproto : group.Protocol = ProtocolAMQP) :
    ∀ (routes : List ThreadRoute) (hist : List Event),
      (routeLoop env thread group messageData routes hist).1 = .ok () := by
  intro routes
  induction routes with
  | nil =>
    intro hist
    rfl
  | cons threadRoute rest ih =>
    intro hist
    obtain ⟨err, herr⟩ := processRoute_amqp_fails env thread group threadRoute messageData hist
      hproto
    rw [routeLoop]
    cases hp : processRoute env thread group threadRoute messageData hist with
    | mk o histP =>
      rw [hp] at herr
      simp only at herr
      subst herr
      exact ih histP

/-- C29: the AMQP adapter of the adapter factory has no channel, so that its
`Send` fails with the channel-not-initialized error for every endpoint, action,
headers and body, before any call to the broker; every route of an AMQP thread
group therefore fails in `processRoute`, and `RouteMessage`, with the thread,
its group and at least one route found, returns success. -/
theorem RouteMessage_amqp_never_sends (env : Env) (threadID : UUID)
    (direction messageData : String) (hist : List Event) (thread : Thread)
    (group : ThreadGroup) (routes : List ThreadRoute)
    (hthread : env.queryThread hist threadID = .ok thread)
    (hgroup : env.queryThreadGroup (hist ++ [.queryThread threadID]) thread.Group = .ok group)
    (hproto : group.Protocol = ProtocolAMQP)
    (hroutes : env.GetThreadRouteByDirection
      (hist ++ [.queryThread threadID] ++ [.queryThreadGroup thread.Group])
      threadID direction = .ok routes)
    (hsome : routes ≠ []) :
    NewAdapterFactory.amqpAdapter.ch = false ∧
      NewAdapterFactory.GetAdapter group.Protocol = .ok (.amqp NewAdapterFactory.amqpAdapter) ∧
      (∀ (endpoint action : String) (headers : GoMap String) (body : String)
          (histS : List Event),
        AMQPAdapter.Send env NewAdapterFactory.amqpAdapter endpoint action headers body histS
          = (⟨none, 0, some "AMQP channel not initialized. Call Connect() first"⟩, histS)) ∧
      (∀ (threadRoute : ThreadRoute) (histP : List Event),
        ∃ err, (processRoute env thread group threadRoute messageData histP).1 = .error err) ∧
      (RouteMessage env threadID direction messageData hist).1 = .ok () := by
  refine ⟨rfl, by rw [hproto]; rfl, fun _ _ _ _ _ => rfl,
    fun threadRoute histP =>
      processRoute_amqp_fails env thread group threadRoute messageData histP hproto, ?_⟩
  have hlen : ¬ routes.length = 0 := fun h => hsome (List.length_eq_zero.mp h)
  simp only [List.append_assoc, List.singleton_append] at hroutes
  simp only [RouteMessage, GetThreadWithGroup, hthread, hgroup, List.append_assoc,
    List.singleton_append, hroutes, hlen, if_false]
  exact routeLoop_amqp env thread group messageData hproto routes _

/-- C29 for the AMQP thread of the sample store, which has two routes. -/
theorem RouteMessage_amqp_never_sends_witness :
    (RouteMessage (Sample.env Sample.queueStore Sample.allUp) 10 "Out" "\x7b\x7d" []).1
      = .ok () :=
  (RouteMessage_amqp_never_sends (Sample.env Sample.queueStore Sample.allUp) 10 "Out"
    "\x7b\x7d" [] ⟨10, "fanout", 20, "None"⟩ ⟨20, "queue", "AMQP", none, "Rabbit"⟩
    [⟨10, "Out", 31, "JSON", 0, 0⟩, ⟨10, "Out", 32, "JSON", 0, 0⟩]
    (by decide) (by decide) (by decide) (by decide) (by decide)).2.2.2.2

/-! ## The systems of `order_payment_flow` -/

theorem getLast?_cons_getD {α β : Type} (x : α) (l : List α) (f : α → β) (d : β) :
    (((x :: l).getLast?).map f).getD d = ((l.getLast?).map f).getD (f x) := by
  cases l with
  | nil => rfl
  | cons y l =>
    rw [List.getLast?_cons_cons]
    cases h : (y :: l).getLast? with
    | none => simp at h
    | some z => rfl

/-- The loop over the systems keeps, for each of the two names, the id of the
last system with that name. -/
theorem findSystems_eq (systems : List System) :
    ∀ a b : UUID,
      findSystems systems (a, b)
        = ((((systems.filter (fun sys => sys.Name = "SAP")).getLast?).map System.Ref).getD a,
          (((systems.filter (fun sys => sys.Name = "Salesforce")).getLast?).map System.Ref).getD b) := by
  induction systems with
  | nil =>
    intro a b
    rfl
  | cons sys rest ih =>
    intro a b
    rw [findSystems, ih]
    have hne : ¬ "SAP" = "Salesforce" := by decide
    have hne' : ¬ "Salesforce" = "SAP" := by decide
    by_cases h1 : sys.Name = "SAP"
    · simp only [h1, hne, List.filter_cons, decide_True, decide_False, if_true, if_false,
        Bool.false_eq_true, getLast?_cons_getD]
    · by_cases h2 : sys.Name = "Salesforce"
      · simp only [h2, hne', List.filter_cons, decide_True, decide_False, if_true, if_false,
          Bool.false_eq_true, getLast?_cons_getD]
      · simp only [h1, h2, List.filter_cons, decide_False, if_false, Bool.false_eq_true]

theorem findSystems_lastNamed (systems : List System) :
    findSystems systems (UUID.Nil, UUID.Nil)
      = (lastNamed "SAP" systems, lastNamed "Salesforce" systems) :=
  findSystems_eq systems UUID.Nil UUID.Nil

theorem lastNamed_of_none (name : String) (systems : List System)
    (h : ∀ sys ∈ systems, sys.Name ≠ name) : lastNamed name systems = UUID.Nil := by
  have hfilter : systems.filter (fun sys => sys.Name = name) = [] := by
    rw [List.filter_eq_nil_iff]
    intro sys hsys
    simpa using h sys hsys
  simp [lastNamed, hfilter]

/-- The flow is the steps 3 to 5 for the ids of the last systems named SAP
and Salesforce, unless the first of these ids is nil. -/
theorem orderPaymentFlow_eq (env : Env) (data : String) (hist : List Event)
    (payload : GoMap JSON) (systems : List System)
    (hparse : env.lib.jsonUnmarshalMap data = .ok payload)
    (hsys : env.SystemGetAll hist = .ok systems) :
    orderPaymentFlow env data hist
      = if lastNamed "SAP" systems = UUID.Nil then
          (.error "SAP system not found", hist ++ [.SystemGetAll])
        else paymentSteps env (lastNamed "SAP" systems) (lastNamed "Salesforce" systems) payload
          (hist ++ [.SystemGetAll]) := by
  unfold orderPaymentFlow
  rw [hparse]
  dsimp only
  rw [hsys]
  dsimp only
  rw [findSystems_lastNamed]
  rfl

theorem failed_ne_not_found (pre err : String) (h : pre.data.head? = some 'f') :
    (Outcome.error (pre ++ err) : Outcome Unit) ≠ .error "SAP system not found" := by
  intro e
  have h1 : pre ++ err = "SAP system not found" := by injection e
  have h2 : (pre ++ err).data.head? = some 'f' := by
    simp [String.data_append, List.head?_append, h]
  rw [h1] at h2
  exact absurd h2 (by decide)

theorem salesforceStep_not_found (env : Env) (salesforceSystemID : UUID)
    (sapOrderData : GoMap JSON) (hist : List Event) :
    (salesforceStep env salesforceSystemID sapOrderData hist).1
      ≠ .error "SAP system not found" := by
  unfold salesforceStep
  by_cases hnil : salesforceSystemID = UUID.Nil
  · rw [if_pos hnil]
    simp
  · rw [if_neg hnil]
    dsimp only
    repeat (any_goals split)
    all_goals first
      | exact failed_ne_not_found _ _ rfl
      | simp

/-- The steps 3 to 5 never report the SAP system missing. -/
theorem paymentSteps_not_found (env : Env) (sapSystemID salesforceSystemID : UUID)
    (payload : GoMap JSON) (hist : List Event) :
    (paymentSteps env sapSystemID salesforceSystemID payload hist).1
      ≠ .error "SAP system not found" := by
  unfold paymentSteps
  dsimp only
  repeat (any_goals split)
  all_goals first
    | exact failed_ne_not_found _ _ rfl
    | exact salesforceStep_not_found _ _ _ _
    | simp

/-- C30, as stated, fails: the repository lists a system named SAP with the
id 1 and, last, a system named SAP with the nil id. A system named SAP with a
non-nil id is listed, and the flow, which keeps the id of the last match,
reports the SAP system missing. -/
theorem orderPaymentFlow_nil_SAP_listed_last :
    (∃ sys ∈ Sample.nilSAPStore.systems, sys.Name = "SAP" ∧ sys.Ref ≠ UUID.Nil) ∧
      findSystems Sample.nilSAPStore.systems (UUID.Nil, UUID.Nil) = (UUID.Nil, 2) ∧
      ExecuteProcess (Sample.env Sample.nilSAPStore Sample.allUp) "order_payment_flow"
          "\x7b\"order_id\":\"O1\",\"status\":\"succeeded\"\x7d" []
        = (.error "SAP system not found", [.SystemGetAll]) := by
  refine ⟨⟨⟨1, "SAP"⟩, by decide, by decide, by decide⟩, by decide, by decide⟩

/-- C30, amended: the loop over the systems keeps the id of the last system
named SAP and of the last system named Salesforce, in list order, and the flow
goes on with these two ids; the SAP system is reported missing exactly when
the id kept for SAP is nil, that is when no listed system is named SAP or the
last listed system named SAP has the nil id. -/
theorem orderPaymentFlow_last_match (env : Env) (data : String) (hist : List Event)
    (payload : GoMap JSON) (systems : List System)
    (hparse : env.lib.jsonUnmarshalMap data = .ok payload)
    (hsys : env.SystemGetAll hist = .ok systems) :
    findSystems systems (UUID.Nil, UUID.Nil)
        = (lastNamed "SAP" systems, lastNamed "Salesforce" systems) ∧
      (lastNamed "SAP" systems ≠ UUID.Nil →
        orderPaymentFlow env data hist
          = paymentSteps env (lastNamed "SAP" systems) (lastNamed "Salesforce" systems) payload
              (hist ++ [.SystemGetAll])) ∧
      (lastNamed "SAP" systems = UUID.Nil →
        orderPaymentFlow env data hist
          = (.error "SAP system not found", hist ++ [.SystemGetAll])) ∧
      ((orderPaymentFlow env data hist).1 = .error "SAP system not found"
        ↔ lastNamed "SAP" systems = UUID.Nil) ∧
      (lastNamed "SAP" systems = UUID.Nil ↔
        (∀ sys ∈ systems, sys.Name ≠ "SAP") ∨
          ∃ sys, (systems.filter (fun sys => sys.Name = "SAP")).getLast? = some sys
            ∧ sys.Ref = UUID.Nil) := by
  have heq := orderPaymentFlow_eq env data hist payload systems hparse hsys
  refine ⟨findSystems_lastNamed systems, ?_, ?_, ?_, ?_⟩
  · intro h
    rw [heq, if_neg h]
  · intro h
    rw [heq, if_pos h]
  · constructor
    · intro h
      by_contra hne
      rw [heq, if_neg hne] at h
      exact paymentSteps_not_found _ _ _ _ _ h
    · intro h
      rw [heq, if_pos h]
  · unfold lastNamed
    cases hlast : (systems.filter (fun sys => sys.Name = "SAP")).getLast? with
    | none =>
      have hnil : systems.filter (fun sys => sys.Name = "SAP") = [] :=
        List.getLast?_eq_none_iff.mp hlast
      simp only [Option.map_none', Option.getD_none, true_iff]
      left
      intro sys hsys hname
      have hmem : sys ∈ systems.filter (fun sys => sys.Name = "SAP") := by
        simp [List.mem_filter, hsys, hname]
      rw [hnil] at hmem
      simp at hmem
    | some last =>
      have hmem : last ∈ systems.filter (fun sys => sys.Name = "SAP") :=
        List.mem_of_getLast?_eq_some hlast
      have hlastmem : last ∈ systems ∧ last.Name = "SAP" := by
        simpa [List.mem_filter] using hmem
      simp only [Option.map_some', Option.getD_some]
      constructor
      · intro h
        exact Or.inr ⟨last, rfl, h⟩
      · rintro (h | ⟨sys, hsys, href⟩)
        · exact absurd hlastmem.2 (h last hlastmem.1)
        · simp only [Option.some.injEq] at hsys
          rw [hsys]
          exact href

/-- C30, amended, for a list with two systems named SAP: the id 1 of the
second is the one for which the routes are looked up. -/
theorem orderPaymentFlow_last_match_witness :
    lastNamed "SAP" Sample.twoSAPStore.systems = 1 ∧
      orderPaymentFlow (Sample.env Sample.twoSAPStore Sample.allUp)
          "\x7b\"order_id\":\"O1\",\"status\":\"succeeded\"\x7d" []
        = paymentSteps (Sample.env Sample.twoSAPStore Sample.allUp)
            (lastNamed "SAP" Sample.twoSAPStore.systems)
            (lastNamed "Salesforce" Sample.twoSAPStore.systems)
            [("order_id", .str "O1"), ("status", .str "succeeded")] ([] ++ [.SystemGetAll]) :=
  ⟨by decide,
    (orderPaymentFlow_last_match (Sample.env Sample.twoSAPStore Sample.allUp)
      "\x7b\"order_id\":\"O1\",\"status\":\"succeeded\"\x7d" []
      [("order_id", .str "O1"), ("status", .str "succeeded")] Sample.twoSAPStore.systems
      rfl rfl).2.1 (by decide)⟩

/-- C23: in `order_payment_flow`, when the system SAP is found, the step-A
message is dispatched with success and no system is named `Salesforce`,
`ExecuteProcess` returns success right after the `RouteMessage` call of step
A: the calls made are those up to the end of that call, with no lookup of a
route or thread for step B and no second dispatch. -/
theorem ExecuteProcess_without_Salesforce (env : Env) (data : String) (hist : List Event)
    (payload : GoMap JSON) (systems : List System) (sapData : String) (threadID : UUID)
    (histT histA : List Event)
    (hparse : env.lib.jsonUnmarshalMap data = .ok payload)
    (hsys : env.SystemGetAll hist = .ok systems)
    (hsap : lastNamed "SAP" systems ≠ UUID.Nil)
    (hnone : ∀ sys ∈ systems, sys.Name ≠ "Salesforce")
    (hmarshal : env.lib.jsonMarshal
      (.obj (transformStripeToSAP env.lib (env.timeNow (hist ++ [.SystemGetAll])) payload))
        = .ok sapData)
    (hthread : findThreadForSystem env (lastNamed "SAP" systems) DirectionOut
      (hist ++ [.SystemGetAll] ++ [.timeNow]) = (.ok threadID, histT))
    (hroute : RouteMessage env threadID DirectionOut sapData histT = (.ok (), histA)) :
    ExecuteProcess env "order_payment_flow" data hist = (.ok (), histA) ∧
      salesforceStep env (lastNamed "Salesforce" systems)
          (transformStripeToSAP env.lib (env.timeNow (hist ++ [.SystemGetAll])) payload) histA
        = (.ok (), histA) := by
  have hsf : lastNamed "Salesforce" systems = UUID.Nil :=
    lastNamed_of_none "Salesforce" systems hnone
  have hstep : ∀ sapOrderData : GoMap JSON,
      salesforceStep env (lastNamed "Salesforce" systems) sapOrderData histA = (.ok (), histA) := by
    intro sapOrderData
    simp [salesforceStep, hsf]
  refine ⟨?_, hstep _⟩
  simp only [ExecuteProcess, if_true]
  rw [orderPaymentFlow_eq env data hist payload systems hparse hsys, if_neg hsap]
  unfold paymentSteps
  dsimp only
  rw [hmarshal]
  dsimp only
  rw [hthread]
  dsimp only
  rw [hroute]
  exact hstep _

/-- C23 for a store with the system SAP and no system Salesforce. -/
theorem ExecuteProcess_without_Salesforce_witness :
    ExecuteProcess (Sample.env Sample.sapOnlyStore Sample.allUp) "order_payment_flow"
        "\x7b\"order_id\":\"O1\",\"status\":\"succeeded\"\x7d" []
      = (.ok (),
        [.SystemGetAll, .timeNow, .RouteGetBySystem 1, .GetThreadRouteByRouteID 11,
          .queryThread 21, .queryThreadGroup 30, .GetThreadRouteByDirection 21 "Out",
          .RouteGetByID 11, .GetConnectionSettings 1,
          .httpDo ⟨"POST", "https://sap.example.com/api/orders",
            [("Content-Type", "application/json")],
            some ("\x7b\"OrderNumber\":\"O1\",\"PaymentGateway\":\"Stripe\","
              ++ "\"PaymentStatus\":\"succeeded\",\"Timestamp\":\"2024-05-01T12:00:00Z\"\x7d")⟩]) :=
  (ExecuteProcess_without_Salesforce (Sample.env Sample.sapOnlyStore Sample.allUp)
    "\x7b\"order_id\":\"O1\",\"status\":\"succeeded\"\x7d" []
    [("order_id", .str "O1"), ("status", .str "succeeded")] Sample.sapOnlyStore.systems
    ("\x7b\"OrderNumber\":\"O1\",\"PaymentGateway\":\"Stripe\","
      ++ "\"PaymentStatus\":\"succeeded\",\"Timestamp\":\"2024-05-01T12:00:00Z\"\x7d")
    21 [.SystemGetAll, .timeNow, .RouteGetBySystem 1, .GetThreadRouteByRouteID 11] _
    rfl rfl (by decide) (by decide) (by decide) (by decide) (by decide)).1

end GoEsb
